import Mathlib

/-!
# Verification of the CodeMirror LaTeX mode tokenizer

Shallow embedding of `src/public/es/ide/editor/codemirror/parser.js`
(`LatexMode`): an incremental, resumable pushdown tokenizer for LaTeX that
emits one style token per call and collects structural marks.

The JavaScript pushes closures onto `state.stack`; here the stack entries are
defunctionalized into the inductive type `Tok`, with all data captured by the
closures stored in the constructors.  JavaScript object identity of open marks
(needed for `openParent` comparisons) is modelled by tagging each open mark
with a fresh numeric id drawn from a counter in the state.  Lists used as
stacks (`stack`, `openMarks`) keep the most recently pushed element at the
head; `marks` keeps chronological order (oldest first), as in the source.
-/

set_option maxHeartbeats 1000000

deriving instance DecidableEq for Except

namespace LatexMode

/-- `CodeMirror.Pos(line, ch)`: a (line, column) position.  `line` is an `Int`
because `state.line` is initialized to `-1` by `startState`. -/
structure Pos where
  line : Int
  ch : Nat
  deriving Repr, DecidableEq

/-- Lexicographic order on positions. -/
def Pos.le (p q : Pos) : Prop :=
  p.line < q.line ∨ (p.line = q.line ∧ p.ch ≤ q.ch)

/-- Strict lexicographic order on positions. -/
def Pos.lt (p q : Pos) : Prop :=
  p.line < q.line ∨ (p.line = q.line ∧ p.ch < q.ch)

instance : LE Pos := ⟨Pos.le⟩
instance : LT Pos := ⟨Pos.lt⟩

instance (p q : Pos) : Decidable (p ≤ q) := by
  show Decidable (Pos.le p q); unfold Pos.le; infer_instance

instance (p q : Pos) : Decidable (p < q) := by
  show Decidable (Pos.lt p q); unfold Pos.lt; infer_instance

theorem Pos.le_refl (p : Pos) : p ≤ p := Or.inr ⟨rfl, Nat.le_refl _⟩

theorem Pos.le_trans {p q r : Pos} (h₁ : p ≤ q) (h₂ : q ≤ r) : p ≤ r := by
  rcases h₁ with h₁ | ⟨e₁, l₁⟩ <;> rcases h₂ with h₂ | ⟨e₂, l₂⟩
  · exact Or.inl (lt_trans h₁ h₂)
  · exact Or.inl (e₂ ▸ h₁)
  · exact Or.inl (e₁ ▸ h₂)
  · exact Or.inr ⟨e₁.trans e₂, Nat.le_trans l₁ l₂⟩

theorem Pos.lt_of_lt_of_le {p q r : Pos} (h₁ : p < q) (h₂ : q ≤ r) : p < r := by
  rcases h₁ with h₁ | ⟨e₁, l₁⟩ <;> rcases h₂ with h₂ | ⟨e₂, l₂⟩
  · exact Or.inl (lt_trans h₁ h₂)
  · exact Or.inl (e₂ ▸ h₁)
  · exact Or.inl (e₁ ▸ h₂)
  · exact Or.inr ⟨e₁.trans e₂, Nat.lt_of_lt_of_le l₁ l₂⟩

theorem Pos.le_of_lt {p q : Pos} (h : p < q) : p ≤ q := by
  rcases h with h | ⟨e, l⟩
  · exact Or.inl h
  · exact Or.inr ⟨e, Nat.le_of_lt l⟩

theorem Pos.le_of_lt_of_le {p q r : Pos} (h₁ : p < q) (h₂ : q ≤ r) : p ≤ r :=
  Pos.le_of_lt (Pos.lt_of_lt_of_le h₁ h₂)

theorem Pos.le_of_le_ch {l : Int} {a b : Nat} (h : a ≤ b) :
    Pos.mk l a ≤ Pos.mk l b := Or.inr ⟨rfl, h⟩

theorem Pos.lt_of_lt_ch {l : Int} {a b : Nat} (h : a < b) :
    Pos.mk l a < Pos.mk l b := Or.inr ⟨rfl, h⟩

theorem Pos.le_of_lt_line {l l' : Int} {a b : Nat} (h : l < l') :
    Pos.mk l a ≤ Pos.mk l' b := Or.inl h

/-!
## Line stream

`CodeMirror.StringStream` restricted to the operations the mode uses.
`str` is the text of the current line, `pos` the cursor, and `start` the
beginning of the current token (the driver sets `start := pos` before each
`token` call).
-/

structure Stream' where
  str : List Char
  start : Nat
  pos : Nat
  deriving Repr, DecidableEq

namespace Stream'

/-- The unconsumed rest of the line. -/
def rest (st : Stream') : List Char := st.str.drop st.pos

/-- `stream.sol()`. -/
def sol (st : Stream') : Bool := st.pos == 0

/-- `stream.eol()`. -/
def eol (st : Stream') : Bool := st.str.length ≤ st.pos

/-- `stream.peek()`. -/
def peek (st : Stream') : Option Char := st.str.get? st.pos

/-- `stream.next()`: consume one character if any. -/
def next (st : Stream') : Stream' :=
  if st.pos < st.str.length then { st with pos := st.pos + 1 } else st

/-- `stream.eat(ch)` for a single-character literal. -/
def eat (st : Stream') (c : Char) : Option Stream' :=
  if st.peek = some c then some { st with pos := st.pos + 1 } else none

/-- `stream.match(string)` with consumption: literal prefix match. -/
def matchStr (st : Stream') (lit : List Char) : Option Stream' :=
  if lit.isPrefixOf st.rest then some { st with pos := st.pos + lit.length }
  else none

/-- `stream.match(string, false)`: literal lookahead, no consumption. -/
def lookStr (st : Stream') (lit : List Char) : Bool :=
  lit.isPrefixOf st.rest

/-- `stream.skipToEnd()`. -/
def skipToEnd (st : Stream') : Stream' := { st with pos := st.str.length }

/-- `stream.skipTo(ch)`: move to the next occurrence of `ch`, if any. -/
def skipTo (st : Stream') (c : Char) : Option Stream' :=
  match (st.rest.findIdx? (· = c)) with
  | some i => some { st with pos := st.pos + i }
  | none => none

end Stream'

/-!
## Pattern matchers

Each regular expression used by the mode is translated into an explicit
matcher.  A consuming matcher returns `some stream'` on success (pattern
matched at the cursor) and `none` otherwise; a lookahead matcher returns
`Bool`.  All patterns in the source are anchored at the cursor (either by `^`
or by CodeMirror's `match.index > 0` rejection).
-/

/-- JavaScript `\s` (the characters relevant here), plus ` ` which the
source adds explicitly in its whitespace classes. -/
def jsSpace (c : Char) : Bool :=
  c = ' ' || c = '\t' || c = '\n' || c = '\r' ||
  c = Char.ofNat 11 || c = Char.ofNat 12 || c = Char.ofNat 160

def isAsciiLetter (c : Char) : Bool :=
  ('a' ≤ c && c ≤ 'z') || ('A' ≤ c && c ≤ 'Z')

def isDigit (c : Char) : Bool := '0' ≤ c && c ≤ '9'

namespace Stream'

/-- `/^\s*%/` followed by `skipToEnd` is done by the caller; this just matches
the `\s*%` part. -/
def matchLineCommentStart (st : Stream') : Option Stream' :=
  let ws := st.rest.takeWhile jsSpace
  let k := ws.length
  match st.str.get? (st.pos + k) with
  | some '%' => some { st with pos := st.pos + k + 1 }
  | _ => none

/-- `/^[\s ]+$/`: one or more whitespace characters reaching the end of
the line; consumes them on success. -/
def matchAllSpaceToEol (st : Stream') : Option Stream' :=
  if st.rest ≠ [] ∧ st.rest.all jsSpace then some st.skipToEnd else none

/-- A literal followed by `\s*` (e.g. `/^\\begin\s*/`, `/^\\section\s*/`). -/
def matchLitThenSpaces (st : Stream') (lit : List Char) : Option Stream' :=
  match st.matchStr lit with
  | some st' =>
    some { st' with pos := st'.pos + (st'.rest.takeWhile jsSpace).length }
  | none => none

/-- `/[^{}]+/` as used in the begin/end sequences: thanks to CodeMirror's
`match.index > 0` check this matches a nonempty maximal run of non-brace
characters at the cursor. -/
def matchEnvNameRun (st : Stream') : Option Stream' :=
  let run := st.rest.takeWhile (fun c => ¬ (c = '{' ∨ c = '}'))
  if run = [] then none else some { st with pos := st.pos + run.length }

/-- A maximal nonempty run of characters satisfying `p`
(e.g. `/^[^\\]+/`, `/^[&~]+/`). -/
def matchRun (st : Stream') (p : Char → Bool) : Option Stream' :=
  let run := st.rest.takeWhile p
  if run = [] then none else some { st with pos := st.pos + run.length }

/-- Lookahead `/^\\name\s*[\[{]/` built by `_buildCommandPatterns`. -/
def lookCommandWithArg (st : Stream') (name : List Char) : Bool :=
  match st.matchLitThenSpaces ('\\' :: name) with
  | some st' => st'.peek = some '[' ∨ st'.peek = some '{'
  | none => false

/-- `/^\\title[\[{]/` lookahead (note: no `\s*` for `\title`). -/
def lookTitle (st : Stream') : Bool :=
  match st.matchStr ('\\' :: "title".data) with
  | some st' => st'.peek = some '[' ∨ st'.peek = some '{'
  | none => false

/-- `/^\\maketitle$/`: the literal must reach the end of the line. -/
def matchMaketitle (st : Stream') : Option Stream' :=
  match st.matchStr ('\\' :: "maketitle".data) with
  | some st' => if st'.eol then some st' else none
  | none => none

/-- `/^\\item(?: |$)/`: `\item` followed by a consumed space or end of line. -/
def matchItemCmd (st : Stream') : Option Stream' :=
  match st.matchStr ('\\' :: "item".data) with
  | some st' =>
    match st'.peek with
    | some ' ' => some { st' with pos := st'.pos + 1 }
    | some _ => none
    | none => some st'
  | none => none

/-- `/^\\verb\*?([^a-zA-Z])/`: returns the captured delimiter character. The
optional `\*?` is tried greedily; if the character after the star is a letter
or missing, the regex engine backtracks and the star itself is captured as the
(non-letter) delimiter. -/
def matchVerbCmd (st : Stream') : Option (Char × Stream') :=
  match st.matchStr ('\\' :: "verb".data) with
  | some st' =>
    match st'.peek with
    | some '*' =>
      let stStar := { st' with pos := st'.pos + 1 }
      match stStar.peek with
      | some c =>
        if isAsciiLetter c then some ('*', stStar)
        else some (c, { stStar with pos := stStar.pos + 1 })
      | none => some ('*', stStar)
    | some c => if isAsciiLetter c then none else some (c, { st' with pos := st'.pos + 1 })
    | none => none
  | none => none

/-- `/^\\(?:[a-zA-Z]+|.|\n)/`: a backslash followed by a letter run, or by any
single character; fails if the backslash ends the line. -/
def matchBackslashCmd (st : Stream') : Option Stream' :=
  match st.matchStr ['\\'] with
  | some st' =>
    match st'.peek with
    | some c =>
      if isAsciiLetter c then
        some { st' with pos := st'.pos + (st'.rest.takeWhile isAsciiLetter).length }
      else
        some { st' with pos := st'.pos + 1 }
    | none => none
  | none => none

/-- `/^(?:\d+\.\d*|\d*\.\d+|\d+)/`. -/
def matchNumber (st : Stream') : Option Stream' :=
  let d1 := st.rest.takeWhile isDigit
  if d1 ≠ [] ∧ st.str.get? (st.pos + d1.length) = some '.' then
    -- first alternative: \d+\.\d*
    let d2 := (st.str.drop (st.pos + d1.length + 1)).takeWhile isDigit
    some { st with pos := st.pos + d1.length + 1 + d2.length }
  else if st.str.get? (st.pos + d1.length) = some '.' ∧
      (st.str.drop (st.pos + d1.length + 1)).takeWhile isDigit ≠ [] then
    -- second alternative: \d*\.\d+ (here d1 = [])
    let d2 := (st.str.drop (st.pos + d1.length + 1)).takeWhile isDigit
    some { st with pos := st.pos + d1.length + 1 + d2.length }
  else if d1 ≠ [] then
    some { st with pos := st.pos + d1.length }
  else none

/-- Begin pattern `^\\begin\s*{name}` with optional `$` anchor
(`_buildEnvironmentBeginAndEndPatterns`); lookahead only. -/
def lookEnvBegin (st : Stream') (name : List Char) (singleLine : Bool) : Bool :=
  match st.matchLitThenSpaces ('\\' :: "begin".data) with
  | some st' =>
    match st'.matchStr ('{' :: name ++ ['}']) with
    | some st'' => if singleLine then st''.eol else true
    | none => false
  | none => false

/-- End pattern `^\\end\s*{name}`; lookahead only. -/
def lookEnvEnd (st : Stream') (name : List Char) : Bool :=
  match st.matchLitThenSpaces ('\\' :: "end".data) with
  | some st' => (st'.matchStr ('{' :: name ++ ['}'])).isSome
  | none => false

/-- Lookahead `/^\\begin\s*{[^}]+}/`. -/
def lookBeginAny (st : Stream') : Bool :=
  match st.matchLitThenSpaces ('\\' :: "begin".data) with
  | some st' =>
    match st'.matchStr ['{'] with
    | some st'' =>
      let run := st''.rest.takeWhile (· ≠ '}')
      run ≠ [] ∧ st''.str.get? (st''.pos + run.length) = some '}'
    | none => false
  | none => false

/-- Lookahead `/^\\end\s*{[^}]+}/`. -/
def lookEndAny (st : Stream') : Bool :=
  match st.matchLitThenSpaces ('\\' :: "end".data) with
  | some st' =>
    match st'.matchStr ['{'] with
    | some st'' =>
      let run := st''.rest.takeWhile (· ≠ '}')
      run ≠ [] ∧ st''.str.get? (st''.pos + run.length) = some '}'
    | none => false
  | none => false

/-- Lookahead `/^\\end\s*{document}/`. -/
def lookEndDocument (st : Stream') : Bool :=
  st.lookEnvEnd "document".data

/-- `_matchBlankLine`: `stream.sol() && (stream.eol() || stream.match(/^[\s ]+$/))`.
Returns the possibly-consuming stream: the whitespace match consumes on
success. -/
def matchBlankLine (st : Stream') : Bool × Stream' :=
  if st.sol then
    if st.eol then (true, st)
    else match st.matchAllSpaceToEol with
      | some st' => (true, st')
      | none => (false, st)
  else (false, st)

end Stream'

/-!
## Marks and mode state
-/

/-- The auxiliary `checkedProperties` bag on a mark.  `openMarksCount` is an
`Int` because the source computes `state.openMarks.length - 1`. -/
structure Checked where
  kind : Option String := none
  number : Option Nat := none
  openMarksCount : Option Int := none
  fromLine : Option Int := none
  toLine : Option Int := none
  deriving Repr, DecidableEq

/-- An open mark, as created by `_openMark` (`new Mark(kind, openPos,
currentPos)`): only `kind`, `from` and `contentFrom` are set; `openParent`
is always undefined on open marks.  `id` models JavaScript object identity. -/
structure OMark where
  id : Nat
  kind : String
  from_ : Pos
  contentFrom : Pos
  checkedProperties : Checked := {}
  deriving Repr, DecidableEq

/-- A closed mark, as created by `_closeMark` (`new Mark(kind, from,
contentFrom, closePos, currentPos, openParent)`).  `openParent` is the id of
the open mark below this one on `openMarks` at close time, if any. -/
structure CMark where
  kind : String
  from_ : Pos
  contentFrom : Pos
  contentTo : Pos
  to_ : Pos
  openParent : Option Nat
  checkedProperties : Checked := {}
  deriving Repr, DecidableEq

/-- Inner tokenizers referenced by stack entries and environment tables
(the `tokenizer` / `innerMode` function values of the source,
defunctionalized). -/
inductive ITok where
  | textTok      -- _matchText
  | mathTok      -- _matchMath
  | verbatimTok  -- _matchVerbatimEnvironment
  | commentTok   -- _matchCommentEnvironment
  | listTok      -- _matchListContent
  | figureTok    -- _matchFigureContent
  | tikzTok      -- _matchTikZ
  deriving Repr, DecidableEq

/-- An environment descriptor (one entry of the `_*_ENVIRONMENTS` tables).
`name` is the literal environment name text matched by the patterns (for the
starred keys like `'align\\*'` the literal is `align*`). -/
structure EnvCfg where
  name : List Char
  kind : Option String
  allowBlankLines : Bool
  matchOnSingleLine : Bool := false
  tokenizer : ITok
  deriving Repr, DecidableEq

/-- Callbacks run after the last pattern of a `_matchSequence`. -/
inductive Cb where
  | noop
  | envBegin (cfg : EnvCfg) (markOpenPos : Option Pos)
  | envEnd (hasMark : Bool) (closePos : Option Pos)
  | endDoc
  deriving Repr, DecidableEq

/-- The patterns appearing in begin/end sequences. -/
inductive SeqPat where
  | beginCmd  -- /^\begin\s*/   (written with a doubled backslash in the source)
  | endCmd    -- /^\end\s*/
  | lbrace    -- '{'
  | envName   -- /[^{}]+/
  | rbrace    -- '}'
  deriving Repr, DecidableEq

/-- A defunctionalized stack entry: one constructor per kind of closure the
source pushes onto `state.stack` (plus the bottom `_topLevel`). -/
inductive Tok where
  /-- `_topLevel`. -/
  | topLevel
  /-- `_defer`red `_matchNext` of `_matchSequence`: the remaining
  (pattern, token) pairs and the final callback. -/
  | seq (pats : List (SeqPat × Option String)) (cb : Cb)
  /-- `_defer`red `_matchAndMarkRequiredArgument(kind, openPos, _matchText)`. -/
  | deferReqArgMark (kind : String) (openPos : Pos)
  /-- `_defer`red `_matchAndMarkOptionalArgument(kind, openPos, _matchText)`. -/
  | deferOptArgMark (kind : String) (openPos : Pos)
  /-- `_defer`red `_matchOptionalArgument(_matchText)` (unmarked). -/
  | deferOptArg
  /-- The closure pushed by `_matchAndMark` after the opening matched. -/
  | andMark (close : List Char) (closeStyle : String)
      (abandon : List (List Char)) (inner : ITok)
  /-- The closure pushed by `_matchArgument` after the opening matched. -/
  | argClose (close : List Char) (closeStyle : String) (inner : ITok)
  /-- The closure pushed by `_matchGroup` (inner mode is `_matchText`). -/
  | group
  /-- The closure pushed by `_matchVerbCommand`, holding the delimiter. -/
  | verb (delim : Char)
  /-- `_matchEnvironment` of `_matchEnvironments`, holding its `envConfig`. -/
  | env (cfg : EnvCfg)
  /-- The terminal pushed by `_matchEndDocument`: everything is a comment. -/
  | commentRest
  deriving Repr, DecidableEq

/-- The mode state.  `stack` and `openMarks` have their top (most recently
pushed) element first; `marks` is in closing order, oldest first.  `nextId`
is the fresh-id counter modelling object allocation. -/
structure St where
  stack : List Tok
  line : Int
  openMarks : List OMark
  marks : List CMark
  nextId : Nat
  deriving Repr, DecidableEq

/-!
## Mark and stack primitives
-/

/-- `_startPos(stream, state)`. -/
def startPos (st : Stream') (s : St) : Pos := ⟨s.line, st.start⟩

/-- `_currentPos(stream, state)`: `stream.start + stream.current().length`
equals `stream.pos`. -/
def currentPos (st : Stream') (s : St) : Pos := ⟨s.line, st.pos⟩

/-- `_push(state, tokenizer)`. -/
def pushTok (s : St) (t : Tok) : St := { s with stack := t :: s.stack }

/-- `_openMark(stream, state, kind, openPos)`. -/
def openMark (st : Stream') (s : St) (kind : String) (openPos : Pos) : St :=
  { s with
    openMarks := ⟨s.nextId, kind, openPos, currentPos st s, {}⟩ :: s.openMarks,
    nextId := s.nextId + 1 }

/-- `_abandonMark(stream, state)`: pop `openMarks` (a no-op when empty, like
`Array.prototype.pop`). -/
def abandonMark (s : St) : St := { s with openMarks := s.openMarks.drop 1 }

/-- The closed mark `_closeMark` builds from the open mark `om` when the
remaining open marks are `ros`. -/
def mkClosed (st : Stream') (s : St) (closePos : Pos) (om : OMark)
    (ros : List OMark) : CMark :=
  { kind := om.kind, from_ := om.from_, contentFrom := om.contentFrom,
    contentTo := closePos, to_ := currentPos st s,
    openParent := (ros.head?).map OMark.id }

/-- `_closeMark(stream, state, closePos)` given a destructured `openMarks`;
used where an `_openMark` immediately precedes, so the stack is nonempty by
construction. -/
def closeTop (st : Stream') (s : St) (closePos : Pos) (om : OMark)
    (ros : List OMark) : St × CMark :=
  let m := mkClosed st s closePos om ros
  ({ s with openMarks := ros, marks := s.marks ++ [m] }, m)

/-- `_closeMark` in the general case: errors when `openMarks` is empty
(the JavaScript would fault reading properties of `undefined`). -/
def closeMarkE (st : Stream') (s : St) (closePos : Pos) :
    Except String (St × CMark) :=
  match s.openMarks with
  | [] => .error "closeMark: no open mark"
  | om :: ros => .ok (closeTop st s closePos om ros)

/-- Replace the `checkedProperties` of the most recently closed mark
(the source assigns to `closedMark.checkedProperties.x` right after
`_closeMark`). -/
def setLastChecked (s : St) (f : Checked → Checked) : St :=
  match s.marks.getLast? with
  | none => s
  | some m =>
    { s with marks := s.marks.dropLast ++
        [{ m with checkedProperties := f m.checkedProperties }] }

/-- Set `checkedProperties` on the top open mark (used by
`_matchEnvironments` for `openMark.checkedProperties.openMarksCount`). -/
def setOpenChecked (s : St) (f : Checked → Checked) : St :=
  match s.openMarks with
  | [] => s
  | om :: ros =>
    { s with openMarks := { om with checkedProperties := f om.checkedProperties } :: ros }

/-!
## Command and environment tables
-/

/-- `_MATH_ENVIRONMENTS`, in object-key insertion order.  All math
environments use `_matchMath` and forbid blank lines. -/
def mathEnvironments : List EnvCfg :=
  (⟨"math".data, some "inline-math", false, false, .mathTok⟩ : EnvCfg) ::
  (⟨"displaymath".data, some "display-math", false, false, .mathTok⟩ : EnvCfg) ::
  (["equation", "eqnarray", "align", "gather", "multline", "alignat",
    "xalignat"].flatMap fun e =>
    [(⟨e.data, some "outer-display-math", false, false, .mathTok⟩ : EnvCfg),
     (⟨e.data ++ ['*'], some "outer-display-math", false, false, .mathTok⟩ : EnvCfg)])

/-- `_IGNORED_ENVIRONMENTS`: verbatim family and `comment`; all allow blank
lines. -/
def ignoredEnvironments : List EnvCfg :=
  [⟨"verbatim".data, none, true, false, .verbatimTok⟩,
   ⟨"Verbatim".data, none, true, false, .verbatimTok⟩,
   ⟨"lstlisting".data, none, true, false, .verbatimTok⟩,
   ⟨"minted".data, none, true, false, .verbatimTok⟩,
   ⟨"comment".data, none, true, false, .commentTok⟩]

/-- `_TOP_LEVEL_ENVIRONMENTS`. -/
def topLevelEnvironments : List EnvCfg :=
  [⟨"abstract".data, some "abstract", true, false, .textTok⟩]

/-- `_LIST_ENVIROMENTS`: itemize/enumerate allow blank lines and are the only
environments with `matchOnSingleLine`. -/
def listEnvironments : List EnvCfg :=
  [⟨"itemize".data, some "itemize", true, true, .listTok⟩,
   ⟨"enumerate".data, some "enumerate", true, true, .listTok⟩]

/-- `_FIGURE_ENVIRONMENTS`. -/
def figureEnvironments : List EnvCfg :=
  [⟨"figure".data, some "figure", true, false, .figureTok⟩]

/-- `_TIKZ_ENVIRONMENTS`: matched but not marked (no `kind`). -/
def tikzEnvironments : List EnvCfg :=
  [⟨"tikzpicture".data, none, true, false, .tikzTok⟩]

/-- `_bibCommands`, in order. -/
def bibCommands : List String :=
  ["cite", "citep", "citet", "footcite", "nocite", "autocite", "autocites",
   "citeauthor", "citeyear", "parencite", "citealt", "textcite", "cref", "Cref"]

/-!
## The match functions

Every `_match*` function of the source becomes a function
`Stream' → St → MRes`.  The result style is `Option String`
(`none` = the JavaScript `undefined`).  A `.error` result models a thrown
exception / fault.  The `a(stream, state) || b(stream, state)` chains are
modelled by `mOr`, which passes `a`'s (possibly modified) stream and state on
to `b` when `a`'s result is falsy, exactly as the JavaScript does.
-/

abbrev MRes := Except String (Option String × Stream' × St)

/-- Short-circuiting `||` on match results. -/
def mOr (r : MRes) (f : Stream' → St → MRes) : MRes :=
  match r with
  | .error e => .error e
  | .ok (some sty, st, s) => .ok (some sty, st, s)
  | .ok (none, st, s) => f st s

/-- `_openMark` immediately followed by `_closeMark` (as in `_matchCommand`
and `_matchItemCommand`); the freshly pushed open mark is the one popped. -/
def openThenClose (st : Stream') (s : St) (kind : String) (openPos : Pos)
    (closePos : Pos) : St × CMark :=
  let om : OMark := ⟨s.nextId, kind, openPos, currentPos st s, {}⟩
  closeTop st { s with openMarks := om :: s.openMarks, nextId := s.nextId + 1 }
    closePos om s.openMarks

/-- `_matchLineComment`. -/
def matchLineComment (st : Stream') (s : St) : MRes :=
  match st.matchLineCommentStart with
  | some st' => .ok (some "comment", st'.skipToEnd, s)
  | none => .ok (none, st, s)

/-- `_matchOther`. -/
def matchOther (st : Stream') (s : St) : MRes :=
  match st.peek with
  | some c =>
    if c = '{' ∨ c = '}' ∨ c = '[' ∨ c = ']' then
      .ok (some "bracket", { st with pos := st.pos + 1 }, s)
    else
      match st.matchRun (fun c => c = '&' ∨ c = '~') with
      | some st' => .ok (some "tag", st', s)
      | none =>
        match st.matchRun (fun c =>
            ¬ (c = '{' ∨ c = '}' ∨ c = '[' ∨ c = ']' ∨ c = '\\' ∨ c = '$' ∨
               c = '&' ∨ c = '%' ∨ c = '~')) with
        | some st' => .ok (none, st', s)
        | none => .ok (none, st.next, s)
  | none => .ok (none, st, s)

/-- `_matchOtherCommand`. -/
def matchOtherCommand (st : Stream') (s : St) : MRes :=
  match st.matchBackslashCmd with
  | some st' => .ok (some "tag", st', s)
  | none => .ok (none, st, s)

/-- `_matchVerbCommand`. -/
def matchVerbCommand (st : Stream') (s : St) : MRes :=
  match st.matchVerbCmd with
  | some (c, st') => .ok (some "tag", st', pushTok s (.verb c))
  | none => .ok (none, st, s)

/-- `_matchVerbatimEnvironment`. -/
def matchVerbatimEnvironment (st : Stream') (s : St) : MRes :=
  match st.matchRun (fun c => c ≠ '\\') with
  | some st' => .ok (some "string", st', s)
  | none => .ok (some "string", st.next, s)

/-- `_matchCommentEnvironment`. -/
def matchCommentEnvironment (st : Stream') (s : St) : MRes :=
  match st.matchRun (fun c => c ≠ '\\') with
  | some st' => .ok (some "comment", st', s)
  | none => .ok (some "comment", st.next, s)

/-- `_matchGroup` (the inner mode is always `_matchText`, stored in the
pushed `Tok.group`). -/
def matchGroup (st : Stream') (s : St) : MRes :=
  match st.eat '{' with
  | some st' => .ok (some "bracket", st', pushTok s .group)
  | none => .ok (none, st, s)

/-- `_matchAndMark`: open a mark on the opening literal and push the closing
tokenizer. -/
def matchAndMark (kind : String) (openPos : Pos) (openLit : List Char)
    (openStyle : String) (close : List Char) (closeStyle : String)
    (abandon : List (List Char)) (inner : ITok) (st : Stream') (s : St) :
    MRes :=
  match st.matchStr openLit with
  | some st' =>
    let s1 := openMark st' s kind openPos
    .ok (some openStyle, st', pushTok s1 (.andMark close closeStyle abandon inner))
  | none => .ok (none, st, s)

/-- `_matchArgument` (unmarked): push the closing tokenizer on the opening
literal. -/
def matchArgument (openLit : List Char) (openStyle : String)
    (close : List Char) (closeStyle : String) (inner : ITok)
    (st : Stream') (s : St) : MRes :=
  match st.matchStr openLit with
  | some st' => .ok (some openStyle, st', pushTok s (.argClose close closeStyle inner))
  | none => .ok (none, st, s)

/-- `_matchCommandWithArgument` for the command with literal text `lit`
(the mark kind is the table key `kind`, which for starred commands contains a
backslash before the star). -/
def matchCommandWithArgument (lit : List Char) (kind : String)
    (st : Stream') (s : St) : MRes :=
  if st.lookCommandWithArg lit then
    match st.matchLitThenSpaces ('\\' :: lit) with
    | some st' =>
      .ok (some "tag", st', pushTok s (.deferReqArgMark kind (startPos st' s)))
    | none => .ok (none, st, s)
  else .ok (none, st, s)

/-- `_matchBibCommand`: the first citation command that matches wins. -/
def matchBibCommand (st : Stream') (s : St) : MRes :=
  bibCommands.foldl (fun acc c => mOr acc (matchCommandWithArgument c.data c))
    (.ok (none, st, s))

/-- `_matchTitleCommand` (note its lookahead `/^\\title[\[{]/` has no `\s*`;
the optional short-title argument is deferred on top of the required one). -/
def matchTitleCommand (st : Stream') (s : St) : MRes :=
  if st.lookTitle then
    match st.matchStr ('\\' :: "title".data) with
    | some st' =>
      let op := startPos st' s
      let s1 := pushTok s (.deferReqArgMark "title" op)
      .ok (some "tag", st', pushTok s1 .deferOptArg)
    | none => .ok (none, st, s)
  else .ok (none, st, s)

/-- `_matchIncludeGraphics`. -/
def matchIncludeGraphics (st : Stream') (s : St) : MRes :=
  if st.lookCommandWithArg "includegraphics".data then
    match st.matchLitThenSpaces ('\\' :: "includegraphics".data) with
    | some st' =>
      let op := startPos st' s
      let s1 := pushTok s (.deferReqArgMark "includegraphics" op)
      .ok (some "tag", st', pushTok s1 (.deferOptArgMark "includegraphics-optional" op))
    | none => .ok (none, st, s)
  else .ok (none, st, s)

/-- `_matchCommand` (used only for `\maketitle`): open and immediately close
a mark at the command's start position. -/
def matchCommand (pat : Stream' → Option Stream') (markKind : String)
    (st : Stream') (s : St) : MRes :=
  match pat st with
  | some st' =>
    let op := startPos st' s
    let (s1, _) := openThenClose st' s markKind op op
    .ok (some "tag", st', s1)
  | none => .ok (none, st, s)

/-- The backward scan of `_matchItemCommand`, over the previously closed
marks from newest to oldest: stop at the first mark starting on a line before
the enclosing list's start line; otherwise take the first mark with the same
kind and the same `openParent` (object identity, modelled by id). -/
def itemScanRev (marks : List CMark) (listLine : Int) (parentId : Nat)
    (kind : String) : Option CMark :=
  match marks with
  | [] => none
  | m :: rest =>
    if m.from_.line < listLine then none
    else if m.kind = kind then
      if m.openParent ≠ some parentId then itemScanRev rest listLine parentId kind
      else some m
    else itemScanRev rest listLine parentId kind

/-- `_matchItemCommand`.  The `.error` case models the JavaScript fault when
`\item` is matched with no open marks but previously closed marks (the scan
dereferences `undefined`). -/
def matchItemCommand (st : Stream') (s : St) : MRes :=
  if st.sol then
    match st.matchItemCmd with
    | some st' =>
      let lom := s.openMarks.head?
      let kind :=
        if 0 < s.openMarks.length ∧ lom.map OMark.kind = some "enumerate"
        then "enumerate-item" else "item"
      let (s1, _) := openThenClose st' s kind (startPos st' s) (currentPos st' s)
      let s1 := setLastChecked s1 (fun c => { c with kind := some kind })
      if kind = "enumerate-item" ∨ kind = "item" then
        let s2 := setLastChecked s1 (fun c =>
          { c with number := some 1,
                   openMarksCount := some ((s1.openMarks.length : Int) - 1) })
        match lom with
        | some lm =>
          match itemScanRev s.marks.reverse lm.from_.line lm.id kind with
          | some prior =>
            .ok (some "tag", st', setLastChecked s2 (fun c =>
              { c with number := prior.checkedProperties.number.map (· + 1) }))
          | none => .ok (some "tag", st', s2)
        | none =>
          if s.marks = [] then .ok (some "tag", st', s2)
          else .error "item: no open mark"
      else .ok (some "tag", st', s1)
    | none => .ok (none, st, s)
  else .ok (none, st, s)

/-- The three trailing (pattern, token) pairs of a begin/end environment
sequence, after the leading `\begin`/`\end` pattern has been consumed. -/
def seqTail : List (SeqPat × Option String) :=
  [(.lbrace, some "bracket"), (.envName, some "keyword"), (.rbrace, some "bracket")]

/-- `_matchBeginEnvironmentSequence`: the initial `_matchNext` call matches
`/^\\begin\s*/` and defers the remaining three patterns (the sequences of the
source always have four patterns, so the callback never runs on the initial
call). -/
def matchBeginEnvironmentSequence (cb : Cb) (st : Stream') (s : St) : MRes :=
  match st.matchLitThenSpaces ('\\' :: "begin".data) with
  | some st' => .ok (some "tag", st', pushTok s (.seq seqTail cb))
  | none => .ok (none, st, s)

/-- `_matchEndEnvironmentSequence`. -/
def matchEndEnvironmentSequence (cb : Cb) (st : Stream') (s : St) : MRes :=
  match st.matchLitThenSpaces ('\\' :: "end".data) with
  | some st' => .ok (some "tag", st', pushTok s (.seq seqTail cb))
  | none => .ok (none, st, s)

/-- `_matchEnvironments` with `_lookaheadForBeginEnvironments`: the first
environment of the table whose begin pattern matches is taken. -/
def matchEnvironments (envs : List EnvCfg) (st : Stream') (s : St) : MRes :=
  match envs.find? (fun cfg => st.lookEnvBegin cfg.name cfg.matchOnSingleLine) with
  | some cfg =>
    let mop := if cfg.kind.isSome then some (startPos st s) else none
    matchBeginEnvironmentSequence (.envBegin cfg mop) st s
  | none => .ok (none, st, s)

/-- `_matchOtherEnvironmentBeginOrEnd`. -/
def matchOtherEnvironmentBeginOrEnd (st : Stream') (s : St) : MRes :=
  if st.lookBeginAny then matchBeginEnvironmentSequence .noop st s
  else if st.lookEndAny then matchEndEnvironmentSequence .noop st s
  else .ok (none, st, s)

/-- `_matchEndDocument`. -/
def matchEndDocument (st : Stream') (s : St) : MRes :=
  if st.lookEndDocument then matchEndEnvironmentSequence .endDoc st s
  else .ok (none, st, s)

/-- `_matchSectioningCommand`, in source order. -/
def matchSectioningCommand (st : Stream') (s : St) : MRes :=
  mOr (matchCommandWithArgument "chapter".data "chapter" st s) fun st s =>
  mOr (matchCommandWithArgument "chapter*".data "chapter\\*" st s) fun st s =>
  mOr (matchCommandWithArgument "section".data "section" st s) fun st s =>
  mOr (matchCommandWithArgument "section*".data "section\\*" st s) fun st s =>
  mOr (matchCommandWithArgument "subsection".data "subsection" st s) fun st s =>
  mOr (matchCommandWithArgument "subsection*".data "subsection\\*" st s) fun st s =>
  mOr (matchCommandWithArgument "subsubsection".data "subsubsection" st s) fun st s =>
  matchCommandWithArgument "subsubsection*".data "subsubsection\\*" st s

/-- `_matchDollarDollarMath`. -/
def matchDollarDollarMath (st : Stream') (s : St) : MRes :=
  matchAndMark "display-math" (startPos st s) "$$".data "keyword" "$$".data
    "keyword" [] .mathTok st s

/-- `_matchDollarMath` (its abandon set is the literal `$$`). -/
def matchDollarMath (st : Stream') (s : St) : MRes :=
  matchAndMark "inline-math" (startPos st s) "$".data "keyword" "$".data
    "keyword" ["$$".data] .mathTok st s

/-- `_matchBracketMath`. -/
def matchBracketMath (st : Stream') (s : St) : MRes :=
  matchAndMark "display-math" (startPos st s) ['\\', '['] "keyword"
    ['\\', ']'] "keyword" [] .mathTok st s

/-- `_matchParenMath`. -/
def matchParenMath (st : Stream') (s : St) : MRes :=
  matchAndMark "inline-math" (startPos st s) ['\\', '('] "keyword"
    ['\\', ')'] "keyword" [] .mathTok st s

/-- `_matchMath` (with its inner `_matchOtherMath`).  Guaranteed to consume
input when there is any. -/
def matchMath (st : Stream') (s : St) : MRes :=
  mOr (matchVerbCommand st s) fun st s =>
  mOr (matchOtherEnvironmentBeginOrEnd st s) fun st s =>
  mOr (matchOtherCommand st s) fun st s =>
    -- _matchOtherMath
    match st.matchBackslashCmd with
    | some st' => .ok (some "tag", st', s)
    | none =>
      if st.peek = some '^' ∨ st.peek = some '_' ∨ st.peek = some '&' ∨
          st.peek = some '~' then
        .ok (some "tag", { st with pos := st.pos + 1 }, s)
      else
        match st.matchNumber with
        | some st' => .ok (some "number", st', s)
        | none => .ok (none, st.next, s)

/-- `_matchText`, trying its alternatives in source order. -/
def matchText (st : Stream') (s : St) : MRes :=
  mOr (matchCommandWithArgument "textbf".data "textbf" st s) fun st s =>
  mOr (matchCommandWithArgument "textit".data "textit" st s) fun st s =>
  mOr (matchBracketMath st s) fun st s =>
  mOr (matchParenMath st s) fun st s =>
  mOr (matchCommandWithArgument "ref".data "ref" st s) fun st s =>
  mOr (matchBibCommand st s) fun st s =>
  mOr (matchCommandWithArgument "label".data "label" st s) fun st s =>
  mOr (matchCommandWithArgument "input".data "input" st s) fun st s =>
  mOr (matchCommandWithArgument "include".data "include" st s) fun st s =>
  mOr (matchEnvironments figureEnvironments st s) fun st s =>
  mOr (matchEnvironments listEnvironments st s) fun st s =>
  mOr (matchEnvironments mathEnvironments st s) fun st s =>
  mOr (matchVerbCommand st s) fun st s =>
  mOr (matchEnvironments ignoredEnvironments st s) fun st s =>
  mOr (matchEnvironments tikzEnvironments st s) fun st s =>
  mOr (matchOtherEnvironmentBeginOrEnd st s) fun st s =>
  mOr (matchOtherCommand st s) fun st s =>
  mOr (matchGroup st s) fun st s =>
  mOr (matchDollarDollarMath st s) fun st s =>
  mOr (matchDollarMath st s) fun st s =>
  matchOther st s

/-- `_matchListContent`. -/
def matchListContent (st : Stream') (s : St) : MRes :=
  mOr (matchItemCommand st s) fun st s => matchText st s

/-- `_matchFigureContent`. -/
def matchFigureContent (st : Stream') (s : St) : MRes :=
  mOr (matchCommandWithArgument "caption".data "caption" st s) fun st s =>
  mOr (matchIncludeGraphics st s) fun st s =>
  matchText st s

/-- `_matchTikZ`. -/
def matchTikZ (st : Stream') (s : St) : MRes :=
  mOr (matchEnvironments tikzEnvironments st s) fun st s =>
  mOr (matchOtherCommand st s) fun st s =>
  matchOther st s

/-- `_topLevel`. -/
def matchTopLevel (st : Stream') (s : St) : MRes :=
  mOr (matchTitleCommand st s) fun st s =>
  mOr (matchCommandWithArgument "author".data "author" st s) fun st s =>
  mOr (matchCommand Stream'.matchMaketitle "maketitle" st s) fun st s =>
  mOr (matchSectioningCommand st s) fun st s =>
  mOr (matchEnvironments topLevelEnvironments st s) fun st s =>
  mOr (matchEndDocument st s) fun st s =>
  matchText st s

/-- Dispatch on a stored inner tokenizer. -/
def runITok : ITok → Stream' → St → MRes
  | .textTok, st, s => matchText st s
  | .mathTok, st, s => matchMath st s
  | .verbatimTok, st, s => matchVerbatimEnvironment st s
  | .commentTok, st, s => matchCommentEnvironment st s
  | .listTok, st, s => matchListContent st s
  | .figureTok, st, s => matchFigureContent st s
  | .tikzTok, st, s => matchTikZ st s

/-!
## The stack interpreter and driver
-/

/-- Run a sequence callback (`_matchSequence`'s `callback`). -/
def runCb (cb : Cb) (st : Stream') (s : St) : Except String St :=
  match cb with
  | .noop => .ok s
  | .envBegin cfg mop =>
    let s1 := match cfg.kind, mop with
      | some k, some mp =>
        let s' := openMark st s k mp
        setOpenChecked s' (fun c =>
          { c with openMarksCount := some ((s'.openMarks.length : Int) - 1) })
      | _, _ => s
    .ok (pushTok s1 (.env cfg))
  | .envEnd hasMark mcp =>
    if hasMark then
      match mcp with
      | some cp =>
        match closeMarkE st s cp with
        | .error e => .error e
        | .ok (s1, m) =>
          .ok (setLastChecked s1 (fun c =>
            { c with openMarksCount := some (s1.openMarks.length : Int),
                     fromLine := some m.from_.line, toLine := some m.to_.line }))
      | none => .ok s
    else .ok s
  | .endDoc => .ok (pushTok s .commentRest)

/-- Match one pattern of a begin/end sequence. -/
def matchPat : SeqPat → Stream' → Option Stream'
  | .beginCmd, st => st.matchLitThenSpaces ('\\' :: "begin".data)
  | .endCmd, st => st.matchLitThenSpaces ('\\' :: "end".data)
  | .lbrace, st => st.matchStr ['{']
  | .rbrace, st => st.matchStr ['}']
  | .envName, st => st.matchEnvNameRun

/-- The endPattern-lookahead / tokenizer-delegation tail of
`_matchEnvironment` (everything other than its blank-line branch). -/
def runEnvTail (cfg : EnvCfg) (st : Stream') (s : St) (rest : List Tok) :
    MRes :=
  if st.lookEnvEnd cfg.name then
    let mcp := if cfg.kind.isSome then some (startPos st s) else none
    matchEndEnvironmentSequence (.envEnd cfg.kind.isSome mcp) st
      { s with stack := rest }
  else runITok cfg.tokenizer st s

/-- Run the top entry `t` of the sub-tokenizer stack, with `rest` the stack
below it (the caller maintains `s.stack = t :: rest`).  `_popAndResume`
becomes a structurally recursive call on `rest`. -/
def runStack : List Tok → Stream' → St → MRes
  | [], _, _ => .error "empty stack"
  | t :: rest, st, s =>
    match t with
    | .topLevel => matchTopLevel st s
    | .seq pats cb =>
      -- the _defer wrapper pops itself before running _matchNext
      let s1 := { s with stack := rest }
      match pats with
      | [] => .ok (none, st, s1)
      | (p, sty) :: ps =>
        match matchPat p st with
        | some st' =>
          match ps with
          | [] =>
            match runCb cb st' s1 with
            | .error e => .error e
            | .ok s2 => .ok (sty, st', s2)
          | _ :: _ => .ok (sty, st', pushTok s1 (.seq ps cb))
        | none => .ok (none, st, s1)
    | .deferReqArgMark k op =>
      matchAndMark k op ['{'] "bracket" ['}'] "bracket" [] .textTok st
        { s with stack := rest }
    | .deferOptArgMark k op =>
      matchAndMark k op ['['] "bracket" [']'] "bracket" [] .textTok st
        { s with stack := rest }
    | .deferOptArg =>
      matchArgument ['['] "bracket" [']'] "bracket" .textTok st
        { s with stack := rest }
    | .andMark close closeStyle abandon inner =>
      match st.matchBlankLine with
      | (true, st1) => runStack rest st1 { abandonMark s with stack := rest }
      | (false, st1) =>
        if abandon.any (fun a => st1.lookStr a) then
          runStack rest st1 { abandonMark s with stack := rest }
        else
          match st1.matchStr close with
          | some st2 =>
            match closeMarkE st2 { s with stack := rest } (startPos st2 s) with
            | .error e => .error e
            | .ok (s2, _) => .ok (some closeStyle, st2, s2)
          | none => runITok inner st1 s
    | .argClose close closeStyle inner =>
      match st.matchBlankLine with
      | (true, st1) => .ok (none, st1, { s with stack := rest })
      | (false, st1) =>
        match st1.matchStr close with
        | some st2 => .ok (some closeStyle, st2, { s with stack := rest })
        | none => runITok inner st1 s
    | .group =>
      match st.eat '}' with
      | some st' => .ok (some "bracket", st', { s with stack := rest })
      | none => matchText st s
    | .verb d =>
      match st.matchStr [d] with
      | some st' => .ok (some "tag", st', { s with stack := rest })
      | none =>
        match st.skipTo d with
        | some st' => .ok (some "string", st', s)
        | none => .ok (some "string", st.skipToEnd, s)
    | .env cfg =>
      if cfg.allowBlankLines then runEnvTail cfg st s rest
      else
        match st.matchBlankLine with
        | (true, st1) =>
          runStack rest st1
            { (if cfg.kind.isSome then abandonMark s else s) with stack := rest }
        | (false, st1) => runEnvTail cfg st1 s rest
    | .commentRest => .ok (some "comment", st.skipToEnd, s)

/-- Run the current top of `state.stack`. -/
def runTop (st : Stream') (s : St) : MRes :=
  runStack s.stack st s

/-- `if (stream.sol() && !stream.eol()) state.line -= 1;` at the end of
`_token`. -/
def lineAdjust (st : Stream') (s : St) : St :=
  if st.sol ∧ ¬ st.eol then { s with line := s.line - 1 } else s

/-- `_token`: the mode's `token(stream, state)` entry point. -/
def token (st : Stream') (s : St) : MRes :=
  let s0 := if st.sol then { s with line := s.line + 1 } else s
  match matchLineComment st s0 with
  | .error e => .error e
  | .ok (some r, st1, s1) => .ok (some r, st1, lineAdjust st1 s1)
  | .ok (none, st1, s1) =>
    match runTop st1 s1 with
    | .error e => .error e
    | .ok (r, st2, s2) => .ok (r, st2, lineAdjust st2 s2)

/-- `startState()`. -/
def startState : St := ⟨[.topLevel], -1, [], [], 0⟩

/-- `blankLine(state)`: `token` on an empty stream. -/
def blankLineSt (s : St) : Except String St :=
  (token ⟨[], 0, 0⟩ s).map fun r => r.2.2

/-- One line of the test harness: repeatedly call `token` until end of line,
setting `start := pos` between calls; `fuel` bounds the number of calls. -/
def runLine (fuel : Nat) (st : Stream') (s : St) :
    Except String (List (Option String) × St) :=
  if st.eol then .ok ([], s)
  else
    match fuel with
    | 0 => .error "fuel exhausted"
    | f + 1 =>
      match token st s with
      | .error e => .error e
      | .ok (r, st', s') =>
        (runLine f { st' with start := st'.pos } s').map fun rs =>
          (r :: rs.1, rs.2)

/-- A fuel bound sufficient for one line: each call either consumes a
character or shrinks the stack, and pushes are bounded by consumption. -/
def lineFuel (l : String) (s : St) : Nat :=
  3 * l.length + s.stack.length + 8

/-- Process one line: `blankLine` for the empty line, otherwise tokenize the
line from column 0. -/
def processLine (l : String) (s : St) :
    Except String (List (Option String) × St) :=
  if l = "" then (blankLineSt s).map fun s' => ([none], s')
  else runLine (lineFuel l s) ⟨l.data, 0, 0⟩ s

/-- Process a list of lines, collecting the style outputs of each line. -/
def processLinesOut : List String → St → Except String (List (List (Option String)) × St)
  | [], s => .ok ([], s)
  | l :: ls, s =>
    match processLine l s with
    | .error e => .error e
    | .ok (o, s') => (processLinesOut ls s').map fun r => (o :: r.1, r.2)

/-- Process a list of lines, keeping only the final state. -/
def processLines (ls : List String) (s : St) : Except String St :=
  (processLinesOut ls s).map Prod.snd

/-- A state is reachable when it results from processing some list of lines
from `startState` (`token` calls for non-empty lines, `blankLine` for empty
ones, as the host drives the mode). -/
def Reachable (s : St) : Prop :=
  ∃ ls : List String, processLines ls startState = .ok s

/-- Stack entries that ignore a blank line completely: on an empty stream
their `runStack` branch returns without touching the stream or the state.
Every other entry pops at least itself on a blank line. -/
def stableTok : Tok → Bool
  | .topLevel => true
  | .group => true
  | .verb _ => true
  | .commentRest => true
  | .env cfg => cfg.allowBlankLines
  | _ => false

/-!
## Mark range predicates (C2, C8)
-/

/-- The per-mark range invariant exactly as the specification claims it:
`from < to`, `from ≤ contentFrom`, `contentFrom ≤ contentTo`,
`contentTo ≤ to`. -/
def markClaimedOK (m : CMark) : Prop :=
  m.from_ < m.to_ ∧ m.from_ ≤ m.contentFrom ∧
  m.contentFrom ≤ m.contentTo ∧ m.contentTo ≤ m.to_

instance (m : CMark) : Decidable (markClaimedOK m) := by
  unfold markClaimedOK; infer_instance

/-- The per-mark range invariant that actually holds: `maketitle` marks are
closed at their own open position (`_matchCommand` passes `openPos` as the
close position), so their `contentTo` precedes their `contentFrom`. -/
def markOK (m : CMark) : Prop :=
  m.from_ < m.to_ ∧ m.from_ ≤ m.contentFrom ∧
  (m.kind ≠ "maketitle" → m.contentFrom ≤ m.contentTo) ∧ m.contentTo ≤ m.to_

instance (m : CMark) : Decidable (markOK m) := by
  unfold markOK; infer_instance

/-- Closing-order relation between consecutive closed marks (C8): both outer
ends and inner ends weakly ascend. -/
def mle (a b : CMark) : Prop := a.to_ ≤ b.to_ ∧ a.contentTo ≤ b.contentTo

instance (a b : CMark) : Decidable (mle a b) := by
  unfold mle; infer_instance

/-!
## Behaviour on the empty stream

`blankLine` feeds the tokenizers an empty stream; every plain match function
leaves the stream and state untouched there (possibly emitting a style).
These identities hold definitionally.
-/

theorem matchText_empty (s : St) :
    matchText ⟨[], 0, 0⟩ s = .ok (none, ⟨[], 0, 0⟩, s) := rfl

theorem matchTopLevel_empty (s : St) :
    matchTopLevel ⟨[], 0, 0⟩ s = .ok (none, ⟨[], 0, 0⟩, s) := rfl

theorem matchMath_empty (s : St) :
    matchMath ⟨[], 0, 0⟩ s = .ok (none, ⟨[], 0, 0⟩, s) := rfl

theorem matchListContent_empty (s : St) :
    matchListContent ⟨[], 0, 0⟩ s = .ok (none, ⟨[], 0, 0⟩, s) := rfl

theorem matchFigureContent_empty (s : St) :
    matchFigureContent ⟨[], 0, 0⟩ s = .ok (none, ⟨[], 0, 0⟩, s) := rfl

theorem matchTikZ_empty (s : St) :
    matchTikZ ⟨[], 0, 0⟩ s = .ok (none, ⟨[], 0, 0⟩, s) := rfl

theorem matchVerbatimEnvironment_empty (s : St) :
    matchVerbatimEnvironment ⟨[], 0, 0⟩ s = .ok (some "string", ⟨[], 0, 0⟩, s) := rfl

theorem matchCommentEnvironment_empty (s : St) :
    matchCommentEnvironment ⟨[], 0, 0⟩ s = .ok (some "comment", ⟨[], 0, 0⟩, s) := rfl

/-- On the empty stream every stored inner tokenizer returns without touching
the stream or the state. -/
theorem runITok_empty (it : ITok) (s : St) :
    ∃ r, runITok it ⟨[], 0, 0⟩ s = .ok (r, ⟨[], 0, 0⟩, s) := by
  cases it <;> exact ⟨_, rfl⟩

/-!
## Step lemmas for concrete executions

Concrete runs are proved one `token` call at a time (each call is a small
kernel computation) and chained with the following lemmas.
-/

theorem runLine_eol {f : Nat} {st : Stream'} {s : St} (he : st.eol = true) :
    runLine f st s = .ok ([], s) := by
  unfold runLine
  rw [he]
  rfl

theorem runLine_step {f : Nat} {st st' : Stream'} {s s' sfin : St}
    {r : Option String} {rest : List (Option String)}
    (he : st.eol = false) (ht : token st s = .ok (r, st', s'))
    (hrec : runLine f { st' with start := st'.pos } s' = .ok (rest, sfin)) :
    runLine (f + 1) st s = .ok (r :: rest, sfin) := by
  unfold runLine
  rw [he, ht]
  simp only [Bool.false_eq_true, if_false]
  rw [hrec]
  rfl

theorem processLine_of_runLine {l : String} {s sfin : St}
    {o : List (Option String)} (hne : (l = "") = False)
    (h : runLine (lineFuel l s) ⟨l.data, 0, 0⟩ s = .ok (o, sfin)) :
    processLine l s = .ok (o, sfin) := by
  unfold processLine
  rw [if_neg (hne ▸ not_false), h]

theorem processLine_blank {s s' : St} {r : Option String} {st' : Stream'}
    (h : token ⟨[], 0, 0⟩ s = .ok (r, st', s')) :
    processLine "" s = .ok ([none], s') := by
  unfold processLine blankLineSt
  rw [if_pos rfl, h]
  rfl

theorem processLinesOut_nil {s : St} : processLinesOut [] s = .ok ([], s) := rfl

theorem processLinesOut_step {l : String} {ls : List String} {s s' s'' : St}
    {o : List (Option String)} {os : List (List (Option String))}
    (h : processLine l s = .ok (o, s'))
    (hrec : processLinesOut ls s' = .ok (os, s'')) :
    processLinesOut (l :: ls) s = .ok (o :: os, s'') := by
  unfold processLinesOut
  rw [h]
  show (processLinesOut ls s').map _ = _
  rw [hrec]
  rfl

theorem processLines_of_out {ls : List String} {s s' : St}
    {os : List (List (Option String))}
    (h : processLinesOut ls s = .ok (os, s')) :
    processLines ls s = .ok s' := by
  unfold processLines
  rw [h]
  rfl

/-!
## C1: restarting from a saved line-boundary state
-/

/-- Splitting a document at any line boundary and continuing from the
intermediate state gives the same outputs and final state. -/
theorem processLinesOut_append (a b : List String) (s : St)
    (o1 : List (List (Option String))) (s1 : St)
    (h : processLinesOut a s = .ok (o1, s1)) :
    processLinesOut (a ++ b) s =
      (processLinesOut b s1).map fun r => (o1 ++ r.1, r.2) := by
  induction a generalizing s o1 with
  | nil =>
    simp only [processLinesOut] at h
    obtain ⟨rfl, rfl⟩ := Prod.mk.injEq .. ▸ Except.ok.inj h
    simp only [List.nil_append]
    cases processLinesOut b s with
    | error e => rfl
    | ok r => simp [Except.map]
  | cons l ls ih =>
    simp only [processLinesOut] at h
    cases hpl : processLine l s with
    | error e => rw [hpl] at h; exact absurd h (by simp)
    | ok r =>
      obtain ⟨o, s'⟩ := r
      rw [hpl] at h
      have h : (processLinesOut ls s').map (fun r => (o :: r.1, r.2)) = .ok (o1, s1) := h
      cases hrest : processLinesOut ls s' with
      | error e => rw [hrest] at h; exact absurd h (by simp [Except.map])
      | ok r1 =>
        obtain ⟨os, s''⟩ := r1
        rw [hrest] at h
        simp only [Except.map] at h
        obtain ⟨rfl, rfl⟩ := Prod.mk.injEq .. ▸ Except.ok.inj h
        have hgoal : processLinesOut (l :: ls ++ b) s =
            (processLinesOut (ls ++ b) s').map fun r => (o :: r.1, r.2) := by
          show (match processLine l s with
            | Except.error e => Except.error e
            | Except.ok (o2, s2) => (processLinesOut (ls ++ b) s2).map
                fun (r : List (List (Option String)) × St) => (o2 :: r.1, r.2)) = _
          rw [hpl]
        rw [hgoal, ih s' os hrest]
        cases processLinesOut b s'' with
        | error e => simp [Except.map]
        | ok r2 => simp [Except.map]

/-- C1.  For a document of `N` lines processed from `startState` (`token`
calls for non-empty lines, `blankLine` for empty ones), resuming at any line
boundary `k` from the state saved there yields the same final state — in
particular the same closed-mark list — and the same per-line style sequences
for the remaining lines as the uninterrupted run.  (State saving is a shallow
copy in the source; all state components are treated as immutable, so the
saved state is the value itself.) -/
theorem restart_equiv (lines : List String) (k : Nat)
    (o1 : List (List (Option String))) (s1 : St)
    (h : processLinesOut (lines.take k) startState = .ok (o1, s1)) :
    processLinesOut lines startState =
      (processLinesOut (lines.drop k) s1).map fun r => (o1 ++ r.1, r.2) := by
  have := processLinesOut_append (lines.take k) (lines.drop k) startState o1 s1 h
  rwa [List.take_append_drop] at this

/-- Witness for `restart_equiv`: a two-line document with multi-line inline
math, split after the first line. -/
theorem restart_equiv_witness :
    ∃ o1 s1, processLinesOut (["foo $x", "$"].take 1) startState = .ok (o1, s1) ∧
      processLinesOut ["foo $x", "$"] startState =
        (processLinesOut (["foo $x", "$"].drop 1) s1).map fun r => (o1 ++ r.1, r.2) := by
  refine ⟨[[none, some "keyword", none]],
    ⟨[.andMark "$".data "keyword" ["$$".data] .mathTok, .topLevel], 0,
      [⟨0, "inline-math", ⟨0, 4⟩, ⟨0, 5⟩, {}⟩], [], 1⟩, ?_, ?_⟩
  · decide
  · exact restart_equiv ["foo $x", "$"] 1 _ _ (by decide)

/-!
## C3: `$$` abandons an open `$…$` and display math takes over
-/

/-- C3.  Tokenizing the single line `foo $x bar $$x$$` from `startState`
produces no `inline-math` mark and exactly one closed mark, a `display-math`
mark with `from=(0,11)`, `contentFrom=(0,13)`, `contentTo=(0,14)`,
`to=(0,16)`; the inline-math mark opened at column 4 was abandoned when the
`$$` lookahead (the abandon set of `$…$`) matched, so no open marks remain
either. -/
theorem dollardollar_abandons_inline :
    (processLines ["foo $x bar $$x$$"] startState).map (fun s => s.marks) =
      .ok [{ kind := "display-math", from_ := ⟨0, 11⟩, contentFrom := ⟨0, 13⟩,
             contentTo := ⟨0, 14⟩, to_ := ⟨0, 16⟩, openParent := none }] ∧
    (processLines ["foo $x bar $$x$$"] startState).map (fun s => s.openMarks) =
      .ok [] := by
  have cA_t0_0 : token (⟨['f', 'o', 'o', ' ', '$', 'x', ' ', 'b', 'a', 'r', ' ', '$', '$', 'x', '$', '$'], 0, 0⟩ : Stream') (⟨[LatexMode.Tok.topLevel], -1, [], [], 0⟩ : St) = .ok (none, (⟨['f', 'o', 'o', ' ', '$', 'x', ' ', 'b', 'a', 'r', ' ', '$', '$', 'x', '$', '$'], 0, 4⟩ : Stream'), (⟨[LatexMode.Tok.topLevel], 0, [], [], 0⟩ : St)) := by decide
  have cA_t0_1 : token (⟨['f', 'o', 'o', ' ', '$', 'x', ' ', 'b', 'a', 'r', ' ', '$', '$', 'x', '$', '$'], 4, 4⟩ : Stream') (⟨[LatexMode.Tok.topLevel], 0, [], [], 0⟩ : St) = .ok (some "keyword", (⟨['f', 'o', 'o', ' ', '$', 'x', ' ', 'b', 'a', 'r', ' ', '$', '$', 'x', '$', '$'], 4, 5⟩ : Stream'), (⟨[LatexMode.Tok.andMark ['$'] "keyword" [['$', '$']] (LatexMode.ITok.mathTok), LatexMode.Tok.topLevel], 0, [{ id := 0, kind := "inline-math", from_ := { line := 0, ch := 4 }, contentFrom := { line := 0, ch := 5 }, checkedProperties := { kind := none, number := none, openMarksCount := none, fromLine := none, toLine := none } }], [], 1⟩ : St)) := by decide
  have cA_t0_2 : token (⟨['f', 'o', 'o', ' ', '$', 'x', ' ', 'b', 'a', 'r', ' ', '$', '$', 'x', '$', '$'], 5, 5⟩ : Stream') (⟨[LatexMode.Tok.andMark ['$'] "keyword" [['$', '$']] (LatexMode.ITok.mathTok), LatexMode.Tok.topLevel], 0, [{ id := 0, kind := "inline-math", from_ := { line := 0, ch := 4 }, contentFrom := { line := 0, ch := 5 }, checkedProperties := { kind := none, number := none, openMarksCount := none, fromLine := none, toLine := none } }], [], 1⟩ : St) = .ok (none, (⟨['f', 'o', 'o', ' ', '$', 'x', ' ', 'b', 'a', 'r', ' ', '$', '$', 'x', '$', '$'], 5, 6⟩ : Stream'), (⟨[LatexMode.Tok.andMark ['$'] "keyword" [['$', '$']] (LatexMode.ITok.mathTok), LatexMode.Tok.topLevel], 0, [{ id := 0, kind := "inline-math", from_ := { line := 0, ch := 4 }, contentFrom := { line := 0, ch := 5 }, checkedProperties := { kind := none, number := none, openMarksCount := none, fromLine := none, toLine := none } }], [], 1⟩ : St)) := by decide
  have cA_t0_3 : token (⟨['f', 'o', 'o', ' ', '$', 'x', ' ', 'b', 'a', 'r', ' ', '$', '$', 'x', '$', '$'], 6, 6⟩ : Stream') (⟨[LatexMode.Tok.andMark ['$'] "keyword" [['$', '$']] (LatexMode.ITok.mathTok), LatexMode.Tok.topLevel], 0, [{ id := 0, kind := "inline-math", from_ := { line := 0, ch := 4 }, contentFrom := { line := 0, ch := 5 }, checkedProperties := { kind := none, number := none, openMarksCount := none, fromLine := none, toLine := none } }], [], 1⟩ : St) = .ok (none, (⟨['f', 'o', 'o', ' ', '$', 'x', ' ', 'b', 'a', 'r', ' ', '$', '$', 'x', '$', '$'], 6, 7⟩ : Stream'), (⟨[LatexMode.Tok.andMark ['$'] "keyword" [['$', '$']] (LatexMode.ITok.mathTok), LatexMode.Tok.topLevel], 0, [{ id := 0, kind := "inline-math", from_ := { line := 0, ch := 4 }, contentFrom := { line := 0, ch := 5 }, checkedProperties := { kind := none, number := none, openMarksCount := none, fromLine := none, toLine := none } }], [], 1⟩ : St)) := by decide
  have cA_t0_4 : token (⟨['f', 'o', 'o', ' ', '$', 'x', ' ', 'b', 'a', 'r', ' ', '$', '$', 'x', '$', '$'], 7, 7⟩ : Stream') (⟨[LatexMode.Tok.andMark ['$'] "keyword" [['$', '$']] (LatexMode.ITok.mathTok), LatexMode.Tok.topLevel], 0, [{ id := 0, kind := "inline-math", from_ := { line := 0, ch := 4 }, contentFrom := { line := 0, ch := 5 }, checkedProperties := { kind := none, number := none, openMarksCount := none, fromLine := none, toLine := none } }], [], 1⟩ : St) = .ok (none, (⟨['f', 'o', 'o', ' ', '$', 'x', ' ', 'b', 'a', 'r', ' ', '$', '$', 'x', '$', '$'], 7, 8⟩ : Stream'), (⟨[LatexMode.Tok.andMark ['$'] "keyword" [['$', '$']] (LatexMode.ITok.mathTok), LatexMode.Tok.topLevel], 0, [{ id := 0, kind := "inline-math", from_ := { line := 0, ch := 4 }, contentFrom := { line := 0, ch := 5 }, checkedProperties := { kind := none, number := none, openMarksCount := none, fromLine := none, toLine := none } }], [], 1⟩ : St)) := by decide
  have cA_t0_5 : token (⟨['f', 'o', 'o', ' ', '$', 'x', ' ', 'b', 'a', 'r', ' ', '$', '$', 'x', '$', '$'], 8, 8⟩ : Stream') (⟨[LatexMode.Tok.andMark ['$'] "keyword" [['$', '$']] (LatexMode.ITok.mathTok), LatexMode.Tok.topLevel], 0, [{ id := 0, kind := "inline-math", from_ := { line := 0, ch := 4 }, contentFrom := { line := 0, ch := 5 }, checkedProperties := { kind := none, number := none, openMarksCount := none, fromLine := none, toLine := none } }], [], 1⟩ : St) = .ok (none, (⟨['f', 'o', 'o', ' ', '$', 'x', ' ', 'b', 'a', 'r', ' ', '$', '$', 'x', '$', '$'], 8, 9⟩ : Stream'), (⟨[LatexMode.Tok.andMark ['$'] "keyword" [['$', '$']] (LatexMode.ITok.mathTok), LatexMode.Tok.topLevel], 0, [{ id := 0, kind := "inline-math", from_ := { line := 0, ch := 4 }, contentFrom := { line := 0, ch := 5 }, checkedProperties := { kind := none, number := none, openMarksCount := none, fromLine := none, toLine := none } }], [], 1⟩ : St)) := by decide
  have cA_t0_6 : token (⟨['f', 'o', 'o', ' ', '$', 'x', ' ', 'b', 'a', 'r', ' ', '$', '$', 'x', '$', '$'], 9, 9⟩ : Stream') (⟨[LatexMode.Tok.andMark ['$'] "keyword" [['$', '$']] (LatexMode.ITok.mathTok), LatexMode.Tok.topLevel], 0, [{ id := 0, kind := "inline-math", from_ := { line := 0, ch := 4 }, contentFrom := { line := 0, ch := 5 }, checkedProperties := { kind := none, number := none, openMarksCount := none, fromLine := none, toLine := none } }], [], 1⟩ : St) = .ok (none, (⟨['f', 'o', 'o', ' ', '$', 'x', ' ', 'b', 'a', 'r', ' ', '$', '$', 'x', '$', '$'], 9, 10⟩ : Stream'), (⟨[LatexMode.Tok.andMark ['$'] "keyword" [['$', '$']] (LatexMode.ITok.mathTok), LatexMode.Tok.topLevel], 0, [{ id := 0, kind := "inline-math", from_ := { line := 0, ch := 4 }, contentFrom := { line := 0, ch := 5 }, checkedProperties := { kind := none, number := none, openMarksCount := none, fromLine := none, toLine := none } }], [], 1⟩ : St)) := by decide
  have cA_t0_7 : token (⟨['f', 'o', 'o', ' ', '$', 'x', ' ', 'b', 'a', 'r', ' ', '$', '$', 'x', '$', '$'], 10, 10⟩ : Stream') (⟨[LatexMode.Tok.andMark ['$'] "keyword" [['$', '$']] (LatexMode.ITok.mathTok), LatexMode.Tok.topLevel], 0, [{ id := 0, kind := "inline-math", from_ := { line := 0, ch := 4 }, contentFrom := { line := 0, ch := 5 }, checkedProperties := { kind := none, number := none, openMarksCount := none, fromLine := none, toLine := none } }], [], 1⟩ : St) = .ok (none, (⟨['f', 'o', 'o', ' ', '$', 'x', ' ', 'b', 'a', 'r', ' ', '$', '$', 'x', '$', '$'], 10, 11⟩ : Stream'), (⟨[LatexMode.Tok.andMark ['$'] "keyword" [['$', '$']] (LatexMode.ITok.mathTok), LatexMode.Tok.topLevel], 0, [{ id := 0, kind := "inline-math", from_ := { line := 0, ch := 4 }, contentFrom := { line := 0, ch := 5 }, checkedProperties := { kind := none, number := none, openMarksCount := none, fromLine := none, toLine := none } }], [], 1⟩ : St)) := by decide
  have cA_t0_8 : token (⟨['f', 'o', 'o', ' ', '$', 'x', ' ', 'b', 'a', 'r', ' ', '$', '$', 'x', '$', '$'], 11, 11⟩ : Stream') (⟨[LatexMode.Tok.andMark ['$'] "keyword" [['$', '$']] (LatexMode.ITok.mathTok), LatexMode.Tok.topLevel], 0, [{ id := 0, kind := "inline-math", from_ := { line := 0, ch := 4 }, contentFrom := { line := 0, ch := 5 }, checkedProperties := { kind := none, number := none, openMarksCount := none, fromLine := none, toLine := none } }], [], 1⟩ : St) = .ok (some "keyword", (⟨['f', 'o', 'o', ' ', '$', 'x', ' ', 'b', 'a', 'r', ' ', '$', '$', 'x', '$', '$'], 11, 13⟩ : Stream'), (⟨[LatexMode.Tok.andMark ['$', '$'] "keyword" [] (LatexMode.ITok.mathTok), LatexMode.Tok.topLevel], 0, [{ id := 1, kind := "display-math", from_ := { line := 0, ch := 11 }, contentFrom := { line := 0, ch := 13 }, checkedProperties := { kind := none, number := none, openMarksCount := none, fromLine := none, toLine := none } }], [], 2⟩ : St)) := by decide
  have cA_t0_9 : token (⟨['f', 'o', 'o', ' ', '$', 'x', ' ', 'b', 'a', 'r', ' ', '$', '$', 'x', '$', '$'], 13, 13⟩ : Stream') (⟨[LatexMode.Tok.andMark ['$', '$'] "keyword" [] (LatexMode.ITok.mathTok), LatexMode.Tok.topLevel], 0, [{ id := 1, kind := "display-math", from_ := { line := 0, ch := 11 }, contentFrom := { line := 0, ch := 13 }, checkedProperties := { kind := none, number := none, openMarksCount := none, fromLine := none, toLine := none } }], [], 2⟩ : St) = .ok (none, (⟨['f', 'o', 'o', ' ', '$', 'x', ' ', 'b', 'a', 'r', ' ', '$', '$', 'x', '$', '$'], 13, 14⟩ : Stream'), (⟨[LatexMode.Tok.andMark ['$', '$'] "keyword" [] (LatexMode.ITok.mathTok), LatexMode.Tok.topLevel], 0, [{ id := 1, kind := "display-math", from_ := { line := 0, ch := 11 }, contentFrom := { line := 0, ch := 13 }, checkedProperties := { kind := none, number := none, openMarksCount := none, fromLine := none, toLine := none } }], [], 2⟩ : St)) := by decide
  have cA_t0_10 : token (⟨['f', 'o', 'o', ' ', '$', 'x', ' ', 'b', 'a', 'r', ' ', '$', '$', 'x', '$', '$'], 14, 14⟩ : Stream') (⟨[LatexMode.Tok.andMark ['$', '$'] "keyword" [] (LatexMode.ITok.mathTok), LatexMode.Tok.topLevel], 0, [{ id := 1, kind := "display-math", from_ := { line := 0, ch := 11 }, contentFrom := { line := 0, ch := 13 }, checkedProperties := { kind := none, number := none, openMarksCount := none, fromLine := none, toLine := none } }], [], 2⟩ : St) = .ok (some "keyword", (⟨['f', 'o', 'o', ' ', '$', 'x', ' ', 'b', 'a', 'r', ' ', '$', '$', 'x', '$', '$'], 14, 16⟩ : Stream'), (⟨[LatexMode.Tok.topLevel], 0, [], [{ kind := "display-math", from_ := { line := 0, ch := 11 }, contentFrom := { line := 0, ch := 13 }, contentTo := { line := 0, ch := 14 }, to_ := { line := 0, ch := 16 }, openParent := none, checkedProperties := { kind := none, number := none, openMarksCount := none, fromLine := none, toLine := none } }], 2⟩ : St)) := by decide
  have cA_r0_11 : runLine 46 (⟨['f', 'o', 'o', ' ', '$', 'x', ' ', 'b', 'a', 'r', ' ', '$', '$', 'x', '$', '$'], 16, 16⟩ : Stream') (⟨[LatexMode.Tok.topLevel], 0, [], [{ kind := "display-math", from_ := { line := 0, ch := 11 }, contentFrom := { line := 0, ch := 13 }, contentTo := { line := 0, ch := 14 }, to_ := { line := 0, ch := 16 }, openParent := none, checkedProperties := { kind := none, number := none, openMarksCount := none, fromLine := none, toLine := none } }], 2⟩ : St) = .ok ([], (⟨[LatexMode.Tok.topLevel], 0, [], [{ kind := "display-math", from_ := { line := 0, ch := 11 }, contentFrom := { line := 0, ch := 13 }, contentTo := { line := 0, ch := 14 }, to_ := { line := 0, ch := 16 }, openParent := none, checkedProperties := { kind := none, number := none, openMarksCount := none, fromLine := none, toLine := none } }], 2⟩ : St)) := runLine_eol (by decide)
  have cA_r0_10 : runLine 47 (⟨['f', 'o', 'o', ' ', '$', 'x', ' ', 'b', 'a', 'r', ' ', '$', '$', 'x', '$', '$'], 14, 14⟩ : Stream') (⟨[LatexMode.Tok.andMark ['$', '$'] "keyword" [] (LatexMode.ITok.mathTok), LatexMode.Tok.topLevel], 0, [{ id := 1, kind := "display-math", from_ := { line := 0, ch := 11 }, contentFrom := { line := 0, ch := 13 }, checkedProperties := { kind := none, number := none, openMarksCount := none, fromLine := none, toLine := none } }], [], 2⟩ : St) = .ok ([some "keyword"], (⟨[LatexMode.Tok.topLevel], 0, [], [{ kind := "display-math", from_ := { line := 0, ch := 11 }, contentFrom := { line := 0, ch := 13 }, contentTo := { line := 0, ch := 14 }, to_ := { line := 0, ch := 16 }, openParent := none, checkedProperties := { kind := none, number := none, openMarksCount := none, fromLine := none, toLine := none } }], 2⟩ : St)) := runLine_step (by decide) cA_t0_10 cA_r0_11
  have cA_r0_9 : runLine 48 (⟨['f', 'o', 'o', ' ', '$', 'x', ' ', 'b', 'a', 'r', ' ', '$', '$', 'x', '$', '$'], 13, 13⟩ : Stream') (⟨[LatexMode.Tok.andMark ['$', '$'] "keyword" [] (LatexMode.ITok.mathTok), LatexMode.Tok.topLevel], 0, [{ id := 1, kind := "display-math", from_ := { line := 0, ch := 11 }, contentFrom := { line := 0, ch := 13 }, checkedProperties := { kind := none, number := none, openMarksCount := none, fromLine := none, toLine := none } }], [], 2⟩ : St) = .ok ([none, some "keyword"], (⟨[LatexMode.Tok.topLevel], 0, [], [{ kind := "display-math", from_ := { line := 0, ch := 11 }, contentFrom := { line := 0, ch := 13 }, contentTo := { line := 0, ch := 14 }, to_ := { line := 0, ch := 16 }, openParent := none, checkedProperties := { kind := none, number := none, openMarksCount := none, fromLine := none, toLine := none } }], 2⟩ : St)) := runLine_step (by decide) cA_t0_9 cA_r0_10
  have cA_r0_8 : runLine 49 (⟨['f', 'o', 'o', ' ', '$', 'x', ' ', 'b', 'a', 'r', ' ', '$', '$', 'x', '$', '$'], 11, 11⟩ : Stream') (⟨[LatexMode.Tok.andMark ['$'] "keyword" [['$', '$']] (LatexMode.ITok.mathTok), LatexMode.Tok.topLevel], 0, [{ id := 0, kind := "inline-math", from_ := { line := 0, ch := 4 }, contentFrom := { line := 0, ch := 5 }, checkedProperties := { kind := none, number := none, openMarksCount := none, fromLine := none, toLine := none } }], [], 1⟩ : St) = .ok ([some "keyword", none, some "keyword"], (⟨[LatexMode.Tok.topLevel], 0, [], [{ kind := "display-math", from_ := { line := 0, ch := 11 }, contentFrom := { line := 0, ch := 13 }, contentTo := { line := 0, ch := 14 }, to_ := { line := 0, ch := 16 }, openParent := none, checkedProperties := { kind := none, number := none, openMarksCount := none, fromLine := none, toLine := none } }], 2⟩ : St)) := runLine_step (by decide) cA_t0_8 cA_r0_9
  have cA_r0_7 : runLine 50 (⟨['f', 'o', 'o', ' ', '$', 'x', ' ', 'b', 'a', 'r', ' ', '$', '$', 'x', '$', '$'], 10, 10⟩ : Stream') (⟨[LatexMode.Tok.andMark ['$'] "keyword" [['$', '$']] (LatexMode.ITok.mathTok), LatexMode.Tok.topLevel], 0, [{ id := 0, kind := "inline-math", from_ := { line := 0, ch := 4 }, contentFrom := { line := 0, ch := 5 }, checkedProperties := { kind := none, number := none, openMarksCount := none, fromLine := none, toLine := none } }], [], 1⟩ : St) = .ok ([none, some "keyword", none, some "keyword"], (⟨[LatexMode.Tok.topLevel], 0, [], [{ kind := "display-math", from_ := { line := 0, ch := 11 }, contentFrom := { line := 0, ch := 13 }, contentTo := { line := 0, ch := 14 }, to_ := { line := 0, ch := 16 }, openParent := none, checkedProperties := { kind := none, number := none, openMarksCount := none, fromLine := none, toLine := none } }], 2⟩ : St)) := runLine_step (by decide) cA_t0_7 cA_r0_8
  have cA_r0_6 : runLine 51 (⟨['f', 'o', 'o', ' ', '$', 'x', ' ', 'b', 'a', 'r', ' ', '$', '$', 'x', '$', '$'], 9, 9⟩ : Stream') (⟨[LatexMode.Tok.andMark ['$'] "keyword" [['$', '$']] (LatexMode.ITok.mathTok), LatexMode.Tok.topLevel], 0, [{ id := 0, kind := "inline-math", from_ := { line := 0, ch := 4 }, contentFrom := { line := 0, ch := 5 }, checkedProperties := { kind := none, number := none, openMarksCount := none, fromLine := none, toLine := none } }], [], 1⟩ : St) = .ok ([none, none, some "keyword", none, some "keyword"], (⟨[LatexMode.Tok.topLevel], 0, [], [{ kind := "display-math", from_ := { line := 0, ch := 11 }, contentFrom := { line := 0, ch := 13 }, contentTo := { line := 0, ch := 14 }, to_ := { line := 0, ch := 16 }, openParent := none, checkedProperties := { kind := none, number := none, openMarksCount := none, fromLine := none, toLine := none } }], 2⟩ : St)) := runLine_step (by decide) cA_t0_6 cA_r0_7
  have cA_r0_5 : runLine 52 (⟨['f', 'o', 'o', ' ', '$', 'x', ' ', 'b', 'a', 'r', ' ', '$', '$', 'x', '$', '$'], 8, 8⟩ : Stream') (⟨[LatexMode.Tok.andMark ['$'] "keyword" [['$', '$']] (LatexMode.ITok.mathTok), LatexMode.Tok.topLevel], 0, [{ id := 0, kind := "inline-math", from_ := { line := 0, ch := 4 }, contentFrom := { line := 0, ch := 5 }, checkedProperties := { kind := none, number := none, openMarksCount := none, fromLine := none, toLine := none } }], [], 1⟩ : St) = .ok ([none, none, none, some "keyword", none, some "keyword"], (⟨[LatexMode.Tok.topLevel], 0, [], [{ kind := "display-math", from_ := { line := 0, ch := 11 }, contentFrom := { line := 0, ch := 13 }, contentTo := { line := 0, ch := 14 }, to_ := { line := 0, ch := 16 }, openParent := none, checkedProperties := { kind := none, number := none, openMarksCount := none, fromLine := none, toLine := none } }], 2⟩ : St)) := runLine_step (by decide) cA_t0_5 cA_r0_6
  have cA_r0_4 : runLine 53 (⟨['f', 'o', 'o', ' ', '$', 'x', ' ', 'b', 'a', 'r', ' ', '$', '$', 'x', '$', '$'], 7, 7⟩ : Stream') (⟨[LatexMode.Tok.andMark ['$'] "keyword" [['$', '$']] (LatexMode.ITok.mathTok), LatexMode.Tok.topLevel], 0, [{ id := 0, kind := "inline-math", from_ := { line := 0, ch := 4 }, contentFrom := { line := 0, ch := 5 }, checkedProperties := { kind := none, number := none, openMarksCount := none, fromLine := none, toLine := none } }], [], 1⟩ : St) = .ok ([none, none, none, none, some "keyword", none, some "keyword"], (⟨[LatexMode.Tok.topLevel], 0, [], [{ kind := "display-math", from_ := { line := 0, ch := 11 }, contentFrom := { line := 0, ch := 13 }, contentTo := { line := 0, ch := 14 }, to_ := { line := 0, ch := 16 }, openParent := none, checkedProperties := { kind := none, number := none, openMarksCount := none, fromLine := none, toLine := none } }], 2⟩ : St)) := runLine_step (by decide) cA_t0_4 cA_r0_5
  have cA_r0_3 : runLine 54 (⟨['f', 'o', 'o', ' ', '$', 'x', ' ', 'b', 'a', 'r', ' ', '$', '$', 'x', '$', '$'], 6, 6⟩ : Stream') (⟨[LatexMode.Tok.andMark ['$'] "keyword" [['$', '$']] (LatexMode.ITok.mathTok), LatexMode.Tok.topLevel], 0, [{ id := 0, kind := "inline-math", from_ := { line := 0, ch := 4 }, contentFrom := { line := 0, ch := 5 }, checkedProperties := { kind := none, number := none, openMarksCount := none, fromLine := none, toLine := none } }], [], 1⟩ : St) = .ok ([none, none, none, none, none, some "keyword", none, some "keyword"], (⟨[LatexMode.Tok.topLevel], 0, [], [{ kind := "display-math", from_ := { line := 0, ch := 11 }, contentFrom := { line := 0, ch := 13 }, contentTo := { line := 0, ch := 14 }, to_ := { line := 0, ch := 16 }, openParent := none, checkedProperties := { kind := none, number := none, openMarksCount := none, fromLine := none, toLine := none } }], 2⟩ : St)) := runLine_step (by decide) cA_t0_3 cA_r0_4
  have cA_r0_2 : runLine 55 (⟨['f', 'o', 'o', ' ', '$', 'x', ' ', 'b', 'a', 'r', ' ', '$', '$', 'x', '$', '$'], 5, 5⟩ : Stream') (⟨[LatexMode.Tok.andMark ['$'] "keyword" [['$', '$']] (LatexMode.ITok.mathTok), LatexMode.Tok.topLevel], 0, [{ id := 0, kind := "inline-math", from_ := { line := 0, ch := 4 }, contentFrom := { line := 0, ch := 5 }, checkedProperties := { kind := none, number := none, openMarksCount := none, fromLine := none, toLine := none } }], [], 1⟩ : St) = .ok ([none, none, none, none, none, none, some "keyword", none, some "keyword"], (⟨[LatexMode.Tok.topLevel], 0, [], [{ kind := "display-math", from_ := { line := 0, ch := 11 }, contentFrom := { line := 0, ch := 13 }, contentTo := { line := 0, ch := 14 }, to_ := { line := 0, ch := 16 }, openParent := none, checkedProperties := { kind := none, number := none, openMarksCount := none, fromLine := none, toLine := none } }], 2⟩ : St)) := runLine_step (by decide) cA_t0_2 cA_r0_3
  have cA_r0_1 : runLine 56 (⟨['f', 'o', 'o', ' ', '$', 'x', ' ', 'b', 'a', 'r', ' ', '$', '$', 'x', '$', '$'], 4, 4⟩ : Stream') (⟨[LatexMode.Tok.topLevel], 0, [], [], 0⟩ : St) = .ok ([some "keyword", none, none, none, none, none, none, some "keyword", none, some "keyword"], (⟨[LatexMode.Tok.topLevel], 0, [], [{ kind := "display-math", from_ := { line := 0, ch := 11 }, contentFrom := { line := 0, ch := 13 }, contentTo := { line := 0, ch := 14 }, to_ := { line := 0, ch := 16 }, openParent := none, checkedProperties := { kind := none, number := none, openMarksCount := none, fromLine := none, toLine := none } }], 2⟩ : St)) := runLine_step (by decide) cA_t0_1 cA_r0_2
  have cA_r0_0 : runLine 57 (⟨['f', 'o', 'o', ' ', '$', 'x', ' ', 'b', 'a', 'r', ' ', '$', '$', 'x', '$', '$'], 0, 0⟩ : Stream') (⟨[LatexMode.Tok.topLevel], -1, [], [], 0⟩ : St) = .ok ([none, some "keyword", none, none, none, none, none, none, some "keyword", none, some "keyword"], (⟨[LatexMode.Tok.topLevel], 0, [], [{ kind := "display-math", from_ := { line := 0, ch := 11 }, contentFrom := { line := 0, ch := 13 }, contentTo := { line := 0, ch := 14 }, to_ := { line := 0, ch := 16 }, openParent := none, checkedProperties := { kind := none, number := none, openMarksCount := none, fromLine := none, toLine := none } }], 2⟩ : St)) := runLine_step (by decide) cA_t0_0 cA_r0_1
  have cA_pl0 : processLine "foo $x bar $$x$$" (⟨[LatexMode.Tok.topLevel], -1, [], [], 0⟩ : St) = .ok ([none, some "keyword", none, none, none, none, none, none, some "keyword", none, some "keyword"], (⟨[LatexMode.Tok.topLevel], 0, [], [{ kind := "display-math", from_ := { line := 0, ch := 11 }, contentFrom := { line := 0, ch := 13 }, contentTo := { line := 0, ch := 14 }, to_ := { line := 0, ch := 16 }, openParent := none, checkedProperties := { kind := none, number := none, openMarksCount := none, fromLine := none, toLine := none } }], 2⟩ : St)) := processLine_of_runLine (by decide) cA_r0_0
  have cA_d1 : processLinesOut [] (⟨[LatexMode.Tok.topLevel], 0, [], [{ kind := "display-math", from_ := { line := 0, ch := 11 }, contentFrom := { line := 0, ch := 13 }, contentTo := { line := 0, ch := 14 }, to_ := { line := 0, ch := 16 }, openParent := none, checkedProperties := { kind := none, number := none, openMarksCount := none, fromLine := none, toLine := none } }], 2⟩ : St) = .ok ([], (⟨[LatexMode.Tok.topLevel], 0, [], [{ kind := "display-math", from_ := { line := 0, ch := 11 }, contentFrom := { line := 0, ch := 13 }, contentTo := { line := 0, ch := 14 }, to_ := { line := 0, ch := 16 }, openParent := none, checkedProperties := { kind := none, number := none, openMarksCount := none, fromLine := none, toLine := none } }], 2⟩ : St)) := processLinesOut_nil
  have cA_d0 : processLinesOut ["foo $x bar $$x$$"] (⟨[LatexMode.Tok.topLevel], -1, [], [], 0⟩ : St) = .ok ([[none, some "keyword", none, none, none, none, none, none, some "keyword", none, some "keyword"]], (⟨[LatexMode.Tok.topLevel], 0, [], [{ kind := "display-math", from_ := { line := 0, ch := 11 }, contentFrom := { line := 0, ch := 13 }, contentTo := { line := 0, ch := 14 }, to_ := { line := 0, ch := 16 }, openParent := none, checkedProperties := { kind := none, number := none, openMarksCount := none, fromLine := none, toLine := none } }], 2⟩ : St)) := processLinesOut_step cA_pl0 cA_d1
  have cA_fin : processLines ["foo $x bar $$x$$"] startState = .ok (⟨[LatexMode.Tok.topLevel], 0, [], [{ kind := "display-math", from_ := { line := 0, ch := 11 }, contentFrom := { line := 0, ch := 13 }, contentTo := { line := 0, ch := 14 }, to_ := { line := 0, ch := 16 }, openParent := none, checkedProperties := { kind := none, number := none, openMarksCount := none, fromLine := none, toLine := none } }], 2⟩ : St) := processLines_of_out cA_d0
  rw [cA_fin]
  exact ⟨rfl, rfl⟩

/-!
## C2: the claimed mark-range invariant fails on `\maketitle`
-/

/-- Counterexample to C2 as stated: the state reached by tokenizing the single
line `\maketitle` contains a closed mark (the `maketitle` mark, closed by
`_matchCommand` at its own open position) with `contentFrom = (0,10)` but
`contentTo = (0,0)`, violating `contentFrom ≤ contentTo`. -/
theorem marks_claimed_range_counterexample :
    ¬ (∀ s, Reachable s → ∀ m ∈ s.marks, markClaimedOK m) := by
  intro h
  have cB_t0_0 : token (⟨['\\', 'm', 'a', 'k', 'e', 't', 'i', 't', 'l', 'e'], 0, 0⟩ : Stream') (⟨[LatexMode.Tok.topLevel], -1, [], [], 0⟩ : St) = .ok (some "tag", (⟨['\\', 'm', 'a', 'k', 'e', 't', 'i', 't', 'l', 'e'], 0, 10⟩ : Stream'), (⟨[LatexMode.Tok.topLevel], 0, [], [{ kind := "maketitle", from_ := { line := 0, ch := 0 }, contentFrom := { line := 0, ch := 10 }, contentTo := { line := 0, ch := 0 }, to_ := { line := 0, ch := 10 }, openParent := none, checkedProperties := { kind := none, number := none, openMarksCount := none, fromLine := none, toLine := none } }], 1⟩ : St)) := by decide
  have cB_r0_1 : runLine 38 (⟨['\\', 'm', 'a', 'k', 'e', 't', 'i', 't', 'l', 'e'], 10, 10⟩ : Stream') (⟨[LatexMode.Tok.topLevel], 0, [], [{ kind := "maketitle", from_ := { line := 0, ch := 0 }, contentFrom := { line := 0, ch := 10 }, contentTo := { line := 0, ch := 0 }, to_ := { line := 0, ch := 10 }, openParent := none, checkedProperties := { kind := none, number := none, openMarksCount := none, fromLine := none, toLine := none } }], 1⟩ : St) = .ok ([], (⟨[LatexMode.Tok.topLevel], 0, [], [{ kind := "maketitle", from_ := { line := 0, ch := 0 }, contentFrom := { line := 0, ch := 10 }, contentTo := { line := 0, ch := 0 }, to_ := { line := 0, ch := 10 }, openParent := none, checkedProperties := { kind := none, number := none, openMarksCount := none, fromLine := none, toLine := none } }], 1⟩ : St)) := runLine_eol (by decide)
  have cB_r0_0 : runLine 39 (⟨['\\', 'm', 'a', 'k', 'e', 't', 'i', 't', 'l', 'e'], 0, 0⟩ : Stream') (⟨[LatexMode.Tok.topLevel], -1, [], [], 0⟩ : St) = .ok ([some "tag"], (⟨[LatexMode.Tok.topLevel], 0, [], [{ kind := "maketitle", from_ := { line := 0, ch := 0 }, contentFrom := { line := 0, ch := 10 }, contentTo := { line := 0, ch := 0 }, to_ := { line := 0, ch := 10 }, openParent := none, checkedProperties := { kind := none, number := none, openMarksCount := none, fromLine := none, toLine := none } }], 1⟩ : St)) := runLine_step (by decide) cB_t0_0 cB_r0_1
  have cB_pl0 : processLine "\\maketitle" (⟨[LatexMode.Tok.topLevel], -1, [], [], 0⟩ : St) = .ok ([some "tag"], (⟨[LatexMode.Tok.topLevel], 0, [], [{ kind := "maketitle", from_ := { line := 0, ch := 0 }, contentFrom := { line := 0, ch := 10 }, contentTo := { line := 0, ch := 0 }, to_ := { line := 0, ch := 10 }, openParent := none, checkedProperties := { kind := none, number := none, openMarksCount := none, fromLine := none, toLine := none } }], 1⟩ : St)) := processLine_of_runLine (by decide) cB_r0_0
  have cB_d1 : processLinesOut [] (⟨[LatexMode.Tok.topLevel], 0, [], [{ kind := "maketitle", from_ := { line := 0, ch := 0 }, contentFrom := { line := 0, ch := 10 }, contentTo := { line := 0, ch := 0 }, to_ := { line := 0, ch := 10 }, openParent := none, checkedProperties := { kind := none, number := none, openMarksCount := none, fromLine := none, toLine := none } }], 1⟩ : St) = .ok ([], (⟨[LatexMode.Tok.topLevel], 0, [], [{ kind := "maketitle", from_ := { line := 0, ch := 0 }, contentFrom := { line := 0, ch := 10 }, contentTo := { line := 0, ch := 0 }, to_ := { line := 0, ch := 10 }, openParent := none, checkedProperties := { kind := none, number := none, openMarksCount := none, fromLine := none, toLine := none } }], 1⟩ : St)) := processLinesOut_nil
  have cB_d0 : processLinesOut ["\\maketitle"] (⟨[LatexMode.Tok.topLevel], -1, [], [], 0⟩ : St) = .ok ([[some "tag"]], (⟨[LatexMode.Tok.topLevel], 0, [], [{ kind := "maketitle", from_ := { line := 0, ch := 0 }, contentFrom := { line := 0, ch := 10 }, contentTo := { line := 0, ch := 0 }, to_ := { line := 0, ch := 10 }, openParent := none, checkedProperties := { kind := none, number := none, openMarksCount := none, fromLine := none, toLine := none } }], 1⟩ : St)) := processLinesOut_step cB_pl0 cB_d1
  have cB_fin : processLines ["\\maketitle"] startState = .ok (⟨[LatexMode.Tok.topLevel], 0, [], [{ kind := "maketitle", from_ := { line := 0, ch := 0 }, contentFrom := { line := 0, ch := 10 }, contentTo := { line := 0, ch := 0 }, to_ := { line := 0, ch := 10 }, openParent := none, checkedProperties := { kind := none, number := none, openMarksCount := none, fromLine := none, toLine := none } }], 1⟩ : St) := processLines_of_out cB_d0
  have hm := h _ ⟨["\\maketitle"], cB_fin⟩
    { kind := "maketitle", from_ := ⟨0, 0⟩, contentFrom := ⟨0, 10⟩,
      contentTo := ⟨0, 0⟩, to_ := ⟨0, 10⟩, openParent := none }
    (by decide)
  exact absurd hm (by decide)

/-!
## C9: a second blank line is not always a no-op
-/

/-- Counterexample to C9 as stated: from the reachable state left by the line
`\title[x` (a pending optional-argument tokenizer above a deferred required
`title` argument), the first `blankLine` pops the argument tokenizer and the
second pops the deferred argument — the stack shrinks again, so the second
call does not leave the stack unchanged. -/
theorem blankLine_twice_counterexample :
    ¬ (∀ s s' s'', Reachable s → blankLineSt s = .ok s' →
        blankLineSt s' = .ok s'' →
        s''.stack = s'.stack ∧ s''.openMarks = s'.openMarks ∧
        s''.marks = s'.marks) := by
  intro h
  have cJ_t0_0 : token (⟨['\\', 't', 'i', 't', 'l', 'e', '[', 'x'], 0, 0⟩ : Stream') (⟨[LatexMode.Tok.topLevel], -1, [], [], 0⟩ : St) = .ok (some "tag", (⟨['\\', 't', 'i', 't', 'l', 'e', '[', 'x'], 0, 6⟩ : Stream'), (⟨[LatexMode.Tok.deferOptArg, LatexMode.Tok.deferReqArgMark "title" { line := 0, ch := 0 }, LatexMode.Tok.topLevel], 0, [], [], 0⟩ : St)) := by decide
  have cJ_t0_1 : token (⟨['\\', 't', 'i', 't', 'l', 'e', '[', 'x'], 6, 6⟩ : Stream') (⟨[LatexMode.Tok.deferOptArg, LatexMode.Tok.deferReqArgMark "title" { line := 0, ch := 0 }, LatexMode.Tok.topLevel], 0, [], [], 0⟩ : St) = .ok (some "bracket", (⟨['\\', 't', 'i', 't', 'l', 'e', '[', 'x'], 6, 7⟩ : Stream'), (⟨[LatexMode.Tok.argClose [']'] "bracket" (LatexMode.ITok.textTok), LatexMode.Tok.deferReqArgMark "title" { line := 0, ch := 0 }, LatexMode.Tok.topLevel], 0, [], [], 0⟩ : St)) := by decide
  have cJ_t0_2 : token (⟨['\\', 't', 'i', 't', 'l', 'e', '[', 'x'], 7, 7⟩ : Stream') (⟨[LatexMode.Tok.argClose [']'] "bracket" (LatexMode.ITok.textTok), LatexMode.Tok.deferReqArgMark "title" { line := 0, ch := 0 }, LatexMode.Tok.topLevel], 0, [], [], 0⟩ : St) = .ok (none, (⟨['\\', 't', 'i', 't', 'l', 'e', '[', 'x'], 7, 8⟩ : Stream'), (⟨[LatexMode.Tok.argClose [']'] "bracket" (LatexMode.ITok.textTok), LatexMode.Tok.deferReqArgMark "title" { line := 0, ch := 0 }, LatexMode.Tok.topLevel], 0, [], [], 0⟩ : St)) := by decide
  have cJ_r0_3 : runLine 30 (⟨['\\', 't', 'i', 't', 'l', 'e', '[', 'x'], 8, 8⟩ : Stream') (⟨[LatexMode.Tok.argClose [']'] "bracket" (LatexMode.ITok.textTok), LatexMode.Tok.deferReqArgMark "title" { line := 0, ch := 0 }, LatexMode.Tok.topLevel], 0, [], [], 0⟩ : St) = .ok ([], (⟨[LatexMode.Tok.argClose [']'] "bracket" (LatexMode.ITok.textTok), LatexMode.Tok.deferReqArgMark "title" { line := 0, ch := 0 }, LatexMode.Tok.topLevel], 0, [], [], 0⟩ : St)) := runLine_eol (by decide)
  have cJ_r0_2 : runLine 31 (⟨['\\', 't', 'i', 't', 'l', 'e', '[', 'x'], 7, 7⟩ : Stream') (⟨[LatexMode.Tok.argClose [']'] "bracket" (LatexMode.ITok.textTok), LatexMode.Tok.deferReqArgMark "title" { line := 0, ch := 0 }, LatexMode.Tok.topLevel], 0, [], [], 0⟩ : St) = .ok ([none], (⟨[LatexMode.Tok.argClose [']'] "bracket" (LatexMode.ITok.textTok), LatexMode.Tok.deferReqArgMark "title" { line := 0, ch := 0 }, LatexMode.Tok.topLevel], 0, [], [], 0⟩ : St)) := runLine_step (by decide) cJ_t0_2 cJ_r0_3
  have cJ_r0_1 : runLine 32 (⟨['\\', 't', 'i', 't', 'l', 'e', '[', 'x'], 6, 6⟩ : Stream') (⟨[LatexMode.Tok.deferOptArg, LatexMode.Tok.deferReqArgMark "title" { line := 0, ch := 0 }, LatexMode.Tok.topLevel], 0, [], [], 0⟩ : St) = .ok ([some "bracket", none], (⟨[LatexMode.Tok.argClose [']'] "bracket" (LatexMode.ITok.textTok), LatexMode.Tok.deferReqArgMark "title" { line := 0, ch := 0 }, LatexMode.Tok.topLevel], 0, [], [], 0⟩ : St)) := runLine_step (by decide) cJ_t0_1 cJ_r0_2
  have cJ_r0_0 : runLine 33 (⟨['\\', 't', 'i', 't', 'l', 'e', '[', 'x'], 0, 0⟩ : Stream') (⟨[LatexMode.Tok.topLevel], -1, [], [], 0⟩ : St) = .ok ([some "tag", some "bracket", none], (⟨[LatexMode.Tok.argClose [']'] "bracket" (LatexMode.ITok.textTok), LatexMode.Tok.deferReqArgMark "title" { line := 0, ch := 0 }, LatexMode.Tok.topLevel], 0, [], [], 0⟩ : St)) := runLine_step (by decide) cJ_t0_0 cJ_r0_1
  have cJ_pl0 : processLine "\\title[x" (⟨[LatexMode.Tok.topLevel], -1, [], [], 0⟩ : St) = .ok ([some "tag", some "bracket", none], (⟨[LatexMode.Tok.argClose [']'] "bracket" (LatexMode.ITok.textTok), LatexMode.Tok.deferReqArgMark "title" { line := 0, ch := 0 }, LatexMode.Tok.topLevel], 0, [], [], 0⟩ : St)) := processLine_of_runLine (by decide) cJ_r0_0
  have cJ_d1 : processLinesOut [] (⟨[LatexMode.Tok.argClose [']'] "bracket" (LatexMode.ITok.textTok), LatexMode.Tok.deferReqArgMark "title" { line := 0, ch := 0 }, LatexMode.Tok.topLevel], 0, [], [], 0⟩ : St) = .ok ([], (⟨[LatexMode.Tok.argClose [']'] "bracket" (LatexMode.ITok.textTok), LatexMode.Tok.deferReqArgMark "title" { line := 0, ch := 0 }, LatexMode.Tok.topLevel], 0, [], [], 0⟩ : St)) := processLinesOut_nil
  have cJ_d0 : processLinesOut ["\\title[x"] (⟨[LatexMode.Tok.topLevel], -1, [], [], 0⟩ : St) = .ok ([[some "tag", some "bracket", none]], (⟨[LatexMode.Tok.argClose [']'] "bracket" (LatexMode.ITok.textTok), LatexMode.Tok.deferReqArgMark "title" { line := 0, ch := 0 }, LatexMode.Tok.topLevel], 0, [], [], 0⟩ : St)) := processLinesOut_step cJ_pl0 cJ_d1
  have cJ_fin : processLines ["\\title[x"] startState = .ok (⟨[LatexMode.Tok.argClose [']'] "bracket" (LatexMode.ITok.textTok), LatexMode.Tok.deferReqArgMark "title" { line := 0, ch := 0 }, LatexMode.Tok.topLevel], 0, [], [], 0⟩ : St) := processLines_of_out cJ_d0
  have hm := h _
    ⟨[.deferReqArgMark "title" ⟨0, 0⟩, .topLevel], 1, [], [], 0⟩
    ⟨[.topLevel], 2, [], [], 0⟩
    ⟨["\\title[x"], cJ_fin⟩ (by decide) (by decide)
  exact absurd hm.1 (by decide)

/-!
## C5: the `$` anchor belongs to list environments, not math environments
-/

/-- A literal matches when the rest of the line starts with it. -/
theorem matchStr_append_at {str l r : List Char} {a p : Nat}
    (h : str.drop p = l ++ r) :
    (⟨str, a, p⟩ : Stream').matchStr l = some ⟨str, a, p + l.length⟩ := by
  unfold Stream'.matchStr Stream'.rest
  simp only [h]
  rw [if_pos (List.isPrefixOf_iff_prefix.mpr (List.prefix_append l r))]

theorem drop_of_append {str l r : List Char} {p : Nat}
    (h : str.drop p = l ++ r) : str.drop (p + l.length) = r := by
  rw [← List.drop_drop, h, List.drop_left]

/-- `/^lit\s*/` consumes exactly `lit` when no whitespace follows. -/
theorem matchLitThenSpaces_append {str l r : List Char} {a p : Nat}
    (h : str.drop p = l ++ r) (hr : r.takeWhile jsSpace = []) :
    (⟨str, a, p⟩ : Stream').matchLitThenSpaces l = some ⟨str, a, p + l.length⟩ := by
  unfold Stream'.matchLitThenSpaces
  rw [matchStr_append_at h]
  simp only [Stream'.rest, drop_of_append h, hr, List.length_nil, Nat.add_zero]

/-- The begin pattern of an environment without `matchOnSingleLine`
(in particular every math environment) matches `\begin{name}` regardless of
the text that follows on the line: the pattern has no end-of-line anchor. -/
theorem lookEnvBegin_no_anchor (name r : List Char) :
    (⟨'\\' :: "begin".data ++ '{' :: (name ++ ['}']) ++ r, 0, 0⟩ :
      Stream').lookEnvBegin name false = true := by
  have h1 : ('\\' :: "begin".data ++ '{' :: (name ++ ['}']) ++ r).drop 0 =
      ('\\' :: "begin".data) ++ ('{' :: ((name ++ ['}']) ++ r)) := by
    simp [List.append_assoc]
  have hr1 : ('{' :: ((name ++ ['}']) ++ r)).takeWhile jsSpace = [] := by
    rw [List.takeWhile_cons]
    simp [show jsSpace '{' = false from rfl]
  have h4 : ('\\' :: "begin".data ++ '{' :: (name ++ ['}']) ++ r).drop
      (0 + ('\\' :: "begin".data).length) = ('{' :: (name ++ ['}'])) ++ r := by
    rw [drop_of_append h1, List.cons_append]
  unfold Stream'.lookEnvBegin
  rw [matchLitThenSpaces_append h1 hr1]
  simp only []
  rw [show ('{' :: name ++ ['}'] : List Char) = '{' :: (name ++ ['}']) from rfl,
    matchStr_append_at h4]
  rfl

/-- The begin pattern of an environment with `matchOnSingleLine`
(itemize/enumerate) matches `\begin{name}` exactly when nothing follows on
the line: the built pattern ends in the `$` anchor. -/
theorem lookEnvBegin_anchor (name r : List Char) :
    ((⟨'\\' :: "begin".data ++ '{' :: (name ++ ['}']) ++ r, 0, 0⟩ :
      Stream').lookEnvBegin name true = true) ↔ r = [] := by
  have h1 : ('\\' :: "begin".data ++ '{' :: (name ++ ['}']) ++ r).drop 0 =
      ('\\' :: "begin".data) ++ ('{' :: ((name ++ ['}']) ++ r)) := by
    simp [List.append_assoc]
  have hr1 : ('{' :: ((name ++ ['}']) ++ r)).takeWhile jsSpace = [] := by
    rw [List.takeWhile_cons]
    simp [show jsSpace '{' = false from rfl]
  have h4 : ('\\' :: "begin".data ++ '{' :: (name ++ ['}']) ++ r).drop
      (0 + ('\\' :: "begin".data).length) = ('{' :: (name ++ ['}'])) ++ r := by
    rw [drop_of_append h1, List.cons_append]
  unfold Stream'.lookEnvBegin
  rw [matchLitThenSpaces_append h1 hr1]
  simp only []
  rw [show ('{' :: name ++ ['}'] : List Char) = '{' :: (name ++ ['}']) from rfl,
    matchStr_append_at h4]
  simp only [if_pos rfl, if_true, Stream'.eol, List.length_append,
    List.length_cons, decide_eq_true_eq, ← List.length_eq_zero]
  omega

/-- Counterexample to C5 as stated: after the single line `\begin{equation}x`
— non-blank text following `\begin{equation}` — the math environment HAS been
entered: its `outer-display-math` mark is open and its `_matchEnvironment`
closure (with the math tokenizer) is on top of the stack. -/
theorem mathEnv_entered_with_trailing_text :
    ∃ s, processLines ["\\begin{equation}x"] startState = .ok s ∧
      s.openMarks.map (fun o => o.kind) = ["outer-display-math"] ∧
      s.stack.head? = some (.env ⟨"equation".data, some "outer-display-math",
        false, false, .mathTok⟩) := by
  have cD_t0_0 : token (⟨['\\', 'b', 'e', 'g', 'i', 'n', '{', 'e', 'q', 'u', 'a', 't', 'i', 'o', 'n', '}', 'x'], 0, 0⟩ : Stream') (⟨[LatexMode.Tok.topLevel], -1, [], [], 0⟩ : St) = .ok (some "tag", (⟨['\\', 'b', 'e', 'g', 'i', 'n', '{', 'e', 'q', 'u', 'a', 't', 'i', 'o', 'n', '}', 'x'], 0, 6⟩ : Stream'), (⟨[LatexMode.Tok.seq [(LatexMode.SeqPat.lbrace, some "bracket"), (LatexMode.SeqPat.envName, some "keyword"), (LatexMode.SeqPat.rbrace, some "bracket")] (LatexMode.Cb.envBegin { name := ['e', 'q', 'u', 'a', 't', 'i', 'o', 'n'], kind := some "outer-display-math", allowBlankLines := false, matchOnSingleLine := false, tokenizer := LatexMode.ITok.mathTok } (some { line := 0, ch := 0 })), LatexMode.Tok.topLevel], 0, [], [], 0⟩ : St)) := by decide
  have cD_t0_1 : token (⟨['\\', 'b', 'e', 'g', 'i', 'n', '{', 'e', 'q', 'u', 'a', 't', 'i', 'o', 'n', '}', 'x'], 6, 6⟩ : Stream') (⟨[LatexMode.Tok.seq [(LatexMode.SeqPat.lbrace, some "bracket"), (LatexMode.SeqPat.envName, some "keyword"), (LatexMode.SeqPat.rbrace, some "bracket")] (LatexMode.Cb.envBegin { name := ['e', 'q', 'u', 'a', 't', 'i', 'o', 'n'], kind := some "outer-display-math", allowBlankLines := false, matchOnSingleLine := false, tokenizer := LatexMode.ITok.mathTok } (some { line := 0, ch := 0 })), LatexMode.Tok.topLevel], 0, [], [], 0⟩ : St) = .ok (some "bracket", (⟨['\\', 'b', 'e', 'g', 'i', 'n', '{', 'e', 'q', 'u', 'a', 't', 'i', 'o', 'n', '}', 'x'], 6, 7⟩ : Stream'), (⟨[LatexMode.Tok.seq [(LatexMode.SeqPat.envName, some "keyword"), (LatexMode.SeqPat.rbrace, some "bracket")] (LatexMode.Cb.envBegin { name := ['e', 'q', 'u', 'a', 't', 'i', 'o', 'n'], kind := some "outer-display-math", allowBlankLines := false, matchOnSingleLine := false, tokenizer := LatexMode.ITok.mathTok } (some { line := 0, ch := 0 })), LatexMode.Tok.topLevel], 0, [], [], 0⟩ : St)) := by decide
  have cD_t0_2 : token (⟨['\\', 'b', 'e', 'g', 'i', 'n', '{', 'e', 'q', 'u', 'a', 't', 'i', 'o', 'n', '}', 'x'], 7, 7⟩ : Stream') (⟨[LatexMode.Tok.seq [(LatexMode.SeqPat.envName, some "keyword"), (LatexMode.SeqPat.rbrace, some "bracket")] (LatexMode.Cb.envBegin { name := ['e', 'q', 'u', 'a', 't', 'i', 'o', 'n'], kind := some "outer-display-math", allowBlankLines := false, matchOnSingleLine := false, tokenizer := LatexMode.ITok.mathTok } (some { line := 0, ch := 0 })), LatexMode.Tok.topLevel], 0, [], [], 0⟩ : St) = .ok (some "keyword", (⟨['\\', 'b', 'e', 'g', 'i', 'n', '{', 'e', 'q', 'u', 'a', 't', 'i', 'o', 'n', '}', 'x'], 7, 15⟩ : Stream'), (⟨[LatexMode.Tok.seq [(LatexMode.SeqPat.rbrace, some "bracket")] (LatexMode.Cb.envBegin { name := ['e', 'q', 'u', 'a', 't', 'i', 'o', 'n'], kind := some "outer-display-math", allowBlankLines := false, matchOnSingleLine := false, tokenizer := LatexMode.ITok.mathTok } (some { line := 0, ch := 0 })), LatexMode.Tok.topLevel], 0, [], [], 0⟩ : St)) := by decide
  have cD_t0_3 : token (⟨['\\', 'b', 'e', 'g', 'i', 'n', '{', 'e', 'q', 'u', 'a', 't', 'i', 'o', 'n', '}', 'x'], 15, 15⟩ : Stream') (⟨[LatexMode.Tok.seq [(LatexMode.SeqPat.rbrace, some "bracket")] (LatexMode.Cb.envBegin { name := ['e', 'q', 'u', 'a', 't', 'i', 'o', 'n'], kind := some "outer-display-math", allowBlankLines := false, matchOnSingleLine := false, tokenizer := LatexMode.ITok.mathTok } (some { line := 0, ch := 0 })), LatexMode.Tok.topLevel], 0, [], [], 0⟩ : St) = .ok (some "bracket", (⟨['\\', 'b', 'e', 'g', 'i', 'n', '{', 'e', 'q', 'u', 'a', 't', 'i', 'o', 'n', '}', 'x'], 15, 16⟩ : Stream'), (⟨[LatexMode.Tok.env { name := ['e', 'q', 'u', 'a', 't', 'i', 'o', 'n'], kind := some "outer-display-math", allowBlankLines := false, matchOnSingleLine := false, tokenizer := LatexMode.ITok.mathTok }, LatexMode.Tok.topLevel], 0, [{ id := 0, kind := "outer-display-math", from_ := { line := 0, ch := 0 }, contentFrom := { line := 0, ch := 16 }, checkedProperties := { kind := none, number := none, openMarksCount := some 0, fromLine := none, toLine := none } }], [], 1⟩ : St)) := by decide
  have cD_t0_4 : token (⟨['\\', 'b', 'e', 'g', 'i', 'n', '{', 'e', 'q', 'u', 'a', 't', 'i', 'o', 'n', '}', 'x'], 16, 16⟩ : Stream') (⟨[LatexMode.Tok.env { name := ['e', 'q', 'u', 'a', 't', 'i', 'o', 'n'], kind := some "outer-display-math", allowBlankLines := false, matchOnSingleLine := false, tokenizer := LatexMode.ITok.mathTok }, LatexMode.Tok.topLevel], 0, [{ id := 0, kind := "outer-display-math", from_ := { line := 0, ch := 0 }, contentFrom := { line := 0, ch := 16 }, checkedProperties := { kind := none, number := none, openMarksCount := some 0, fromLine := none, toLine := none } }], [], 1⟩ : St) = .ok (none, (⟨['\\', 'b', 'e', 'g', 'i', 'n', '{', 'e', 'q', 'u', 'a', 't', 'i', 'o', 'n', '}', 'x'], 16, 17⟩ : Stream'), (⟨[LatexMode.Tok.env { name := ['e', 'q', 'u', 'a', 't', 'i', 'o', 'n'], kind := some "outer-display-math", allowBlankLines := false, matchOnSingleLine := false, tokenizer := LatexMode.ITok.mathTok }, LatexMode.Tok.topLevel], 0, [{ id := 0, kind := "outer-display-math", from_ := { line := 0, ch := 0 }, contentFrom := { line := 0, ch := 16 }, checkedProperties := { kind := none, number := none, openMarksCount := some 0, fromLine := none, toLine := none } }], [], 1⟩ : St)) := by decide
  have cD_r0_5 : runLine 55 (⟨['\\', 'b', 'e', 'g', 'i', 'n', '{', 'e', 'q', 'u', 'a', 't', 'i', 'o', 'n', '}', 'x'], 17, 17⟩ : Stream') (⟨[LatexMode.Tok.env { name := ['e', 'q', 'u', 'a', 't', 'i', 'o', 'n'], kind := some "outer-display-math", allowBlankLines := false, matchOnSingleLine := false, tokenizer := LatexMode.ITok.mathTok }, LatexMode.Tok.topLevel], 0, [{ id := 0, kind := "outer-display-math", from_ := { line := 0, ch := 0 }, contentFrom := { line := 0, ch := 16 }, checkedProperties := { kind := none, number := none, openMarksCount := some 0, fromLine := none, toLine := none } }], [], 1⟩ : St) = .ok ([], (⟨[LatexMode.Tok.env { name := ['e', 'q', 'u', 'a', 't', 'i', 'o', 'n'], kind := some "outer-display-math", allowBlankLines := false, matchOnSingleLine := false, tokenizer := LatexMode.ITok.mathTok }, LatexMode.Tok.topLevel], 0, [{ id := 0, kind := "outer-display-math", from_ := { line := 0, ch := 0 }, contentFrom := { line := 0, ch := 16 }, checkedProperties := { kind := none, number := none, openMarksCount := some 0, fromLine := none, toLine := none } }], [], 1⟩ : St)) := runLine_eol (by decide)
  have cD_r0_4 : runLine 56 (⟨['\\', 'b', 'e', 'g', 'i', 'n', '{', 'e', 'q', 'u', 'a', 't', 'i', 'o', 'n', '}', 'x'], 16, 16⟩ : Stream') (⟨[LatexMode.Tok.env { name := ['e', 'q', 'u', 'a', 't', 'i', 'o', 'n'], kind := some "outer-display-math", allowBlankLines := false, matchOnSingleLine := false, tokenizer := LatexMode.ITok.mathTok }, LatexMode.Tok.topLevel], 0, [{ id := 0, kind := "outer-display-math", from_ := { line := 0, ch := 0 }, contentFrom := { line := 0, ch := 16 }, checkedProperties := { kind := none, number := none, openMarksCount := some 0, fromLine := none, toLine := none } }], [], 1⟩ : St) = .ok ([none], (⟨[LatexMode.Tok.env { name := ['e', 'q', 'u', 'a', 't', 'i', 'o', 'n'], kind := some "outer-display-math", allowBlankLines := false, matchOnSingleLine := false, tokenizer := LatexMode.ITok.mathTok }, LatexMode.Tok.topLevel], 0, [{ id := 0, kind := "outer-display-math", from_ := { line := 0, ch := 0 }, contentFrom := { line := 0, ch := 16 }, checkedProperties := { kind := none, number := none, openMarksCount := some 0, fromLine := none, toLine := none } }], [], 1⟩ : St)) := runLine_step (by decide) cD_t0_4 cD_r0_5
  have cD_r0_3 : runLine 57 (⟨['\\', 'b', 'e', 'g', 'i', 'n', '{', 'e', 'q', 'u', 'a', 't', 'i', 'o', 'n', '}', 'x'], 15, 15⟩ : Stream') (⟨[LatexMode.Tok.seq [(LatexMode.SeqPat.rbrace, some "bracket")] (LatexMode.Cb.envBegin { name := ['e', 'q', 'u', 'a', 't', 'i', 'o', 'n'], kind := some "outer-display-math", allowBlankLines := false, matchOnSingleLine := false, tokenizer := LatexMode.ITok.mathTok } (some { line := 0, ch := 0 })), LatexMode.Tok.topLevel], 0, [], [], 0⟩ : St) = .ok ([some "bracket", none], (⟨[LatexMode.Tok.env { name := ['e', 'q', 'u', 'a', 't', 'i', 'o', 'n'], kind := some "outer-display-math", allowBlankLines := false, matchOnSingleLine := false, tokenizer := LatexMode.ITok.mathTok }, LatexMode.Tok.topLevel], 0, [{ id := 0, kind := "outer-display-math", from_ := { line := 0, ch := 0 }, contentFrom := { line := 0, ch := 16 }, checkedProperties := { kind := none, number := none, openMarksCount := some 0, fromLine := none, toLine := none } }], [], 1⟩ : St)) := runLine_step (by decide) cD_t0_3 cD_r0_4
  have cD_r0_2 : runLine 58 (⟨['\\', 'b', 'e', 'g', 'i', 'n', '{', 'e', 'q', 'u', 'a', 't', 'i', 'o', 'n', '}', 'x'], 7, 7⟩ : Stream') (⟨[LatexMode.Tok.seq [(LatexMode.SeqPat.envName, some "keyword"), (LatexMode.SeqPat.rbrace, some "bracket")] (LatexMode.Cb.envBegin { name := ['e', 'q', 'u', 'a', 't', 'i', 'o', 'n'], kind := some "outer-display-math", allowBlankLines := false, matchOnSingleLine := false, tokenizer := LatexMode.ITok.mathTok } (some { line := 0, ch := 0 })), LatexMode.Tok.topLevel], 0, [], [], 0⟩ : St) = .ok ([some "keyword", some "bracket", none], (⟨[LatexMode.Tok.env { name := ['e', 'q', 'u', 'a', 't', 'i', 'o', 'n'], kind := some "outer-display-math", allowBlankLines := false, matchOnSingleLine := false, tokenizer := LatexMode.ITok.mathTok }, LatexMode.Tok.topLevel], 0, [{ id := 0, kind := "outer-display-math", from_ := { line := 0, ch := 0 }, contentFrom := { line := 0, ch := 16 }, checkedProperties := { kind := none, number := none, openMarksCount := some 0, fromLine := none, toLine := none } }], [], 1⟩ : St)) := runLine_step (by decide) cD_t0_2 cD_r0_3
  have cD_r0_1 : runLine 59 (⟨['\\', 'b', 'e', 'g', 'i', 'n', '{', 'e', 'q', 'u', 'a', 't', 'i', 'o', 'n', '}', 'x'], 6, 6⟩ : Stream') (⟨[LatexMode.Tok.seq [(LatexMode.SeqPat.lbrace, some "bracket"), (LatexMode.SeqPat.envName, some "keyword"), (LatexMode.SeqPat.rbrace, some "bracket")] (LatexMode.Cb.envBegin { name := ['e', 'q', 'u', 'a', 't', 'i', 'o', 'n'], kind := some "outer-display-math", allowBlankLines := false, matchOnSingleLine := false, tokenizer := LatexMode.ITok.mathTok } (some { line := 0, ch := 0 })), LatexMode.Tok.topLevel], 0, [], [], 0⟩ : St) = .ok ([some "bracket", some "keyword", some "bracket", none], (⟨[LatexMode.Tok.env { name := ['e', 'q', 'u', 'a', 't', 'i', 'o', 'n'], kind := some "outer-display-math", allowBlankLines := false, matchOnSingleLine := false, tokenizer := LatexMode.ITok.mathTok }, LatexMode.Tok.topLevel], 0, [{ id := 0, kind := "outer-display-math", from_ := { line := 0, ch := 0 }, contentFrom := { line := 0, ch := 16 }, checkedProperties := { kind := none, number := none, openMarksCount := some 0, fromLine := none, toLine := none } }], [], 1⟩ : St)) := runLine_step (by decide) cD_t0_1 cD_r0_2
  have cD_r0_0 : runLine 60 (⟨['\\', 'b', 'e', 'g', 'i', 'n', '{', 'e', 'q', 'u', 'a', 't', 'i', 'o', 'n', '}', 'x'], 0, 0⟩ : Stream') (⟨[LatexMode.Tok.topLevel], -1, [], [], 0⟩ : St) = .ok ([some "tag", some "bracket", some "keyword", some "bracket", none], (⟨[LatexMode.Tok.env { name := ['e', 'q', 'u', 'a', 't', 'i', 'o', 'n'], kind := some "outer-display-math", allowBlankLines := false, matchOnSingleLine := false, tokenizer := LatexMode.ITok.mathTok }, LatexMode.Tok.topLevel], 0, [{ id := 0, kind := "outer-display-math", from_ := { line := 0, ch := 0 }, contentFrom := { line := 0, ch := 16 }, checkedProperties := { kind := none, number := none, openMarksCount := some 0, fromLine := none, toLine := none } }], [], 1⟩ : St)) := runLine_step (by decide) cD_t0_0 cD_r0_1
  have cD_pl0 : processLine "\\begin{equation}x" (⟨[LatexMode.Tok.topLevel], -1, [], [], 0⟩ : St) = .ok ([some "tag", some "bracket", some "keyword", some "bracket", none], (⟨[LatexMode.Tok.env { name := ['e', 'q', 'u', 'a', 't', 'i', 'o', 'n'], kind := some "outer-display-math", allowBlankLines := false, matchOnSingleLine := false, tokenizer := LatexMode.ITok.mathTok }, LatexMode.Tok.topLevel], 0, [{ id := 0, kind := "outer-display-math", from_ := { line := 0, ch := 0 }, contentFrom := { line := 0, ch := 16 }, checkedProperties := { kind := none, number := none, openMarksCount := some 0, fromLine := none, toLine := none } }], [], 1⟩ : St)) := processLine_of_runLine (by decide) cD_r0_0
  have cD_d1 : processLinesOut [] (⟨[LatexMode.Tok.env { name := ['e', 'q', 'u', 'a', 't', 'i', 'o', 'n'], kind := some "outer-display-math", allowBlankLines := false, matchOnSingleLine := false, tokenizer := LatexMode.ITok.mathTok }, LatexMode.Tok.topLevel], 0, [{ id := 0, kind := "outer-display-math", from_ := { line := 0, ch := 0 }, contentFrom := { line := 0, ch := 16 }, checkedProperties := { kind := none, number := none, openMarksCount := some 0, fromLine := none, toLine := none } }], [], 1⟩ : St) = .ok ([], (⟨[LatexMode.Tok.env { name := ['e', 'q', 'u', 'a', 't', 'i', 'o', 'n'], kind := some "outer-display-math", allowBlankLines := false, matchOnSingleLine := false, tokenizer := LatexMode.ITok.mathTok }, LatexMode.Tok.topLevel], 0, [{ id := 0, kind := "outer-display-math", from_ := { line := 0, ch := 0 }, contentFrom := { line := 0, ch := 16 }, checkedProperties := { kind := none, number := none, openMarksCount := some 0, fromLine := none, toLine := none } }], [], 1⟩ : St)) := processLinesOut_nil
  have cD_d0 : processLinesOut ["\\begin{equation}x"] (⟨[LatexMode.Tok.topLevel], -1, [], [], 0⟩ : St) = .ok ([[some "tag", some "bracket", some "keyword", some "bracket", none]], (⟨[LatexMode.Tok.env { name := ['e', 'q', 'u', 'a', 't', 'i', 'o', 'n'], kind := some "outer-display-math", allowBlankLines := false, matchOnSingleLine := false, tokenizer := LatexMode.ITok.mathTok }, LatexMode.Tok.topLevel], 0, [{ id := 0, kind := "outer-display-math", from_ := { line := 0, ch := 0 }, contentFrom := { line := 0, ch := 16 }, checkedProperties := { kind := none, number := none, openMarksCount := some 0, fromLine := none, toLine := none } }], [], 1⟩ : St)) := processLinesOut_step cD_pl0 cD_d1
  have cD_fin : processLines ["\\begin{equation}x"] startState = .ok (⟨[LatexMode.Tok.env { name := ['e', 'q', 'u', 'a', 't', 'i', 'o', 'n'], kind := some "outer-display-math", allowBlankLines := false, matchOnSingleLine := false, tokenizer := LatexMode.ITok.mathTok }, LatexMode.Tok.topLevel], 0, [{ id := 0, kind := "outer-display-math", from_ := { line := 0, ch := 0 }, contentFrom := { line := 0, ch := 16 }, checkedProperties := { kind := none, number := none, openMarksCount := some 0, fromLine := none, toLine := none } }], [], 1⟩ : St) := processLines_of_out cD_d0
  exact ⟨_, cD_fin, rfl, rfl⟩

/-- C5 (amended).  The `$` end-of-line anchor is attached by
`_buildEnvironmentBeginAndEndPatterns` exactly to the environments with
`matchOnSingleLine` — itemize and enumerate — and to no math environment:
a list environment's `\begin{…}` is matched only when it ends its line,
while a math environment's `\begin{…}` is matched regardless of what
follows.  Concretely, `\begin{equation}x` enters the equation environment,
`\begin{itemize}x` does not enter itemize, and `\begin{itemize}` alone does. -/
theorem matchOnSingleLine_anchor :
    (∀ cfg ∈ mathEnvironments, cfg.matchOnSingleLine = false) ∧
    (∀ cfg ∈ listEnvironments, cfg.matchOnSingleLine = true) ∧
    (∀ name r : List Char,
      (⟨'\\' :: "begin".data ++ '{' :: (name ++ ['}']) ++ r, 0, 0⟩ :
        Stream').lookEnvBegin name false = true) ∧
    (∀ name r : List Char,
      ((⟨'\\' :: "begin".data ++ '{' :: (name ++ ['}']) ++ r, 0, 0⟩ :
        Stream').lookEnvBegin name true = true) ↔ r = []) ∧
    ((processLines ["\\begin{equation}x"] startState).map
      (fun s => s.openMarks.map fun o => o.kind) = .ok ["outer-display-math"]) ∧
    ((processLines ["\\begin{itemize}x"] startState).map
      (fun s => (s.openMarks, s.stack)) = .ok ([], [.topLevel])) ∧
    ((processLines ["\\begin{itemize}"] startState).map
      (fun s => s.openMarks.map fun o => o.kind) = .ok ["itemize"]) := by
  have hD : (processLines ["\\begin{equation}x"] startState).map
      (fun s => s.openMarks.map fun o => o.kind) = .ok ["outer-display-math"] := by
    have cDa_t0_0 : token (⟨['\\', 'b', 'e', 'g', 'i', 'n', '{', 'e', 'q', 'u', 'a', 't', 'i', 'o', 'n', '}', 'x'], 0, 0⟩ : Stream') (⟨[LatexMode.Tok.topLevel], -1, [], [], 0⟩ : St) = .ok (some "tag", (⟨['\\', 'b', 'e', 'g', 'i', 'n', '{', 'e', 'q', 'u', 'a', 't', 'i', 'o', 'n', '}', 'x'], 0, 6⟩ : Stream'), (⟨[LatexMode.Tok.seq [(LatexMode.SeqPat.lbrace, some "bracket"), (LatexMode.SeqPat.envName, some "keyword"), (LatexMode.SeqPat.rbrace, some "bracket")] (LatexMode.Cb.envBegin { name := ['e', 'q', 'u', 'a', 't', 'i', 'o', 'n'], kind := some "outer-display-math", allowBlankLines := false, matchOnSingleLine := false, tokenizer := LatexMode.ITok.mathTok } (some { line := 0, ch := 0 })), LatexMode.Tok.topLevel], 0, [], [], 0⟩ : St)) := by decide
    have cDa_t0_1 : token (⟨['\\', 'b', 'e', 'g', 'i', 'n', '{', 'e', 'q', 'u', 'a', 't', 'i', 'o', 'n', '}', 'x'], 6, 6⟩ : Stream') (⟨[LatexMode.Tok.seq [(LatexMode.SeqPat.lbrace, some "bracket"), (LatexMode.SeqPat.envName, some "keyword"), (LatexMode.SeqPat.rbrace, some "bracket")] (LatexMode.Cb.envBegin { name := ['e', 'q', 'u', 'a', 't', 'i', 'o', 'n'], kind := some "outer-display-math", allowBlankLines := false, matchOnSingleLine := false, tokenizer := LatexMode.ITok.mathTok } (some { line := 0, ch := 0 })), LatexMode.Tok.topLevel], 0, [], [], 0⟩ : St) = .ok (some "bracket", (⟨['\\', 'b', 'e', 'g', 'i', 'n', '{', 'e', 'q', 'u', 'a', 't', 'i', 'o', 'n', '}', 'x'], 6, 7⟩ : Stream'), (⟨[LatexMode.Tok.seq [(LatexMode.SeqPat.envName, some "keyword"), (LatexMode.SeqPat.rbrace, some "bracket")] (LatexMode.Cb.envBegin { name := ['e', 'q', 'u', 'a', 't', 'i', 'o', 'n'], kind := some "outer-display-math", allowBlankLines := false, matchOnSingleLine := false, tokenizer := LatexMode.ITok.mathTok } (some { line := 0, ch := 0 })), LatexMode.Tok.topLevel], 0, [], [], 0⟩ : St)) := by decide
    have cDa_t0_2 : token (⟨['\\', 'b', 'e', 'g', 'i', 'n', '{', 'e', 'q', 'u', 'a', 't', 'i', 'o', 'n', '}', 'x'], 7, 7⟩ : Stream') (⟨[LatexMode.Tok.seq [(LatexMode.SeqPat.envName, some "keyword"), (LatexMode.SeqPat.rbrace, some "bracket")] (LatexMode.Cb.envBegin { name := ['e', 'q', 'u', 'a', 't', 'i', 'o', 'n'], kind := some "outer-display-math", allowBlankLines := false, matchOnSingleLine := false, tokenizer := LatexMode.ITok.mathTok } (some { line := 0, ch := 0 })), LatexMode.Tok.topLevel], 0, [], [], 0⟩ : St) = .ok (some "keyword", (⟨['\\', 'b', 'e', 'g', 'i', 'n', '{', 'e', 'q', 'u', 'a', 't', 'i', 'o', 'n', '}', 'x'], 7, 15⟩ : Stream'), (⟨[LatexMode.Tok.seq [(LatexMode.SeqPat.rbrace, some "bracket")] (LatexMode.Cb.envBegin { name := ['e', 'q', 'u', 'a', 't', 'i', 'o', 'n'], kind := some "outer-display-math", allowBlankLines := false, matchOnSingleLine := false, tokenizer := LatexMode.ITok.mathTok } (some { line := 0, ch := 0 })), LatexMode.Tok.topLevel], 0, [], [], 0⟩ : St)) := by decide
    have cDa_t0_3 : token (⟨['\\', 'b', 'e', 'g', 'i', 'n', '{', 'e', 'q', 'u', 'a', 't', 'i', 'o', 'n', '}', 'x'], 15, 15⟩ : Stream') (⟨[LatexMode.Tok.seq [(LatexMode.SeqPat.rbrace, some "bracket")] (LatexMode.Cb.envBegin { name := ['e', 'q', 'u', 'a', 't', 'i', 'o', 'n'], kind := some "outer-display-math", allowBlankLines := false, matchOnSingleLine := false, tokenizer := LatexMode.ITok.mathTok } (some { line := 0, ch := 0 })), LatexMode.Tok.topLevel], 0, [], [], 0⟩ : St) = .ok (some "bracket", (⟨['\\', 'b', 'e', 'g', 'i', 'n', '{', 'e', 'q', 'u', 'a', 't', 'i', 'o', 'n', '}', 'x'], 15, 16⟩ : Stream'), (⟨[LatexMode.Tok.env { name := ['e', 'q', 'u', 'a', 't', 'i', 'o', 'n'], kind := some "outer-display-math", allowBlankLines := false, matchOnSingleLine := false, tokenizer := LatexMode.ITok.mathTok }, LatexMode.Tok.topLevel], 0, [{ id := 0, kind := "outer-display-math", from_ := { line := 0, ch := 0 }, contentFrom := { line := 0, ch := 16 }, checkedProperties := { kind := none, number := none, openMarksCount := some 0, fromLine := none, toLine := none } }], [], 1⟩ : St)) := by decide
    have cDa_t0_4 : token (⟨['\\', 'b', 'e', 'g', 'i', 'n', '{', 'e', 'q', 'u', 'a', 't', 'i', 'o', 'n', '}', 'x'], 16, 16⟩ : Stream') (⟨[LatexMode.Tok.env { name := ['e', 'q', 'u', 'a', 't', 'i', 'o', 'n'], kind := some "outer-display-math", allowBlankLines := false, matchOnSingleLine := false, tokenizer := LatexMode.ITok.mathTok }, LatexMode.Tok.topLevel], 0, [{ id := 0, kind := "outer-display-math", from_ := { line := 0, ch := 0 }, contentFrom := { line := 0, ch := 16 }, checkedProperties := { kind := none, number := none, openMarksCount := some 0, fromLine := none, toLine := none } }], [], 1⟩ : St) = .ok (none, (⟨['\\', 'b', 'e', 'g', 'i', 'n', '{', 'e', 'q', 'u', 'a', 't', 'i', 'o', 'n', '}', 'x'], 16, 17⟩ : Stream'), (⟨[LatexMode.Tok.env { name := ['e', 'q', 'u', 'a', 't', 'i', 'o', 'n'], kind := some "outer-display-math", allowBlankLines := false, matchOnSingleLine := false, tokenizer := LatexMode.ITok.mathTok }, LatexMode.Tok.topLevel], 0, [{ id := 0, kind := "outer-display-math", from_ := { line := 0, ch := 0 }, contentFrom := { line := 0, ch := 16 }, checkedProperties := { kind := none, number := none, openMarksCount := some 0, fromLine := none, toLine := none } }], [], 1⟩ : St)) := by decide
    have cDa_r0_5 : runLine 55 (⟨['\\', 'b', 'e', 'g', 'i', 'n', '{', 'e', 'q', 'u', 'a', 't', 'i', 'o', 'n', '}', 'x'], 17, 17⟩ : Stream') (⟨[LatexMode.Tok.env { name := ['e', 'q', 'u', 'a', 't', 'i', 'o', 'n'], kind := some "outer-display-math", allowBlankLines := false, matchOnSingleLine := false, tokenizer := LatexMode.ITok.mathTok }, LatexMode.Tok.topLevel], 0, [{ id := 0, kind := "outer-display-math", from_ := { line := 0, ch := 0 }, contentFrom := { line := 0, ch := 16 }, checkedProperties := { kind := none, number := none, openMarksCount := some 0, fromLine := none, toLine := none } }], [], 1⟩ : St) = .ok ([], (⟨[LatexMode.Tok.env { name := ['e', 'q', 'u', 'a', 't', 'i', 'o', 'n'], kind := some "outer-display-math", allowBlankLines := false, matchOnSingleLine := false, tokenizer := LatexMode.ITok.mathTok }, LatexMode.Tok.topLevel], 0, [{ id := 0, kind := "outer-display-math", from_ := { line := 0, ch := 0 }, contentFrom := { line := 0, ch := 16 }, checkedProperties := { kind := none, number := none, openMarksCount := some 0, fromLine := none, toLine := none } }], [], 1⟩ : St)) := runLine_eol (by decide)
    have cDa_r0_4 : runLine 56 (⟨['\\', 'b', 'e', 'g', 'i', 'n', '{', 'e', 'q', 'u', 'a', 't', 'i', 'o', 'n', '}', 'x'], 16, 16⟩ : Stream') (⟨[LatexMode.Tok.env { name := ['e', 'q', 'u', 'a', 't', 'i', 'o', 'n'], kind := some "outer-display-math", allowBlankLines := false, matchOnSingleLine := false, tokenizer := LatexMode.ITok.mathTok }, LatexMode.Tok.topLevel], 0, [{ id := 0, kind := "outer-display-math", from_ := { line := 0, ch := 0 }, contentFrom := { line := 0, ch := 16 }, checkedProperties := { kind := none, number := none, openMarksCount := some 0, fromLine := none, toLine := none } }], [], 1⟩ : St) = .ok ([none], (⟨[LatexMode.Tok.env { name := ['e', 'q', 'u', 'a', 't', 'i', 'o', 'n'], kind := some "outer-display-math", allowBlankLines := false, matchOnSingleLine := false, tokenizer := LatexMode.ITok.mathTok }, LatexMode.Tok.topLevel], 0, [{ id := 0, kind := "outer-display-math", from_ := { line := 0, ch := 0 }, contentFrom := { line := 0, ch := 16 }, checkedProperties := { kind := none, number := none, openMarksCount := some 0, fromLine := none, toLine := none } }], [], 1⟩ : St)) := runLine_step (by decide) cDa_t0_4 cDa_r0_5
    have cDa_r0_3 : runLine 57 (⟨['\\', 'b', 'e', 'g', 'i', 'n', '{', 'e', 'q', 'u', 'a', 't', 'i', 'o', 'n', '}', 'x'], 15, 15⟩ : Stream') (⟨[LatexMode.Tok.seq [(LatexMode.SeqPat.rbrace, some "bracket")] (LatexMode.Cb.envBegin { name := ['e', 'q', 'u', 'a', 't', 'i', 'o', 'n'], kind := some "outer-display-math", allowBlankLines := false, matchOnSingleLine := false, tokenizer := LatexMode.ITok.mathTok } (some { line := 0, ch := 0 })), LatexMode.Tok.topLevel], 0, [], [], 0⟩ : St) = .ok ([some "bracket", none], (⟨[LatexMode.Tok.env { name := ['e', 'q', 'u', 'a', 't', 'i', 'o', 'n'], kind := some "outer-display-math", allowBlankLines := false, matchOnSingleLine := false, tokenizer := LatexMode.ITok.mathTok }, LatexMode.Tok.topLevel], 0, [{ id := 0, kind := "outer-display-math", from_ := { line := 0, ch := 0 }, contentFrom := { line := 0, ch := 16 }, checkedProperties := { kind := none, number := none, openMarksCount := some 0, fromLine := none, toLine := none } }], [], 1⟩ : St)) := runLine_step (by decide) cDa_t0_3 cDa_r0_4
    have cDa_r0_2 : runLine 58 (⟨['\\', 'b', 'e', 'g', 'i', 'n', '{', 'e', 'q', 'u', 'a', 't', 'i', 'o', 'n', '}', 'x'], 7, 7⟩ : Stream') (⟨[LatexMode.Tok.seq [(LatexMode.SeqPat.envName, some "keyword"), (LatexMode.SeqPat.rbrace, some "bracket")] (LatexMode.Cb.envBegin { name := ['e', 'q', 'u', 'a', 't', 'i', 'o', 'n'], kind := some "outer-display-math", allowBlankLines := false, matchOnSingleLine := false, tokenizer := LatexMode.ITok.mathTok } (some { line := 0, ch := 0 })), LatexMode.Tok.topLevel], 0, [], [], 0⟩ : St) = .ok ([some "keyword", some "bracket", none], (⟨[LatexMode.Tok.env { name := ['e', 'q', 'u', 'a', 't', 'i', 'o', 'n'], kind := some "outer-display-math", allowBlankLines := false, matchOnSingleLine := false, tokenizer := LatexMode.ITok.mathTok }, LatexMode.Tok.topLevel], 0, [{ id := 0, kind := "outer-display-math", from_ := { line := 0, ch := 0 }, contentFrom := { line := 0, ch := 16 }, checkedProperties := { kind := none, number := none, openMarksCount := some 0, fromLine := none, toLine := none } }], [], 1⟩ : St)) := runLine_step (by decide) cDa_t0_2 cDa_r0_3
    have cDa_r0_1 : runLine 59 (⟨['\\', 'b', 'e', 'g', 'i', 'n', '{', 'e', 'q', 'u', 'a', 't', 'i', 'o', 'n', '}', 'x'], 6, 6⟩ : Stream') (⟨[LatexMode.Tok.seq [(LatexMode.SeqPat.lbrace, some "bracket"), (LatexMode.SeqPat.envName, some "keyword"), (LatexMode.SeqPat.rbrace, some "bracket")] (LatexMode.Cb.envBegin { name := ['e', 'q', 'u', 'a', 't', 'i', 'o', 'n'], kind := some "outer-display-math", allowBlankLines := false, matchOnSingleLine := false, tokenizer := LatexMode.ITok.mathTok } (some { line := 0, ch := 0 })), LatexMode.Tok.topLevel], 0, [], [], 0⟩ : St) = .ok ([some "bracket", some "keyword", some "bracket", none], (⟨[LatexMode.Tok.env { name := ['e', 'q', 'u', 'a', 't', 'i', 'o', 'n'], kind := some "outer-display-math", allowBlankLines := false, matchOnSingleLine := false, tokenizer := LatexMode.ITok.mathTok }, LatexMode.Tok.topLevel], 0, [{ id := 0, kind := "outer-display-math", from_ := { line := 0, ch := 0 }, contentFrom := { line := 0, ch := 16 }, checkedProperties := { kind := none, number := none, openMarksCount := some 0, fromLine := none, toLine := none } }], [], 1⟩ : St)) := runLine_step (by decide) cDa_t0_1 cDa_r0_2
    have cDa_r0_0 : runLine 60 (⟨['\\', 'b', 'e', 'g', 'i', 'n', '{', 'e', 'q', 'u', 'a', 't', 'i', 'o', 'n', '}', 'x'], 0, 0⟩ : Stream') (⟨[LatexMode.Tok.topLevel], -1, [], [], 0⟩ : St) = .ok ([some "tag", some "bracket", some "keyword", some "bracket", none], (⟨[LatexMode.Tok.env { name := ['e', 'q', 'u', 'a', 't', 'i', 'o', 'n'], kind := some "outer-display-math", allowBlankLines := false, matchOnSingleLine := false, tokenizer := LatexMode.ITok.mathTok }, LatexMode.Tok.topLevel], 0, [{ id := 0, kind := "outer-display-math", from_ := { line := 0, ch := 0 }, contentFrom := { line := 0, ch := 16 }, checkedProperties := { kind := none, number := none, openMarksCount := some 0, fromLine := none, toLine := none } }], [], 1⟩ : St)) := runLine_step (by decide) cDa_t0_0 cDa_r0_1
    have cDa_pl0 : processLine "\\begin{equation}x" (⟨[LatexMode.Tok.topLevel], -1, [], [], 0⟩ : St) = .ok ([some "tag", some "bracket", some "keyword", some "bracket", none], (⟨[LatexMode.Tok.env { name := ['e', 'q', 'u', 'a', 't', 'i', 'o', 'n'], kind := some "outer-display-math", allowBlankLines := false, matchOnSingleLine := false, tokenizer := LatexMode.ITok.mathTok }, LatexMode.Tok.topLevel], 0, [{ id := 0, kind := "outer-display-math", from_ := { line := 0, ch := 0 }, contentFrom := { line := 0, ch := 16 }, checkedProperties := { kind := none, number := none, openMarksCount := some 0, fromLine := none, toLine := none } }], [], 1⟩ : St)) := processLine_of_runLine (by decide) cDa_r0_0
    have cDa_d1 : processLinesOut [] (⟨[LatexMode.Tok.env { name := ['e', 'q', 'u', 'a', 't', 'i', 'o', 'n'], kind := some "outer-display-math", allowBlankLines := false, matchOnSingleLine := false, tokenizer := LatexMode.ITok.mathTok }, LatexMode.Tok.topLevel], 0, [{ id := 0, kind := "outer-display-math", from_ := { line := 0, ch := 0 }, contentFrom := { line := 0, ch := 16 }, checkedProperties := { kind := none, number := none, openMarksCount := some 0, fromLine := none, toLine := none } }], [], 1⟩ : St) = .ok ([], (⟨[LatexMode.Tok.env { name := ['e', 'q', 'u', 'a', 't', 'i', 'o', 'n'], kind := some "outer-display-math", allowBlankLines := false, matchOnSingleLine := false, tokenizer := LatexMode.ITok.mathTok }, LatexMode.Tok.topLevel], 0, [{ id := 0, kind := "outer-display-math", from_ := { line := 0, ch := 0 }, contentFrom := { line := 0, ch := 16 }, checkedProperties := { kind := none, number := none, openMarksCount := some 0, fromLine := none, toLine := none } }], [], 1⟩ : St)) := processLinesOut_nil
    have cDa_d0 : processLinesOut ["\\begin{equation}x"] (⟨[LatexMode.Tok.topLevel], -1, [], [], 0⟩ : St) = .ok ([[some "tag", some "bracket", some "keyword", some "bracket", none]], (⟨[LatexMode.Tok.env { name := ['e', 'q', 'u', 'a', 't', 'i', 'o', 'n'], kind := some "outer-display-math", allowBlankLines := false, matchOnSingleLine := false, tokenizer := LatexMode.ITok.mathTok }, LatexMode.Tok.topLevel], 0, [{ id := 0, kind := "outer-display-math", from_ := { line := 0, ch := 0 }, contentFrom := { line := 0, ch := 16 }, checkedProperties := { kind := none, number := none, openMarksCount := some 0, fromLine := none, toLine := none } }], [], 1⟩ : St)) := processLinesOut_step cDa_pl0 cDa_d1
    have cDa_fin : processLines ["\\begin{equation}x"] startState = .ok (⟨[LatexMode.Tok.env { name := ['e', 'q', 'u', 'a', 't', 'i', 'o', 'n'], kind := some "outer-display-math", allowBlankLines := false, matchOnSingleLine := false, tokenizer := LatexMode.ITok.mathTok }, LatexMode.Tok.topLevel], 0, [{ id := 0, kind := "outer-display-math", from_ := { line := 0, ch := 0 }, contentFrom := { line := 0, ch := 16 }, checkedProperties := { kind := none, number := none, openMarksCount := some 0, fromLine := none, toLine := none } }], [], 1⟩ : St) := processLines_of_out cDa_d0
    rw [cDa_fin]
    rfl
  have hE : (processLines ["\\begin{itemize}x"] startState).map
      (fun s => (s.openMarks, s.stack)) = .ok ([], [.topLevel]) := by
    have cE_t0_0 : token (⟨['\\', 'b', 'e', 'g', 'i', 'n', '{', 'i', 't', 'e', 'm', 'i', 'z', 'e', '}', 'x'], 0, 0⟩ : Stream') (⟨[LatexMode.Tok.topLevel], -1, [], [], 0⟩ : St) = .ok (some "tag", (⟨['\\', 'b', 'e', 'g', 'i', 'n', '{', 'i', 't', 'e', 'm', 'i', 'z', 'e', '}', 'x'], 0, 6⟩ : Stream'), (⟨[LatexMode.Tok.seq [(LatexMode.SeqPat.lbrace, some "bracket"), (LatexMode.SeqPat.envName, some "keyword"), (LatexMode.SeqPat.rbrace, some "bracket")] (LatexMode.Cb.noop), LatexMode.Tok.topLevel], 0, [], [], 0⟩ : St)) := by decide
    have cE_t0_1 : token (⟨['\\', 'b', 'e', 'g', 'i', 'n', '{', 'i', 't', 'e', 'm', 'i', 'z', 'e', '}', 'x'], 6, 6⟩ : Stream') (⟨[LatexMode.Tok.seq [(LatexMode.SeqPat.lbrace, some "bracket"), (LatexMode.SeqPat.envName, some "keyword"), (LatexMode.SeqPat.rbrace, some "bracket")] (LatexMode.Cb.noop), LatexMode.Tok.topLevel], 0, [], [], 0⟩ : St) = .ok (some "bracket", (⟨['\\', 'b', 'e', 'g', 'i', 'n', '{', 'i', 't', 'e', 'm', 'i', 'z', 'e', '}', 'x'], 6, 7⟩ : Stream'), (⟨[LatexMode.Tok.seq [(LatexMode.SeqPat.envName, some "keyword"), (LatexMode.SeqPat.rbrace, some "bracket")] (LatexMode.Cb.noop), LatexMode.Tok.topLevel], 0, [], [], 0⟩ : St)) := by decide
    have cE_t0_2 : token (⟨['\\', 'b', 'e', 'g', 'i', 'n', '{', 'i', 't', 'e', 'm', 'i', 'z', 'e', '}', 'x'], 7, 7⟩ : Stream') (⟨[LatexMode.Tok.seq [(LatexMode.SeqPat.envName, some "keyword"), (LatexMode.SeqPat.rbrace, some "bracket")] (LatexMode.Cb.noop), LatexMode.Tok.topLevel], 0, [], [], 0⟩ : St) = .ok (some "keyword", (⟨['\\', 'b', 'e', 'g', 'i', 'n', '{', 'i', 't', 'e', 'm', 'i', 'z', 'e', '}', 'x'], 7, 14⟩ : Stream'), (⟨[LatexMode.Tok.seq [(LatexMode.SeqPat.rbrace, some "bracket")] (LatexMode.Cb.noop), LatexMode.Tok.topLevel], 0, [], [], 0⟩ : St)) := by decide
    have cE_t0_3 : token (⟨['\\', 'b', 'e', 'g', 'i', 'n', '{', 'i', 't', 'e', 'm', 'i', 'z', 'e', '}', 'x'], 14, 14⟩ : Stream') (⟨[LatexMode.Tok.seq [(LatexMode.SeqPat.rbrace, some "bracket")] (LatexMode.Cb.noop), LatexMode.Tok.topLevel], 0, [], [], 0⟩ : St) = .ok (some "bracket", (⟨['\\', 'b', 'e', 'g', 'i', 'n', '{', 'i', 't', 'e', 'm', 'i', 'z', 'e', '}', 'x'], 14, 15⟩ : Stream'), (⟨[LatexMode.Tok.topLevel], 0, [], [], 0⟩ : St)) := by decide
    have cE_t0_4 : token (⟨['\\', 'b', 'e', 'g', 'i', 'n', '{', 'i', 't', 'e', 'm', 'i', 'z', 'e', '}', 'x'], 15, 15⟩ : Stream') (⟨[LatexMode.Tok.topLevel], 0, [], [], 0⟩ : St) = .ok (none, (⟨['\\', 'b', 'e', 'g', 'i', 'n', '{', 'i', 't', 'e', 'm', 'i', 'z', 'e', '}', 'x'], 15, 16⟩ : Stream'), (⟨[LatexMode.Tok.topLevel], 0, [], [], 0⟩ : St)) := by decide
    have cE_r0_5 : runLine 52 (⟨['\\', 'b', 'e', 'g', 'i', 'n', '{', 'i', 't', 'e', 'm', 'i', 'z', 'e', '}', 'x'], 16, 16⟩ : Stream') (⟨[LatexMode.Tok.topLevel], 0, [], [], 0⟩ : St) = .ok ([], (⟨[LatexMode.Tok.topLevel], 0, [], [], 0⟩ : St)) := runLine_eol (by decide)
    have cE_r0_4 : runLine 53 (⟨['\\', 'b', 'e', 'g', 'i', 'n', '{', 'i', 't', 'e', 'm', 'i', 'z', 'e', '}', 'x'], 15, 15⟩ : Stream') (⟨[LatexMode.Tok.topLevel], 0, [], [], 0⟩ : St) = .ok ([none], (⟨[LatexMode.Tok.topLevel], 0, [], [], 0⟩ : St)) := runLine_step (by decide) cE_t0_4 cE_r0_5
    have cE_r0_3 : runLine 54 (⟨['\\', 'b', 'e', 'g', 'i', 'n', '{', 'i', 't', 'e', 'm', 'i', 'z', 'e', '}', 'x'], 14, 14⟩ : Stream') (⟨[LatexMode.Tok.seq [(LatexMode.SeqPat.rbrace, some "bracket")] (LatexMode.Cb.noop), LatexMode.Tok.topLevel], 0, [], [], 0⟩ : St) = .ok ([some "bracket", none], (⟨[LatexMode.Tok.topLevel], 0, [], [], 0⟩ : St)) := runLine_step (by decide) cE_t0_3 cE_r0_4
    have cE_r0_2 : runLine 55 (⟨['\\', 'b', 'e', 'g', 'i', 'n', '{', 'i', 't', 'e', 'm', 'i', 'z', 'e', '}', 'x'], 7, 7⟩ : Stream') (⟨[LatexMode.Tok.seq [(LatexMode.SeqPat.envName, some "keyword"), (LatexMode.SeqPat.rbrace, some "bracket")] (LatexMode.Cb.noop), LatexMode.Tok.topLevel], 0, [], [], 0⟩ : St) = .ok ([some "keyword", some "bracket", none], (⟨[LatexMode.Tok.topLevel], 0, [], [], 0⟩ : St)) := runLine_step (by decide) cE_t0_2 cE_r0_3
    have cE_r0_1 : runLine 56 (⟨['\\', 'b', 'e', 'g', 'i', 'n', '{', 'i', 't', 'e', 'm', 'i', 'z', 'e', '}', 'x'], 6, 6⟩ : Stream') (⟨[LatexMode.Tok.seq [(LatexMode.SeqPat.lbrace, some "bracket"), (LatexMode.SeqPat.envName, some "keyword"), (LatexMode.SeqPat.rbrace, some "bracket")] (LatexMode.Cb.noop), LatexMode.Tok.topLevel], 0, [], [], 0⟩ : St) = .ok ([some "bracket", some "keyword", some "bracket", none], (⟨[LatexMode.Tok.topLevel], 0, [], [], 0⟩ : St)) := runLine_step (by decide) cE_t0_1 cE_r0_2
    have cE_r0_0 : runLine 57 (⟨['\\', 'b', 'e', 'g', 'i', 'n', '{', 'i', 't', 'e', 'm', 'i', 'z', 'e', '}', 'x'], 0, 0⟩ : Stream') (⟨[LatexMode.Tok.topLevel], -1, [], [], 0⟩ : St) = .ok ([some "tag", some "bracket", some "keyword", some "bracket", none], (⟨[LatexMode.Tok.topLevel], 0, [], [], 0⟩ : St)) := runLine_step (by decide) cE_t0_0 cE_r0_1
    have cE_pl0 : processLine "\\begin{itemize}x" (⟨[LatexMode.Tok.topLevel], -1, [], [], 0⟩ : St) = .ok ([some "tag", some "bracket", some "keyword", some "bracket", none], (⟨[LatexMode.Tok.topLevel], 0, [], [], 0⟩ : St)) := processLine_of_runLine (by decide) cE_r0_0
    have cE_d1 : processLinesOut [] (⟨[LatexMode.Tok.topLevel], 0, [], [], 0⟩ : St) = .ok ([], (⟨[LatexMode.Tok.topLevel], 0, [], [], 0⟩ : St)) := processLinesOut_nil
    have cE_d0 : processLinesOut ["\\begin{itemize}x"] (⟨[LatexMode.Tok.topLevel], -1, [], [], 0⟩ : St) = .ok ([[some "tag", some "bracket", some "keyword", some "bracket", none]], (⟨[LatexMode.Tok.topLevel], 0, [], [], 0⟩ : St)) := processLinesOut_step cE_pl0 cE_d1
    have cE_fin : processLines ["\\begin{itemize}x"] startState = .ok (⟨[LatexMode.Tok.topLevel], 0, [], [], 0⟩ : St) := processLines_of_out cE_d0
    rw [cE_fin]
    rfl
  have hF : (processLines ["\\begin{itemize}"] startState).map
      (fun s => s.openMarks.map fun o => o.kind) = .ok ["itemize"] := by
    have cF_t0_0 : token (⟨['\\', 'b', 'e', 'g', 'i', 'n', '{', 'i', 't', 'e', 'm', 'i', 'z', 'e', '}'], 0, 0⟩ : Stream') (⟨[LatexMode.Tok.topLevel], -1, [], [], 0⟩ : St) = .ok (some "tag", (⟨['\\', 'b', 'e', 'g', 'i', 'n', '{', 'i', 't', 'e', 'm', 'i', 'z', 'e', '}'], 0, 6⟩ : Stream'), (⟨[LatexMode.Tok.seq [(LatexMode.SeqPat.lbrace, some "bracket"), (LatexMode.SeqPat.envName, some "keyword"), (LatexMode.SeqPat.rbrace, some "bracket")] (LatexMode.Cb.envBegin { name := ['i', 't', 'e', 'm', 'i', 'z', 'e'], kind := some "itemize", allowBlankLines := true, matchOnSingleLine := true, tokenizer := LatexMode.ITok.listTok } (some { line := 0, ch := 0 })), LatexMode.Tok.topLevel], 0, [], [], 0⟩ : St)) := by decide
    have cF_t0_1 : token (⟨['\\', 'b', 'e', 'g', 'i', 'n', '{', 'i', 't', 'e', 'm', 'i', 'z', 'e', '}'], 6, 6⟩ : Stream') (⟨[LatexMode.Tok.seq [(LatexMode.SeqPat.lbrace, some "bracket"), (LatexMode.SeqPat.envName, some "keyword"), (LatexMode.SeqPat.rbrace, some "bracket")] (LatexMode.Cb.envBegin { name := ['i', 't', 'e', 'm', 'i', 'z', 'e'], kind := some "itemize", allowBlankLines := true, matchOnSingleLine := true, tokenizer := LatexMode.ITok.listTok } (some { line := 0, ch := 0 })), LatexMode.Tok.topLevel], 0, [], [], 0⟩ : St) = .ok (some "bracket", (⟨['\\', 'b', 'e', 'g', 'i', 'n', '{', 'i', 't', 'e', 'm', 'i', 'z', 'e', '}'], 6, 7⟩ : Stream'), (⟨[LatexMode.Tok.seq [(LatexMode.SeqPat.envName, some "keyword"), (LatexMode.SeqPat.rbrace, some "bracket")] (LatexMode.Cb.envBegin { name := ['i', 't', 'e', 'm', 'i', 'z', 'e'], kind := some "itemize", allowBlankLines := true, matchOnSingleLine := true, tokenizer := LatexMode.ITok.listTok } (some { line := 0, ch := 0 })), LatexMode.Tok.topLevel], 0, [], [], 0⟩ : St)) := by decide
    have cF_t0_2 : token (⟨['\\', 'b', 'e', 'g', 'i', 'n', '{', 'i', 't', 'e', 'm', 'i', 'z', 'e', '}'], 7, 7⟩ : Stream') (⟨[LatexMode.Tok.seq [(LatexMode.SeqPat.envName, some "keyword"), (LatexMode.SeqPat.rbrace, some "bracket")] (LatexMode.Cb.envBegin { name := ['i', 't', 'e', 'm', 'i', 'z', 'e'], kind := some "itemize", allowBlankLines := true, matchOnSingleLine := true, tokenizer := LatexMode.ITok.listTok } (some { line := 0, ch := 0 })), LatexMode.Tok.topLevel], 0, [], [], 0⟩ : St) = .ok (some "keyword", (⟨['\\', 'b', 'e', 'g', 'i', 'n', '{', 'i', 't', 'e', 'm', 'i', 'z', 'e', '}'], 7, 14⟩ : Stream'), (⟨[LatexMode.Tok.seq [(LatexMode.SeqPat.rbrace, some "bracket")] (LatexMode.Cb.envBegin { name := ['i', 't', 'e', 'm', 'i', 'z', 'e'], kind := some "itemize", allowBlankLines := true, matchOnSingleLine := true, tokenizer := LatexMode.ITok.listTok } (some { line := 0, ch := 0 })), LatexMode.Tok.topLevel], 0, [], [], 0⟩ : St)) := by decide
    have cF_t0_3 : token (⟨['\\', 'b', 'e', 'g', 'i', 'n', '{', 'i', 't', 'e', 'm', 'i', 'z', 'e', '}'], 14, 14⟩ : Stream') (⟨[LatexMode.Tok.seq [(LatexMode.SeqPat.rbrace, some "bracket")] (LatexMode.Cb.envBegin { name := ['i', 't', 'e', 'm', 'i', 'z', 'e'], kind := some "itemize", allowBlankLines := true, matchOnSingleLine := true, tokenizer := LatexMode.ITok.listTok } (some { line := 0, ch := 0 })), LatexMode.Tok.topLevel], 0, [], [], 0⟩ : St) = .ok (some "bracket", (⟨['\\', 'b', 'e', 'g', 'i', 'n', '{', 'i', 't', 'e', 'm', 'i', 'z', 'e', '}'], 14, 15⟩ : Stream'), (⟨[LatexMode.Tok.env { name := ['i', 't', 'e', 'm', 'i', 'z', 'e'], kind := some "itemize", allowBlankLines := true, matchOnSingleLine := true, tokenizer := LatexMode.ITok.listTok }, LatexMode.Tok.topLevel], 0, [{ id := 0, kind := "itemize", from_ := { line := 0, ch := 0 }, contentFrom := { line := 0, ch := 15 }, checkedProperties := { kind := none, number := none, openMarksCount := some 0, fromLine := none, toLine := none } }], [], 1⟩ : St)) := by decide
    have cF_r0_4 : runLine 50 (⟨['\\', 'b', 'e', 'g', 'i', 'n', '{', 'i', 't', 'e', 'm', 'i', 'z', 'e', '}'], 15, 15⟩ : Stream') (⟨[LatexMode.Tok.env { name := ['i', 't', 'e', 'm', 'i', 'z', 'e'], kind := some "itemize", allowBlankLines := true, matchOnSingleLine := true, tokenizer := LatexMode.ITok.listTok }, LatexMode.Tok.topLevel], 0, [{ id := 0, kind := "itemize", from_ := { line := 0, ch := 0 }, contentFrom := { line := 0, ch := 15 }, checkedProperties := { kind := none, number := none, openMarksCount := some 0, fromLine := none, toLine := none } }], [], 1⟩ : St) = .ok ([], (⟨[LatexMode.Tok.env { name := ['i', 't', 'e', 'm', 'i', 'z', 'e'], kind := some "itemize", allowBlankLines := true, matchOnSingleLine := true, tokenizer := LatexMode.ITok.listTok }, LatexMode.Tok.topLevel], 0, [{ id := 0, kind := "itemize", from_ := { line := 0, ch := 0 }, contentFrom := { line := 0, ch := 15 }, checkedProperties := { kind := none, number := none, openMarksCount := some 0, fromLine := none, toLine := none } }], [], 1⟩ : St)) := runLine_eol (by decide)
    have cF_r0_3 : runLine 51 (⟨['\\', 'b', 'e', 'g', 'i', 'n', '{', 'i', 't', 'e', 'm', 'i', 'z', 'e', '}'], 14, 14⟩ : Stream') (⟨[LatexMode.Tok.seq [(LatexMode.SeqPat.rbrace, some "bracket")] (LatexMode.Cb.envBegin { name := ['i', 't', 'e', 'm', 'i', 'z', 'e'], kind := some "itemize", allowBlankLines := true, matchOnSingleLine := true, tokenizer := LatexMode.ITok.listTok } (some { line := 0, ch := 0 })), LatexMode.Tok.topLevel], 0, [], [], 0⟩ : St) = .ok ([some "bracket"], (⟨[LatexMode.Tok.env { name := ['i', 't', 'e', 'm', 'i', 'z', 'e'], kind := some "itemize", allowBlankLines := true, matchOnSingleLine := true, tokenizer := LatexMode.ITok.listTok }, LatexMode.Tok.topLevel], 0, [{ id := 0, kind := "itemize", from_ := { line := 0, ch := 0 }, contentFrom := { line := 0, ch := 15 }, checkedProperties := { kind := none, number := none, openMarksCount := some 0, fromLine := none, toLine := none } }], [], 1⟩ : St)) := runLine_step (by decide) cF_t0_3 cF_r0_4
    have cF_r0_2 : runLine 52 (⟨['\\', 'b', 'e', 'g', 'i', 'n', '{', 'i', 't', 'e', 'm', 'i', 'z', 'e', '}'], 7, 7⟩ : Stream') (⟨[LatexMode.Tok.seq [(LatexMode.SeqPat.envName, some "keyword"), (LatexMode.SeqPat.rbrace, some "bracket")] (LatexMode.Cb.envBegin { name := ['i', 't', 'e', 'm', 'i', 'z', 'e'], kind := some "itemize", allowBlankLines := true, matchOnSingleLine := true, tokenizer := LatexMode.ITok.listTok } (some { line := 0, ch := 0 })), LatexMode.Tok.topLevel], 0, [], [], 0⟩ : St) = .ok ([some "keyword", some "bracket"], (⟨[LatexMode.Tok.env { name := ['i', 't', 'e', 'm', 'i', 'z', 'e'], kind := some "itemize", allowBlankLines := true, matchOnSingleLine := true, tokenizer := LatexMode.ITok.listTok }, LatexMode.Tok.topLevel], 0, [{ id := 0, kind := "itemize", from_ := { line := 0, ch := 0 }, contentFrom := { line := 0, ch := 15 }, checkedProperties := { kind := none, number := none, openMarksCount := some 0, fromLine := none, toLine := none } }], [], 1⟩ : St)) := runLine_step (by decide) cF_t0_2 cF_r0_3
    have cF_r0_1 : runLine 53 (⟨['\\', 'b', 'e', 'g', 'i', 'n', '{', 'i', 't', 'e', 'm', 'i', 'z', 'e', '}'], 6, 6⟩ : Stream') (⟨[LatexMode.Tok.seq [(LatexMode.SeqPat.lbrace, some "bracket"), (LatexMode.SeqPat.envName, some "keyword"), (LatexMode.SeqPat.rbrace, some "bracket")] (LatexMode.Cb.envBegin { name := ['i', 't', 'e', 'm', 'i', 'z', 'e'], kind := some "itemize", allowBlankLines := true, matchOnSingleLine := true, tokenizer := LatexMode.ITok.listTok } (some { line := 0, ch := 0 })), LatexMode.Tok.topLevel], 0, [], [], 0⟩ : St) = .ok ([some "bracket", some "keyword", some "bracket"], (⟨[LatexMode.Tok.env { name := ['i', 't', 'e', 'm', 'i', 'z', 'e'], kind := some "itemize", allowBlankLines := true, matchOnSingleLine := true, tokenizer := LatexMode.ITok.listTok }, LatexMode.Tok.topLevel], 0, [{ id := 0, kind := "itemize", from_ := { line := 0, ch := 0 }, contentFrom := { line := 0, ch := 15 }, checkedProperties := { kind := none, number := none, openMarksCount := some 0, fromLine := none, toLine := none } }], [], 1⟩ : St)) := runLine_step (by decide) cF_t0_1 cF_r0_2
    have cF_r0_0 : runLine 54 (⟨['\\', 'b', 'e', 'g', 'i', 'n', '{', 'i', 't', 'e', 'm', 'i', 'z', 'e', '}'], 0, 0⟩ : Stream') (⟨[LatexMode.Tok.topLevel], -1, [], [], 0⟩ : St) = .ok ([some "tag", some "bracket", some "keyword", some "bracket"], (⟨[LatexMode.Tok.env { name := ['i', 't', 'e', 'm', 'i', 'z', 'e'], kind := some "itemize", allowBlankLines := true, matchOnSingleLine := true, tokenizer := LatexMode.ITok.listTok }, LatexMode.Tok.topLevel], 0, [{ id := 0, kind := "itemize", from_ := { line := 0, ch := 0 }, contentFrom := { line := 0, ch := 15 }, checkedProperties := { kind := none, number := none, openMarksCount := some 0, fromLine := none, toLine := none } }], [], 1⟩ : St)) := runLine_step (by decide) cF_t0_0 cF_r0_1
    have cF_pl0 : processLine "\\begin{itemize}" (⟨[LatexMode.Tok.topLevel], -1, [], [], 0⟩ : St) = .ok ([some "tag", some "bracket", some "keyword", some "bracket"], (⟨[LatexMode.Tok.env { name := ['i', 't', 'e', 'm', 'i', 'z', 'e'], kind := some "itemize", allowBlankLines := true, matchOnSingleLine := true, tokenizer := LatexMode.ITok.listTok }, LatexMode.Tok.topLevel], 0, [{ id := 0, kind := "itemize", from_ := { line := 0, ch := 0 }, contentFrom := { line := 0, ch := 15 }, checkedProperties := { kind := none, number := none, openMarksCount := some 0, fromLine := none, toLine := none } }], [], 1⟩ : St)) := processLine_of_runLine (by decide) cF_r0_0
    have cF_d1 : processLinesOut [] (⟨[LatexMode.Tok.env { name := ['i', 't', 'e', 'm', 'i', 'z', 'e'], kind := some "itemize", allowBlankLines := true, matchOnSingleLine := true, tokenizer := LatexMode.ITok.listTok }, LatexMode.Tok.topLevel], 0, [{ id := 0, kind := "itemize", from_ := { line := 0, ch := 0 }, contentFrom := { line := 0, ch := 15 }, checkedProperties := { kind := none, number := none, openMarksCount := some 0, fromLine := none, toLine := none } }], [], 1⟩ : St) = .ok ([], (⟨[LatexMode.Tok.env { name := ['i', 't', 'e', 'm', 'i', 'z', 'e'], kind := some "itemize", allowBlankLines := true, matchOnSingleLine := true, tokenizer := LatexMode.ITok.listTok }, LatexMode.Tok.topLevel], 0, [{ id := 0, kind := "itemize", from_ := { line := 0, ch := 0 }, contentFrom := { line := 0, ch := 15 }, checkedProperties := { kind := none, number := none, openMarksCount := some 0, fromLine := none, toLine := none } }], [], 1⟩ : St)) := processLinesOut_nil
    have cF_d0 : processLinesOut ["\\begin{itemize}"] (⟨[LatexMode.Tok.topLevel], -1, [], [], 0⟩ : St) = .ok ([[some "tag", some "bracket", some "keyword", some "bracket"]], (⟨[LatexMode.Tok.env { name := ['i', 't', 'e', 'm', 'i', 'z', 'e'], kind := some "itemize", allowBlankLines := true, matchOnSingleLine := true, tokenizer := LatexMode.ITok.listTok }, LatexMode.Tok.topLevel], 0, [{ id := 0, kind := "itemize", from_ := { line := 0, ch := 0 }, contentFrom := { line := 0, ch := 15 }, checkedProperties := { kind := none, number := none, openMarksCount := some 0, fromLine := none, toLine := none } }], [], 1⟩ : St)) := processLinesOut_step cF_pl0 cF_d1
    have cF_fin : processLines ["\\begin{itemize}"] startState = .ok (⟨[LatexMode.Tok.env { name := ['i', 't', 'e', 'm', 'i', 'z', 'e'], kind := some "itemize", allowBlankLines := true, matchOnSingleLine := true, tokenizer := LatexMode.ITok.listTok }, LatexMode.Tok.topLevel], 0, [{ id := 0, kind := "itemize", from_ := { line := 0, ch := 0 }, contentFrom := { line := 0, ch := 15 }, checkedProperties := { kind := none, number := none, openMarksCount := some 0, fromLine := none, toLine := none } }], [], 1⟩ : St) := processLines_of_out cF_d0
    rw [cF_fin]
    rfl
  exact ⟨by decide, by decide, lookEnvBegin_no_anchor, lookEnvBegin_anchor,
    hD, hE, hF⟩

/-!
## C4: blank lines abandon math environments but not verbatim/comment/tikz/abstract
-/

theorem lookEnvEnd_empty (name : List Char) :
    (⟨[], 0, 0⟩ : Stream').lookEnvEnd name = false := rfl

/-- An environment that allows blank lines ignores a blank line: its
`_matchEnvironment` closure falls through to the environment tokenizer, which
consumes nothing and changes nothing on an empty stream.  Only the line
counter moves. -/
theorem env_allowBlank_stable (cfg : EnvCfg) (s : St) (rest : List Tok)
    (hallow : cfg.allowBlankLines = true) (hstk : s.stack = .env cfg :: rest) :
    blankLineSt s = .ok { s with line := s.line + 1 } := by
  unfold blankLineSt token
  simp only [show (⟨[], 0, 0⟩ : Stream').sol = true from rfl, if_true]
  have hcomment : matchLineComment ⟨[], 0, 0⟩ { s with line := s.line + 1 } =
      .ok (none, ⟨[], 0, 0⟩, { s with line := s.line + 1 }) := rfl
  rw [hcomment]
  simp only []
  have hrun : runTop ⟨[], 0, 0⟩ { s with line := s.line + 1 } =
      runStack (.env cfg :: rest) ⟨[], 0, 0⟩ { s with line := s.line + 1 } := by
    unfold runTop
    rw [show ({ s with line := s.line + 1 } : St).stack = .env cfg :: rest from hstk]
  rw [hrun]
  unfold runStack runEnvTail
  simp only []
  rw [hallow, lookEnvEnd_empty]
  simp only [Bool.false_eq_true, if_false, if_true]
  obtain ⟨r, hr⟩ := runITok_empty cfg.tokenizer { s with line := s.line + 1 }
  rw [hr]
  rfl

/-- An environment that forbids blank lines and carries a mark kind (every
math environment) abandons its mark on a blank line: the open mark is popped
without closing, its `_matchEnvironment` closure is popped, and parsing
resumes with the tokenizer below (here the bottom `_topLevel`, which consumes
nothing on an empty stream).  No closed mark is produced: `marks` is
unchanged. -/
theorem env_noBlank_abandons (cfg : EnvCfg) (s : St)
    (hallow : cfg.allowBlankLines = false) (hkind : cfg.kind.isSome = true)
    (hstk : s.stack = [.env cfg, .topLevel]) :
    blankLineSt s = .ok { s with line := s.line + 1, stack := [.topLevel], openMarks := s.openMarks.drop 1 } := by
  unfold blankLineSt token
  simp only [show (⟨[], 0, 0⟩ : Stream').sol = true from rfl, if_true]
  have hcomment : matchLineComment ⟨[], 0, 0⟩ { s with line := s.line + 1 } =
      .ok (none, ⟨[], 0, 0⟩, { s with line := s.line + 1 }) := rfl
  rw [hcomment]
  simp only []
  have hrun : runTop ⟨[], 0, 0⟩ { s with line := s.line + 1 } =
      runStack (.env cfg :: [.topLevel]) ⟨[], 0, 0⟩ { s with line := s.line + 1 } := by
    unfold runTop
    rw [show ({ s with line := s.line + 1 } : St).stack = .env cfg :: [.topLevel] from hstk]
  rw [hrun]
  unfold runStack
  simp only []
  rw [hallow]
  simp only [Bool.false_eq_true, if_false]
  rw [show (⟨[], 0, 0⟩ : Stream').matchBlankLine = (true, ⟨[], 0, 0⟩) from rfl]
  simp only [hkind, if_true]
  rfl

/-- C4.  (i) Every math environment forbids blank lines and is marked;
(ii) the verbatim family, `comment`, `tikzpicture` and `abstract` allow blank
lines; (iii) a blank line inside a no-blank-lines marked environment (over
the top level) abandons the environment's open mark and produces no closed
mark, while (iv) a blank line inside an allow-blank-lines environment changes
nothing but the line counter; and (v) concretely, `\begin{equation}` /
`\alpha` / (blank) / `\end{equation}` yields zero closed marks. -/
theorem blank_line_env_behavior :
    (∀ cfg ∈ mathEnvironments, cfg.allowBlankLines = false ∧ cfg.kind.isSome = true) ∧
    (∀ cfg ∈ ignoredEnvironments ++ tikzEnvironments ++ topLevelEnvironments,
      cfg.allowBlankLines = true) ∧
    (∀ cfg s, cfg.allowBlankLines = false → cfg.kind.isSome = true →
      s.stack = [.env cfg, .topLevel] →
      blankLineSt s = .ok { s with line := s.line + 1, stack := [.topLevel], openMarks := s.openMarks.drop 1 }) ∧
    (∀ cfg s rest, cfg.allowBlankLines = true → s.stack = .env cfg :: rest →
      blankLineSt s = .ok { s with line := s.line + 1 }) ∧
    ((processLines ["\\begin{equation}", "\\alpha", "", "\\end{equation}"]
        startState).map (fun s => s.marks) = .ok []) := by
  have hC : (processLines ["\\begin{equation}", "\\alpha", "", "\\end{equation}"]
      startState).map (fun s => s.marks) = .ok [] := by
    have cC_t0_0 : token (⟨['\\', 'b', 'e', 'g', 'i', 'n', '{', 'e', 'q', 'u', 'a', 't', 'i', 'o', 'n', '}'], 0, 0⟩ : Stream') (⟨[LatexMode.Tok.topLevel], -1, [], [], 0⟩ : St) = .ok (some "tag", (⟨['\\', 'b', 'e', 'g', 'i', 'n', '{', 'e', 'q', 'u', 'a', 't', 'i', 'o', 'n', '}'], 0, 6⟩ : Stream'), (⟨[LatexMode.Tok.seq [(LatexMode.SeqPat.lbrace, some "bracket"), (LatexMode.SeqPat.envName, some "keyword"), (LatexMode.SeqPat.rbrace, some "bracket")] (LatexMode.Cb.envBegin { name := ['e', 'q', 'u', 'a', 't', 'i', 'o', 'n'], kind := some "outer-display-math", allowBlankLines := false, matchOnSingleLine := false, tokenizer := LatexMode.ITok.mathTok } (some { line := 0, ch := 0 })), LatexMode.Tok.topLevel], 0, [], [], 0⟩ : St)) := by decide
    have cC_t0_1 : token (⟨['\\', 'b', 'e', 'g', 'i', 'n', '{', 'e', 'q', 'u', 'a', 't', 'i', 'o', 'n', '}'], 6, 6⟩ : Stream') (⟨[LatexMode.Tok.seq [(LatexMode.SeqPat.lbrace, some "bracket"), (LatexMode.SeqPat.envName, some "keyword"), (LatexMode.SeqPat.rbrace, some "bracket")] (LatexMode.Cb.envBegin { name := ['e', 'q', 'u', 'a', 't', 'i', 'o', 'n'], kind := some "outer-display-math", allowBlankLines := false, matchOnSingleLine := false, tokenizer := LatexMode.ITok.mathTok } (some { line := 0, ch := 0 })), LatexMode.Tok.topLevel], 0, [], [], 0⟩ : St) = .ok (some "bracket", (⟨['\\', 'b', 'e', 'g', 'i', 'n', '{', 'e', 'q', 'u', 'a', 't', 'i', 'o', 'n', '}'], 6, 7⟩ : Stream'), (⟨[LatexMode.Tok.seq [(LatexMode.SeqPat.envName, some "keyword"), (LatexMode.SeqPat.rbrace, some "bracket")] (LatexMode.Cb.envBegin { name := ['e', 'q', 'u', 'a', 't', 'i', 'o', 'n'], kind := some "outer-display-math", allowBlankLines := false, matchOnSingleLine := false, tokenizer := LatexMode.ITok.mathTok } (some { line := 0, ch := 0 })), LatexMode.Tok.topLevel], 0, [], [], 0⟩ : St)) := by decide
    have cC_t0_2 : token (⟨['\\', 'b', 'e', 'g', 'i', 'n', '{', 'e', 'q', 'u', 'a', 't', 'i', 'o', 'n', '}'], 7, 7⟩ : Stream') (⟨[LatexMode.Tok.seq [(LatexMode.SeqPat.envName, some "keyword"), (LatexMode.SeqPat.rbrace, some "bracket")] (LatexMode.Cb.envBegin { name := ['e', 'q', 'u', 'a', 't', 'i', 'o', 'n'], kind := some "outer-display-math", allowBlankLines := false, matchOnSingleLine := false, tokenizer := LatexMode.ITok.mathTok } (some { line := 0, ch := 0 })), LatexMode.Tok.topLevel], 0, [], [], 0⟩ : St) = .ok (some "keyword", (⟨['\\', 'b', 'e', 'g', 'i', 'n', '{', 'e', 'q', 'u', 'a', 't', 'i', 'o', 'n', '}'], 7, 15⟩ : Stream'), (⟨[LatexMode.Tok.seq [(LatexMode.SeqPat.rbrace, some "bracket")] (LatexMode.Cb.envBegin { name := ['e', 'q', 'u', 'a', 't', 'i', 'o', 'n'], kind := some "outer-display-math", allowBlankLines := false, matchOnSingleLine := false, tokenizer := LatexMode.ITok.mathTok } (some { line := 0, ch := 0 })), LatexMode.Tok.topLevel], 0, [], [], 0⟩ : St)) := by decide
    have cC_t0_3 : token (⟨['\\', 'b', 'e', 'g', 'i', 'n', '{', 'e', 'q', 'u', 'a', 't', 'i', 'o', 'n', '}'], 15, 15⟩ : Stream') (⟨[LatexMode.Tok.seq [(LatexMode.SeqPat.rbrace, some "bracket")] (LatexMode.Cb.envBegin { name := ['e', 'q', 'u', 'a', 't', 'i', 'o', 'n'], kind := some "outer-display-math", allowBlankLines := false, matchOnSingleLine := false, tokenizer := LatexMode.ITok.mathTok } (some { line := 0, ch := 0 })), LatexMode.Tok.topLevel], 0, [], [], 0⟩ : St) = .ok (some "bracket", (⟨['\\', 'b', 'e', 'g', 'i', 'n', '{', 'e', 'q', 'u', 'a', 't', 'i', 'o', 'n', '}'], 15, 16⟩ : Stream'), (⟨[LatexMode.Tok.env { name := ['e', 'q', 'u', 'a', 't', 'i', 'o', 'n'], kind := some "outer-display-math", allowBlankLines := false, matchOnSingleLine := false, tokenizer := LatexMode.ITok.mathTok }, LatexMode.Tok.topLevel], 0, [{ id := 0, kind := "outer-display-math", from_ := { line := 0, ch := 0 }, contentFrom := { line := 0, ch := 16 }, checkedProperties := { kind := none, number := none, openMarksCount := some 0, fromLine := none, toLine := none } }], [], 1⟩ : St)) := by decide
    have cC_r0_4 : runLine 53 (⟨['\\', 'b', 'e', 'g', 'i', 'n', '{', 'e', 'q', 'u', 'a', 't', 'i', 'o', 'n', '}'], 16, 16⟩ : Stream') (⟨[LatexMode.Tok.env { name := ['e', 'q', 'u', 'a', 't', 'i', 'o', 'n'], kind := some "outer-display-math", allowBlankLines := false, matchOnSingleLine := false, tokenizer := LatexMode.ITok.mathTok }, LatexMode.Tok.topLevel], 0, [{ id := 0, kind := "outer-display-math", from_ := { line := 0, ch := 0 }, contentFrom := { line := 0, ch := 16 }, checkedProperties := { kind := none, number := none, openMarksCount := some 0, fromLine := none, toLine := none } }], [], 1⟩ : St) = .ok ([], (⟨[LatexMode.Tok.env { name := ['e', 'q', 'u', 'a', 't', 'i', 'o', 'n'], kind := some "outer-display-math", allowBlankLines := false, matchOnSingleLine := false, tokenizer := LatexMode.ITok.mathTok }, LatexMode.Tok.topLevel], 0, [{ id := 0, kind := "outer-display-math", from_ := { line := 0, ch := 0 }, contentFrom := { line := 0, ch := 16 }, checkedProperties := { kind := none, number := none, openMarksCount := some 0, fromLine := none, toLine := none } }], [], 1⟩ : St)) := runLine_eol (by decide)
    have cC_r0_3 : runLine 54 (⟨['\\', 'b', 'e', 'g', 'i', 'n', '{', 'e', 'q', 'u', 'a', 't', 'i', 'o', 'n', '}'], 15, 15⟩ : Stream') (⟨[LatexMode.Tok.seq [(LatexMode.SeqPat.rbrace, some "bracket")] (LatexMode.Cb.envBegin { name := ['e', 'q', 'u', 'a', 't', 'i', 'o', 'n'], kind := some "outer-display-math", allowBlankLines := false, matchOnSingleLine := false, tokenizer := LatexMode.ITok.mathTok } (some { line := 0, ch := 0 })), LatexMode.Tok.topLevel], 0, [], [], 0⟩ : St) = .ok ([some "bracket"], (⟨[LatexMode.Tok.env { name := ['e', 'q', 'u', 'a', 't', 'i', 'o', 'n'], kind := some "outer-display-math", allowBlankLines := false, matchOnSingleLine := false, tokenizer := LatexMode.ITok.mathTok }, LatexMode.Tok.topLevel], 0, [{ id := 0, kind := "outer-display-math", from_ := { line := 0, ch := 0 }, contentFrom := { line := 0, ch := 16 }, checkedProperties := { kind := none, number := none, openMarksCount := some 0, fromLine := none, toLine := none } }], [], 1⟩ : St)) := runLine_step (by decide) cC_t0_3 cC_r0_4
    have cC_r0_2 : runLine 55 (⟨['\\', 'b', 'e', 'g', 'i', 'n', '{', 'e', 'q', 'u', 'a', 't', 'i', 'o', 'n', '}'], 7, 7⟩ : Stream') (⟨[LatexMode.Tok.seq [(LatexMode.SeqPat.envName, some "keyword"), (LatexMode.SeqPat.rbrace, some "bracket")] (LatexMode.Cb.envBegin { name := ['e', 'q', 'u', 'a', 't', 'i', 'o', 'n'], kind := some "outer-display-math", allowBlankLines := false, matchOnSingleLine := false, tokenizer := LatexMode.ITok.mathTok } (some { line := 0, ch := 0 })), LatexMode.Tok.topLevel], 0, [], [], 0⟩ : St) = .ok ([some "keyword", some "bracket"], (⟨[LatexMode.Tok.env { name := ['e', 'q', 'u', 'a', 't', 'i', 'o', 'n'], kind := some "outer-display-math", allowBlankLines := false, matchOnSingleLine := false, tokenizer := LatexMode.ITok.mathTok }, LatexMode.Tok.topLevel], 0, [{ id := 0, kind := "outer-display-math", from_ := { line := 0, ch := 0 }, contentFrom := { line := 0, ch := 16 }, checkedProperties := { kind := none, number := none, openMarksCount := some 0, fromLine := none, toLine := none } }], [], 1⟩ : St)) := runLine_step (by decide) cC_t0_2 cC_r0_3
    have cC_r0_1 : runLine 56 (⟨['\\', 'b', 'e', 'g', 'i', 'n', '{', 'e', 'q', 'u', 'a', 't', 'i', 'o', 'n', '}'], 6, 6⟩ : Stream') (⟨[LatexMode.Tok.seq [(LatexMode.SeqPat.lbrace, some "bracket"), (LatexMode.SeqPat.envName, some "keyword"), (LatexMode.SeqPat.rbrace, some "bracket")] (LatexMode.Cb.envBegin { name := ['e', 'q', 'u', 'a', 't', 'i', 'o', 'n'], kind := some "outer-display-math", allowBlankLines := false, matchOnSingleLine := false, tokenizer := LatexMode.ITok.mathTok } (some { line := 0, ch := 0 })), LatexMode.Tok.topLevel], 0, [], [], 0⟩ : St) = .ok ([some "bracket", some "keyword", some "bracket"], (⟨[LatexMode.Tok.env { name := ['e', 'q', 'u', 'a', 't', 'i', 'o', 'n'], kind := some "outer-display-math", allowBlankLines := false, matchOnSingleLine := false, tokenizer := LatexMode.ITok.mathTok }, LatexMode.Tok.topLevel], 0, [{ id := 0, kind := "outer-display-math", from_ := { line := 0, ch := 0 }, contentFrom := { line := 0, ch := 16 }, checkedProperties := { kind := none, number := none, openMarksCount := some 0, fromLine := none, toLine := none } }], [], 1⟩ : St)) := runLine_step (by decide) cC_t0_1 cC_r0_2
    have cC_r0_0 : runLine 57 (⟨['\\', 'b', 'e', 'g', 'i', 'n', '{', 'e', 'q', 'u', 'a', 't', 'i', 'o', 'n', '}'], 0, 0⟩ : Stream') (⟨[LatexMode.Tok.topLevel], -1, [], [], 0⟩ : St) = .ok ([some "tag", some "bracket", some "keyword", some "bracket"], (⟨[LatexMode.Tok.env { name := ['e', 'q', 'u', 'a', 't', 'i', 'o', 'n'], kind := some "outer-display-math", allowBlankLines := false, matchOnSingleLine := false, tokenizer := LatexMode.ITok.mathTok }, LatexMode.Tok.topLevel], 0, [{ id := 0, kind := "outer-display-math", from_ := { line := 0, ch := 0 }, contentFrom := { line := 0, ch := 16 }, checkedProperties := { kind := none, number := none, openMarksCount := some 0, fromLine := none, toLine := none } }], [], 1⟩ : St)) := runLine_step (by decide) cC_t0_0 cC_r0_1
    have cC_pl0 : processLine "\\begin{equation}" (⟨[LatexMode.Tok.topLevel], -1, [], [], 0⟩ : St) = .ok ([some "tag", some "bracket", some "keyword", some "bracket"], (⟨[LatexMode.Tok.env { name := ['e', 'q', 'u', 'a', 't', 'i', 'o', 'n'], kind := some "outer-display-math", allowBlankLines := false, matchOnSingleLine := false, tokenizer := LatexMode.ITok.mathTok }, LatexMode.Tok.topLevel], 0, [{ id := 0, kind := "outer-display-math", from_ := { line := 0, ch := 0 }, contentFrom := { line := 0, ch := 16 }, checkedProperties := { kind := none, number := none, openMarksCount := some 0, fromLine := none, toLine := none } }], [], 1⟩ : St)) := processLine_of_runLine (by decide) cC_r0_0
    have cC_t1_0 : token (⟨['\\', 'a', 'l', 'p', 'h', 'a'], 0, 0⟩ : Stream') (⟨[LatexMode.Tok.env { name := ['e', 'q', 'u', 'a', 't', 'i', 'o', 'n'], kind := some "outer-display-math", allowBlankLines := false, matchOnSingleLine := false, tokenizer := LatexMode.ITok.mathTok }, LatexMode.Tok.topLevel], 0, [{ id := 0, kind := "outer-display-math", from_ := { line := 0, ch := 0 }, contentFrom := { line := 0, ch := 16 }, checkedProperties := { kind := none, number := none, openMarksCount := some 0, fromLine := none, toLine := none } }], [], 1⟩ : St) = .ok (some "tag", (⟨['\\', 'a', 'l', 'p', 'h', 'a'], 0, 6⟩ : Stream'), (⟨[LatexMode.Tok.env { name := ['e', 'q', 'u', 'a', 't', 'i', 'o', 'n'], kind := some "outer-display-math", allowBlankLines := false, matchOnSingleLine := false, tokenizer := LatexMode.ITok.mathTok }, LatexMode.Tok.topLevel], 1, [{ id := 0, kind := "outer-display-math", from_ := { line := 0, ch := 0 }, contentFrom := { line := 0, ch := 16 }, checkedProperties := { kind := none, number := none, openMarksCount := some 0, fromLine := none, toLine := none } }], [], 1⟩ : St)) := by decide
    have cC_r1_1 : runLine 27 (⟨['\\', 'a', 'l', 'p', 'h', 'a'], 6, 6⟩ : Stream') (⟨[LatexMode.Tok.env { name := ['e', 'q', 'u', 'a', 't', 'i', 'o', 'n'], kind := some "outer-display-math", allowBlankLines := false, matchOnSingleLine := false, tokenizer := LatexMode.ITok.mathTok }, LatexMode.Tok.topLevel], 1, [{ id := 0, kind := "outer-display-math", from_ := { line := 0, ch := 0 }, contentFrom := { line := 0, ch := 16 }, checkedProperties := { kind := none, number := none, openMarksCount := some 0, fromLine := none, toLine := none } }], [], 1⟩ : St) = .ok ([], (⟨[LatexMode.Tok.env { name := ['e', 'q', 'u', 'a', 't', 'i', 'o', 'n'], kind := some "outer-display-math", allowBlankLines := false, matchOnSingleLine := false, tokenizer := LatexMode.ITok.mathTok }, LatexMode.Tok.topLevel], 1, [{ id := 0, kind := "outer-display-math", from_ := { line := 0, ch := 0 }, contentFrom := { line := 0, ch := 16 }, checkedProperties := { kind := none, number := none, openMarksCount := some 0, fromLine := none, toLine := none } }], [], 1⟩ : St)) := runLine_eol (by decide)
    have cC_r1_0 : runLine 28 (⟨['\\', 'a', 'l', 'p', 'h', 'a'], 0, 0⟩ : Stream') (⟨[LatexMode.Tok.env { name := ['e', 'q', 'u', 'a', 't', 'i', 'o', 'n'], kind := some "outer-display-math", allowBlankLines := false, matchOnSingleLine := false, tokenizer := LatexMode.ITok.mathTok }, LatexMode.Tok.topLevel], 0, [{ id := 0, kind := "outer-display-math", from_ := { line := 0, ch := 0 }, contentFrom := { line := 0, ch := 16 }, checkedProperties := { kind := none, number := none, openMarksCount := some 0, fromLine := none, toLine := none } }], [], 1⟩ : St) = .ok ([some "tag"], (⟨[LatexMode.Tok.env { name := ['e', 'q', 'u', 'a', 't', 'i', 'o', 'n'], kind := some "outer-display-math", allowBlankLines := false, matchOnSingleLine := false, tokenizer := LatexMode.ITok.mathTok }, LatexMode.Tok.topLevel], 1, [{ id := 0, kind := "outer-display-math", from_ := { line := 0, ch := 0 }, contentFrom := { line := 0, ch := 16 }, checkedProperties := { kind := none, number := none, openMarksCount := some 0, fromLine := none, toLine := none } }], [], 1⟩ : St)) := runLine_step (by decide) cC_t1_0 cC_r1_1
    have cC_pl1 : processLine "\\alpha" (⟨[LatexMode.Tok.env { name := ['e', 'q', 'u', 'a', 't', 'i', 'o', 'n'], kind := some "outer-display-math", allowBlankLines := false, matchOnSingleLine := false, tokenizer := LatexMode.ITok.mathTok }, LatexMode.Tok.topLevel], 0, [{ id := 0, kind := "outer-display-math", from_ := { line := 0, ch := 0 }, contentFrom := { line := 0, ch := 16 }, checkedProperties := { kind := none, number := none, openMarksCount := some 0, fromLine := none, toLine := none } }], [], 1⟩ : St) = .ok ([some "tag"], (⟨[LatexMode.Tok.env { name := ['e', 'q', 'u', 'a', 't', 'i', 'o', 'n'], kind := some "outer-display-math", allowBlankLines := false, matchOnSingleLine := false, tokenizer := LatexMode.ITok.mathTok }, LatexMode.Tok.topLevel], 1, [{ id := 0, kind := "outer-display-math", from_ := { line := 0, ch := 0 }, contentFrom := { line := 0, ch := 16 }, checkedProperties := { kind := none, number := none, openMarksCount := some 0, fromLine := none, toLine := none } }], [], 1⟩ : St)) := processLine_of_runLine (by decide) cC_r1_0
    have cC_pl2 : processLine "" (⟨[LatexMode.Tok.env { name := ['e', 'q', 'u', 'a', 't', 'i', 'o', 'n'], kind := some "outer-display-math", allowBlankLines := false, matchOnSingleLine := false, tokenizer := LatexMode.ITok.mathTok }, LatexMode.Tok.topLevel], 1, [{ id := 0, kind := "outer-display-math", from_ := { line := 0, ch := 0 }, contentFrom := { line := 0, ch := 16 }, checkedProperties := { kind := none, number := none, openMarksCount := some 0, fromLine := none, toLine := none } }], [], 1⟩ : St) = .ok ([none], (⟨[LatexMode.Tok.topLevel], 2, [], [], 1⟩ : St)) :=
      processLine_blank (show token ⟨[], 0, 0⟩ _ = .ok (none, (⟨[], 0, 0⟩ : Stream'), (⟨[LatexMode.Tok.topLevel], 2, [], [], 1⟩ : St)) by decide)
    have cC_t3_0 : token (⟨['\\', 'e', 'n', 'd', '{', 'e', 'q', 'u', 'a', 't', 'i', 'o', 'n', '}'], 0, 0⟩ : Stream') (⟨[LatexMode.Tok.topLevel], 2, [], [], 1⟩ : St) = .ok (some "tag", (⟨['\\', 'e', 'n', 'd', '{', 'e', 'q', 'u', 'a', 't', 'i', 'o', 'n', '}'], 0, 4⟩ : Stream'), (⟨[LatexMode.Tok.seq [(LatexMode.SeqPat.lbrace, some "bracket"), (LatexMode.SeqPat.envName, some "keyword"), (LatexMode.SeqPat.rbrace, some "bracket")] (LatexMode.Cb.noop), LatexMode.Tok.topLevel], 3, [], [], 1⟩ : St)) := by decide
    have cC_t3_1 : token (⟨['\\', 'e', 'n', 'd', '{', 'e', 'q', 'u', 'a', 't', 'i', 'o', 'n', '}'], 4, 4⟩ : Stream') (⟨[LatexMode.Tok.seq [(LatexMode.SeqPat.lbrace, some "bracket"), (LatexMode.SeqPat.envName, some "keyword"), (LatexMode.SeqPat.rbrace, some "bracket")] (LatexMode.Cb.noop), LatexMode.Tok.topLevel], 3, [], [], 1⟩ : St) = .ok (some "bracket", (⟨['\\', 'e', 'n', 'd', '{', 'e', 'q', 'u', 'a', 't', 'i', 'o', 'n', '}'], 4, 5⟩ : Stream'), (⟨[LatexMode.Tok.seq [(LatexMode.SeqPat.envName, some "keyword"), (LatexMode.SeqPat.rbrace, some "bracket")] (LatexMode.Cb.noop), LatexMode.Tok.topLevel], 3, [], [], 1⟩ : St)) := by decide
    have cC_t3_2 : token (⟨['\\', 'e', 'n', 'd', '{', 'e', 'q', 'u', 'a', 't', 'i', 'o', 'n', '}'], 5, 5⟩ : Stream') (⟨[LatexMode.Tok.seq [(LatexMode.SeqPat.envName, some "keyword"), (LatexMode.SeqPat.rbrace, some "bracket")] (LatexMode.Cb.noop), LatexMode.Tok.topLevel], 3, [], [], 1⟩ : St) = .ok (some "keyword", (⟨['\\', 'e', 'n', 'd', '{', 'e', 'q', 'u', 'a', 't', 'i', 'o', 'n', '}'], 5, 13⟩ : Stream'), (⟨[LatexMode.Tok.seq [(LatexMode.SeqPat.rbrace, some "bracket")] (LatexMode.Cb.noop), LatexMode.Tok.topLevel], 3, [], [], 1⟩ : St)) := by decide
    have cC_t3_3 : token (⟨['\\', 'e', 'n', 'd', '{', 'e', 'q', 'u', 'a', 't', 'i', 'o', 'n', '}'], 13, 13⟩ : Stream') (⟨[LatexMode.Tok.seq [(LatexMode.SeqPat.rbrace, some "bracket")] (LatexMode.Cb.noop), LatexMode.Tok.topLevel], 3, [], [], 1⟩ : St) = .ok (some "bracket", (⟨['\\', 'e', 'n', 'd', '{', 'e', 'q', 'u', 'a', 't', 'i', 'o', 'n', '}'], 13, 14⟩ : Stream'), (⟨[LatexMode.Tok.topLevel], 3, [], [], 1⟩ : St)) := by decide
    have cC_r3_4 : runLine 47 (⟨['\\', 'e', 'n', 'd', '{', 'e', 'q', 'u', 'a', 't', 'i', 'o', 'n', '}'], 14, 14⟩ : Stream') (⟨[LatexMode.Tok.topLevel], 3, [], [], 1⟩ : St) = .ok ([], (⟨[LatexMode.Tok.topLevel], 3, [], [], 1⟩ : St)) := runLine_eol (by decide)
    have cC_r3_3 : runLine 48 (⟨['\\', 'e', 'n', 'd', '{', 'e', 'q', 'u', 'a', 't', 'i', 'o', 'n', '}'], 13, 13⟩ : Stream') (⟨[LatexMode.Tok.seq [(LatexMode.SeqPat.rbrace, some "bracket")] (LatexMode.Cb.noop), LatexMode.Tok.topLevel], 3, [], [], 1⟩ : St) = .ok ([some "bracket"], (⟨[LatexMode.Tok.topLevel], 3, [], [], 1⟩ : St)) := runLine_step (by decide) cC_t3_3 cC_r3_4
    have cC_r3_2 : runLine 49 (⟨['\\', 'e', 'n', 'd', '{', 'e', 'q', 'u', 'a', 't', 'i', 'o', 'n', '}'], 5, 5⟩ : Stream') (⟨[LatexMode.Tok.seq [(LatexMode.SeqPat.envName, some "keyword"), (LatexMode.SeqPat.rbrace, some "bracket")] (LatexMode.Cb.noop), LatexMode.Tok.topLevel], 3, [], [], 1⟩ : St) = .ok ([some "keyword", some "bracket"], (⟨[LatexMode.Tok.topLevel], 3, [], [], 1⟩ : St)) := runLine_step (by decide) cC_t3_2 cC_r3_3
    have cC_r3_1 : runLine 50 (⟨['\\', 'e', 'n', 'd', '{', 'e', 'q', 'u', 'a', 't', 'i', 'o', 'n', '}'], 4, 4⟩ : Stream') (⟨[LatexMode.Tok.seq [(LatexMode.SeqPat.lbrace, some "bracket"), (LatexMode.SeqPat.envName, some "keyword"), (LatexMode.SeqPat.rbrace, some "bracket")] (LatexMode.Cb.noop), LatexMode.Tok.topLevel], 3, [], [], 1⟩ : St) = .ok ([some "bracket", some "keyword", some "bracket"], (⟨[LatexMode.Tok.topLevel], 3, [], [], 1⟩ : St)) := runLine_step (by decide) cC_t3_1 cC_r3_2
    have cC_r3_0 : runLine 51 (⟨['\\', 'e', 'n', 'd', '{', 'e', 'q', 'u', 'a', 't', 'i', 'o', 'n', '}'], 0, 0⟩ : Stream') (⟨[LatexMode.Tok.topLevel], 2, [], [], 1⟩ : St) = .ok ([some "tag", some "bracket", some "keyword", some "bracket"], (⟨[LatexMode.Tok.topLevel], 3, [], [], 1⟩ : St)) := runLine_step (by decide) cC_t3_0 cC_r3_1
    have cC_pl3 : processLine "\\end{equation}" (⟨[LatexMode.Tok.topLevel], 2, [], [], 1⟩ : St) = .ok ([some "tag", some "bracket", some "keyword", some "bracket"], (⟨[LatexMode.Tok.topLevel], 3, [], [], 1⟩ : St)) := processLine_of_runLine (by decide) cC_r3_0
    have cC_d4 : processLinesOut [] (⟨[LatexMode.Tok.topLevel], 3, [], [], 1⟩ : St) = .ok ([], (⟨[LatexMode.Tok.topLevel], 3, [], [], 1⟩ : St)) := processLinesOut_nil
    have cC_d3 : processLinesOut ["\\end{equation}"] (⟨[LatexMode.Tok.topLevel], 2, [], [], 1⟩ : St) = .ok ([[some "tag", some "bracket", some "keyword", some "bracket"]], (⟨[LatexMode.Tok.topLevel], 3, [], [], 1⟩ : St)) := processLinesOut_step cC_pl3 cC_d4
    have cC_d2 : processLinesOut ["", "\\end{equation}"] (⟨[LatexMode.Tok.env { name := ['e', 'q', 'u', 'a', 't', 'i', 'o', 'n'], kind := some "outer-display-math", allowBlankLines := false, matchOnSingleLine := false, tokenizer := LatexMode.ITok.mathTok }, LatexMode.Tok.topLevel], 1, [{ id := 0, kind := "outer-display-math", from_ := { line := 0, ch := 0 }, contentFrom := { line := 0, ch := 16 }, checkedProperties := { kind := none, number := none, openMarksCount := some 0, fromLine := none, toLine := none } }], [], 1⟩ : St) = .ok ([[none], [some "tag", some "bracket", some "keyword", some "bracket"]], (⟨[LatexMode.Tok.topLevel], 3, [], [], 1⟩ : St)) := processLinesOut_step cC_pl2 cC_d3
    have cC_d1 : processLinesOut ["\\alpha", "", "\\end{equation}"] (⟨[LatexMode.Tok.env { name := ['e', 'q', 'u', 'a', 't', 'i', 'o', 'n'], kind := some "outer-display-math", allowBlankLines := false, matchOnSingleLine := false, tokenizer := LatexMode.ITok.mathTok }, LatexMode.Tok.topLevel], 0, [{ id := 0, kind := "outer-display-math", from_ := { line := 0, ch := 0 }, contentFrom := { line := 0, ch := 16 }, checkedProperties := { kind := none, number := none, openMarksCount := some 0, fromLine := none, toLine := none } }], [], 1⟩ : St) = .ok ([[some "tag"], [none], [some "tag", some "bracket", some "keyword", some "bracket"]], (⟨[LatexMode.Tok.topLevel], 3, [], [], 1⟩ : St)) := processLinesOut_step cC_pl1 cC_d2
    have cC_d0 : processLinesOut ["\\begin{equation}", "\\alpha", "", "\\end{equation}"] (⟨[LatexMode.Tok.topLevel], -1, [], [], 0⟩ : St) = .ok ([[some "tag", some "bracket", some "keyword", some "bracket"], [some "tag"], [none], [some "tag", some "bracket", some "keyword", some "bracket"]], (⟨[LatexMode.Tok.topLevel], 3, [], [], 1⟩ : St)) := processLinesOut_step cC_pl0 cC_d1
    have cC_fin : processLines ["\\begin{equation}", "\\alpha", "", "\\end{equation}"] startState = .ok (⟨[LatexMode.Tok.topLevel], 3, [], [], 1⟩ : St) := processLines_of_out cC_d0
    rw [cC_fin]
    rfl
  exact ⟨by decide, by decide,
    fun cfg s h1 h2 h3 => env_noBlank_abandons cfg s h1 h2 h3,
    fun cfg s rest h1 h2 => env_allowBlank_stable cfg s rest h1 h2, hC⟩

/-- Witness for `blank_line_env_behavior`: its hypotheses hold and its parts
evaluate at concrete inputs — the equation environment's config in the table,
a concrete state with the equation environment open (abandoned by a blank
line), and a concrete state inside `verbatim` (unchanged by a blank line). -/
theorem blank_line_env_behavior_witness :
    blankLineSt ⟨[.env ⟨"equation".data, some "outer-display-math", false, false,
        .mathTok⟩, .topLevel], 0,
      [⟨0, "outer-display-math", ⟨0, 0⟩, ⟨0, 16⟩, {}⟩], [], 1⟩ =
      .ok ⟨[.topLevel], 1, [], [], 1⟩ ∧
    blankLineSt ⟨[.env ⟨"verbatim".data, none, true, false, .verbatimTok⟩,
        .topLevel], 0, [], [], 0⟩ =
      .ok ⟨[.env ⟨"verbatim".data, none, true, false, .verbatimTok⟩,
        .topLevel], 1, [], [], 0⟩ := by
  obtain ⟨-, -, habandon, hstable, -⟩ := blank_line_env_behavior
  constructor
  · exact habandon ⟨"equation".data, some "outer-display-math", false, false,
      .mathTok⟩ _ rfl rfl rfl
  · exact hstable ⟨"verbatim".data, none, true, false, .verbatimTok⟩ _
      [.topLevel] rfl rfl

/-- Witness for `matchOnSingleLine_anchor`: its membership hypotheses are
discharged at the `equation` and `itemize` table entries, and the unanchored
pattern lemma is instantiated with trailing text `x`. -/
theorem matchOnSingleLine_anchor_witness :
    (⟨"equation".data, some "outer-display-math", false, false,
      .mathTok⟩ : EnvCfg).matchOnSingleLine = false ∧
    (⟨"itemize".data, some "itemize", true, true,
      .listTok⟩ : EnvCfg).matchOnSingleLine = true ∧
    (⟨'\\' :: "begin".data ++ '{' :: ("equation".data ++ ['}']) ++ ['x'], 0, 0⟩ :
      Stream').lookEnvBegin "equation".data false = true := by
  obtain ⟨h1, h2, h3, -, -⟩ := matchOnSingleLine_anchor
  exact ⟨h1 _ (by decide), h2 _ (by decide), h3 _ ['x']⟩

/-!
## C9: iterated blank lines
-/

theorem ok3 {a r : Option String} {b st' : Stream'} {c s' : St}
    (h : (Except.ok (a, b, c) : MRes) = .ok (r, st', s')) :
    a = r ∧ b = st' ∧ c = s' := by
  injection h with h1
  injection h1 with h2 h3
  injection h3 with h4 h5
  exact ⟨h2, h4, h5⟩

theorem matchPat_empty (p : SeqPat) : matchPat p ⟨[], 0, 0⟩ = none := by
  cases p <;> rfl

/-- A stable stack entry returns on an empty stream without changing
anything. -/
theorem runStack_empty_stable (t : Tok) (rest : List Tok) (s : St)
    (hst : stableTok t = true) :
    ∃ r, runStack (t :: rest) ⟨[], 0, 0⟩ s = .ok (r, ⟨[], 0, 0⟩, s) := by
  cases t with
  | topLevel => exact ⟨none, matchTopLevel_empty s⟩
  | group => exact ⟨none, matchText_empty s⟩
  | verb d => exact ⟨some "string", rfl⟩
  | commentRest => exact ⟨some "comment", rfl⟩
  | env cfg =>
    obtain ⟨r, hr⟩ := runITok_empty cfg.tokenizer s
    refine ⟨r, ?_⟩
    unfold runStack runEnvTail
    simp only []
    simp only [show stableTok (.env cfg) = cfg.allowBlankLines from rfl] at hst
    rw [hst, lookEnvEnd_empty]
    simp only [Bool.false_eq_true, if_false, if_true]
    exact hr
  | seq pats cb => simp [stableTok] at hst
  | deferReqArgMark k op => simp [stableTok] at hst
  | deferOptArgMark k op => simp [stableTok] at hst
  | deferOptArg => simp [stableTok] at hst
  | andMark c cs ab inn => simp [stableTok] at hst
  | argClose c cs inn => simp [stableTok] at hst

/-- On an empty stream the stack never grows. -/
theorem runStack_empty_le (stk : List Tok) : ∀ (s : St) (r : Option String)
    (st' : Stream') (s' : St), s.stack = stk →
    runStack stk ⟨[], 0, 0⟩ s = .ok (r, st', s') →
    s'.stack.length ≤ stk.length := by
  induction stk with
  | nil =>
    intro s r st' s' hstk h
    exact absurd h (by unfold runStack; simp)
  | cons t rest ih =>
    intro s r st' s' hstk h
    cases t with
    | topLevel =>
      have h2 : (Except.ok (none, (⟨[], 0, 0⟩ : Stream'), s) : MRes) =
          .ok (r, st', s') := h
      obtain ⟨-, -, h3⟩ := ok3 h2
      rw [← h3, hstk]
    | group =>
      have h2 : (Except.ok (none, (⟨[], 0, 0⟩ : Stream'), s) : MRes) =
          .ok (r, st', s') := h
      obtain ⟨-, -, h3⟩ := ok3 h2
      rw [← h3, hstk]
    | verb d =>
      have h2 : (Except.ok (some "string", (⟨[], 0, 0⟩ : Stream'), s) : MRes) =
          .ok (r, st', s') := h
      obtain ⟨-, -, h3⟩ := ok3 h2
      rw [← h3, hstk]
    | commentRest =>
      have h2 : (Except.ok (some "comment", (⟨[], 0, 0⟩ : Stream'), s) : MRes) =
          .ok (r, st', s') := h
      obtain ⟨-, -, h3⟩ := ok3 h2
      rw [← h3, hstk]
    | seq pats cb =>
      match pats with
      | [] =>
        have h2 : (Except.ok (none, (⟨[], 0, 0⟩ : Stream'),
            { s with stack := rest }) : MRes) = .ok (r, st', s') := h
        obtain ⟨-, -, h3⟩ := ok3 h2
        rw [← h3]
        exact Nat.le_succ_of_le (Nat.le_refl _)
      | (p, sty) :: ps =>
        unfold runStack at h
        simp only [] at h
        rw [matchPat_empty p] at h
        simp only [] at h
        obtain ⟨-, -, h3⟩ := ok3 h
        rw [← h3]
        exact Nat.le_succ_of_le (Nat.le_refl _)
    | deferReqArgMark k op =>
      have h2 : (Except.ok (none, (⟨[], 0, 0⟩ : Stream'),
          { s with stack := rest }) : MRes) = .ok (r, st', s') := h
      obtain ⟨-, -, h3⟩ := ok3 h2
      rw [← h3]
      exact Nat.le_succ_of_le (Nat.le_refl _)
    | deferOptArgMark k op =>
      have h2 : (Except.ok (none, (⟨[], 0, 0⟩ : Stream'),
          { s with stack := rest }) : MRes) = .ok (r, st', s') := h
      obtain ⟨-, -, h3⟩ := ok3 h2
      rw [← h3]
      exact Nat.le_succ_of_le (Nat.le_refl _)
    | deferOptArg =>
      have h2 : (Except.ok (none, (⟨[], 0, 0⟩ : Stream'),
          { s with stack := rest }) : MRes) = .ok (r, st', s') := h
      obtain ⟨-, -, h3⟩ := ok3 h2
      rw [← h3]
      exact Nat.le_succ_of_le (Nat.le_refl _)
    | andMark c cs ab inn =>
      have h2 : runStack rest ⟨[], 0, 0⟩
          { (abandonMark s) with stack := rest } = .ok (r, st', s') := h
      exact Nat.le_succ_of_le (ih _ r st' s' rfl h2)
    | argClose c cs inn =>
      have h2 : (Except.ok (none, (⟨[], 0, 0⟩ : Stream'),
          { s with stack := rest }) : MRes) = .ok (r, st', s') := h
      obtain ⟨-, -, h3⟩ := ok3 h2
      rw [← h3]
      exact Nat.le_succ_of_le (Nat.le_refl _)
    | env cfg =>
      cases hA : cfg.allowBlankLines with
      | true =>
        unfold runStack runEnvTail at h
        simp only [] at h
        rw [hA, lookEnvEnd_empty] at h
        simp only [Bool.false_eq_true, if_false, if_true] at h
        obtain ⟨r0, hr0⟩ := runITok_empty cfg.tokenizer s
        rw [hr0] at h
        obtain ⟨-, -, h3⟩ := ok3 h
        rw [← h3, hstk]
      | false =>
        unfold runStack at h
        simp only [] at h
        rw [hA] at h
        simp only [Bool.false_eq_true, if_false] at h
        have h2 : runStack rest ⟨[], 0, 0⟩
            { (if cfg.kind.isSome then abandonMark s else s) with
              stack := rest } = .ok (r, st', s') := h
        exact Nat.le_succ_of_le (ih _ r st' s' rfl h2)

/-- An unstable stack entry pops at least itself on an empty stream. -/
theorem runStack_empty_unstable (t : Tok) (rest : List Tok) (s : St)
    (r : Option String) (st' : Stream') (s' : St)
    (hst : stableTok t = false)
    (h : runStack (t :: rest) ⟨[], 0, 0⟩ s = .ok (r, st', s')) :
    s'.stack.length ≤ rest.length := by
  cases t with
  | topLevel => simp [stableTok] at hst
  | group => simp [stableTok] at hst
  | verb d => simp [stableTok] at hst
  | commentRest => simp [stableTok] at hst
  | seq pats cb =>
    match pats with
    | [] =>
      have h2 : (Except.ok (none, (⟨[], 0, 0⟩ : Stream'),
          { s with stack := rest }) : MRes) = .ok (r, st', s') := h
      obtain ⟨-, -, h3⟩ := ok3 h2
      rw [← h3]
    | (p, sty) :: ps =>
      unfold runStack at h
      simp only [] at h
      rw [matchPat_empty p] at h
      simp only [] at h
      obtain ⟨-, -, h3⟩ := ok3 h
      rw [← h3]
  | deferReqArgMark k op =>
    have h2 : (Except.ok (none, (⟨[], 0, 0⟩ : Stream'),
        { s with stack := rest }) : MRes) = .ok (r, st', s') := h
    obtain ⟨-, -, h3⟩ := ok3 h2
    rw [← h3]
  | deferOptArgMark k op =>
    have h2 : (Except.ok (none, (⟨[], 0, 0⟩ : Stream'),
        { s with stack := rest }) : MRes) = .ok (r, st', s') := h
    obtain ⟨-, -, h3⟩ := ok3 h2
    rw [← h3]
  | deferOptArg =>
    have h2 : (Except.ok (none, (⟨[], 0, 0⟩ : Stream'),
        { s with stack := rest }) : MRes) = .ok (r, st', s') := h
    obtain ⟨-, -, h3⟩ := ok3 h2
    rw [← h3]
  | andMark c cs ab inn =>
    have h2 : runStack rest ⟨[], 0, 0⟩
        { (abandonMark s) with stack := rest } = .ok (r, st', s') := h
    exact runStack_empty_le rest _ r st' s' rfl h2
  | argClose c cs inn =>
    have h2 : (Except.ok (none, (⟨[], 0, 0⟩ : Stream'),
        { s with stack := rest }) : MRes) = .ok (r, st', s') := h
    obtain ⟨-, -, h3⟩ := ok3 h2
    rw [← h3]
  | env cfg =>
    have hA : cfg.allowBlankLines = false := by
      simpa [stableTok] using hst
    unfold runStack at h
    simp only [] at h
    rw [hA] at h
    simp only [Bool.false_eq_true, if_false] at h
    have h2 : runStack rest ⟨[], 0, 0⟩
        { (if cfg.kind.isSome then abandonMark s else s) with
          stack := rest } = .ok (r, st', s') := h
    exact runStack_empty_le rest _ r st' s' rfl h2

/-- `blankLine` on a state whose top sub-tokenizer is stable only bumps the
line counter. -/
theorem blankLine_stable (s : St) (t : Tok) (rest : List Tok)
    (hstk : s.stack = t :: rest) (hst : stableTok t = true) :
    blankLineSt s = .ok { s with line := s.line + 1 } := by
  obtain ⟨r, hr⟩ := runStack_empty_stable t rest { s with line := s.line + 1 } hst
  unfold blankLineSt token
  simp only [show (⟨[], 0, 0⟩ : Stream').sol = true from rfl, if_true]
  rw [show matchLineComment ⟨[], 0, 0⟩ { s with line := s.line + 1 } =
      .ok (none, ⟨[], 0, 0⟩, { s with line := s.line + 1 }) from rfl]
  simp only []
  rw [show runTop ⟨[], 0, 0⟩ { s with line := s.line + 1 } =
      runStack (t :: rest) ⟨[], 0, 0⟩ { s with line := s.line + 1 } by
    unfold runTop
    rw [show ({ s with line := s.line + 1 } : St).stack = t :: rest from hstk]]
  rw [hr]
  rfl

/-- `blankLine` on a state whose top sub-tokenizer is unstable shrinks the
stack. -/
theorem blankLine_shrink (s : St) (t : Tok) (rest : List Tok) (s' : St)
    (hstk : s.stack = t :: rest) (hst : stableTok t = false)
    (hok : blankLineSt s = .ok s') :
    s'.stack.length < s.stack.length := by
  unfold blankLineSt token at hok
  simp only [show (⟨[], 0, 0⟩ : Stream').sol = true from rfl, if_true] at hok
  rw [show matchLineComment ⟨[], 0, 0⟩ { s with line := s.line + 1 } =
      .ok (none, ⟨[], 0, 0⟩, { s with line := s.line + 1 }) from rfl] at hok
  simp only [] at hok
  rw [show runTop ⟨[], 0, 0⟩ { s with line := s.line + 1 } =
      runStack (t :: rest) ⟨[], 0, 0⟩ { s with line := s.line + 1 } by
    unfold runTop
    rw [show ({ s with line := s.line + 1 } : St).stack = t :: rest from hstk]] at hok
  cases hrun : runStack (t :: rest) ⟨[], 0, 0⟩ { s with line := s.line + 1 } with
  | error e => rw [hrun] at hok; exact absurd hok (by simp [Except.map])
  | ok res =>
    obtain ⟨r, st2, s2⟩ := res
    rw [hrun] at hok
    have hle := runStack_empty_unstable t rest _ r st2 s2 hst hrun
    have hs' : s' = lineAdjust st2 s2 := by
      simp only [Except.map, Except.ok.injEq] at hok
      exact hok.symm
    have hstle : s'.stack = s2.stack := by
      rw [hs']
      unfold lineAdjust
      split <;> rfl
    rw [hstk, hstle]
    exact Nat.lt_succ_of_le hle

/-- C9 (amended).  A second consecutive `blankLine` call leaves `stack`,
`openMarks` and `marks` unchanged (only the line counter moves) **provided
the first call left the stack unchanged**; in general each `blankLine` call
either leaves everything but the line counter unchanged (stable top entry) or
strictly shrinks the sub-tokenizer stack — possibly by several entries in the
one call, since popping resumes the outer tokenizer on the same blank line —
so states stabilize after at most stack-depth many blank lines. -/
theorem blankLine_second_noop (s s' s'' : St)
    (h1 : blankLineSt s = .ok s') (hsame : s'.stack = s.stack)
    (h2 : blankLineSt s' = .ok s'') :
    s''.stack = s'.stack ∧ s''.openMarks = s'.openMarks ∧
    s''.marks = s'.marks ∧ s''.line = s'.line + 1 := by
  match hstk : s.stack with
  | [] =>
    rw [show blankLineSt s = .error "empty stack" by
      unfold blankLineSt token
      simp only [show (⟨[], 0, 0⟩ : Stream').sol = true from rfl, if_true]
      rw [show matchLineComment ⟨[], 0, 0⟩ { s with line := s.line + 1 } =
          .ok (none, ⟨[], 0, 0⟩, { s with line := s.line + 1 }) from rfl]
      simp only []
      rw [show runTop ⟨[], 0, 0⟩ { s with line := s.line + 1 } =
          runStack [] ⟨[], 0, 0⟩ { s with line := s.line + 1 } by
        unfold runTop
        rw [show ({ s with line := s.line + 1 } : St).stack = [] from hstk]]
      rfl] at h1
    exact absurd h1 (by simp)
  | t :: rest =>
    cases hst : stableTok t with
    | false =>
      have := blankLine_shrink s t rest s' hstk hst h1
      rw [hsame] at this
      exact absurd this (Nat.lt_irrefl _)
    | true =>
      rw [blankLine_stable s t rest hstk hst] at h1
      have hs' : s' = { s with line := s.line + 1 } := (Except.ok.inj h1).symm
      have hstk' : s'.stack = t :: rest := by rw [hs']; exact hstk
      rw [blankLine_stable s' t rest hstk' hst] at h2
      have hs'' : s'' = { s' with line := s'.line + 1 } := (Except.ok.inj h2).symm
      rw [hs'']
      exact ⟨rfl, rfl, rfl, rfl⟩

/-- Witness for `blankLine_second_noop`: the state with an open `verbatim`
environment (a stable top entry) absorbs repeated blank lines. -/
theorem blankLine_second_noop_witness :
    ∃ s' s'', blankLineSt ⟨[.env ⟨"verbatim".data, none, true, false,
        .verbatimTok⟩, .topLevel], 0, [], [], 0⟩ = .ok s' ∧
      s'.stack = [.env ⟨"verbatim".data, none, true, false, .verbatimTok⟩,
        .topLevel] ∧
      blankLineSt s' = .ok s'' ∧
      s''.stack = s'.stack ∧ s''.openMarks = s'.openMarks ∧
      s''.marks = s'.marks ∧ s''.line = s'.line + 1 := by
  refine ⟨⟨[.env ⟨"verbatim".data, none, true, false, .verbatimTok⟩,
      .topLevel], 1, [], [], 0⟩,
    ⟨[.env ⟨"verbatim".data, none, true, false, .verbatimTok⟩,
      .topLevel], 2, [], [], 0⟩, by decide, rfl, by decide, ?_⟩
  exact blankLine_second_noop
    ⟨[.env ⟨"verbatim".data, none, true, false, .verbatimTok⟩,
      .topLevel], 0, [], [], 0⟩
    ⟨[.env ⟨"verbatim".data, none, true, false, .verbatimTok⟩,
      .topLevel], 1, [], [], 0⟩
    ⟨[.env ⟨"verbatim".data, none, true, false, .verbatimTok⟩,
      .topLevel], 2, [], [], 0⟩ (by decide) rfl (by decide)

/-- A single `blankLine` call can pop several stack entries at once: after
tokenizing `\section{test $x`, the stack holds two pending closer entries
(the `$` of the inline math and the `}` of the section argument) above the
top level, with two open marks, and one `blankLine` call abandons both marks
and empties the stack down to the top level — the pop of the inner entry
resumes the outer tokenizer on the same blank line, which pops in turn. -/
theorem blankLine_multi_pop :
    ∃ s, (processLine "\\section\x7btest $x" startState).map Prod.snd = .ok s ∧
      s.stack = [.andMark ['$'] "keyword" [['$', '$']] .mathTok,
        .andMark ['}'] "bracket" [] .textTok, .topLevel] ∧
      s.openMarks.length = 2 ∧
      blankLineSt s = .ok ⟨[.topLevel], 1, [], [], 2⟩ := by
  refine ⟨⟨[.andMark ['$'] "keyword" [['$', '$']] .mathTok,
      .andMark ['}'] "bracket" [] .textTok, .topLevel], 0,
    [⟨1, "inline-math", ⟨0, 14⟩, ⟨0, 15⟩, ⟨none, none, none, none, none⟩⟩,
     ⟨0, "section", ⟨0, 0⟩, ⟨0, 9⟩, ⟨none, none, none, none, none⟩⟩],
    [], 2⟩, by decide, rfl, rfl, by decide⟩

/-!
## C6: item numbering
-/

/-- The backward scan of `_matchItemCommand` equals: take closed marks (newest
first) up to the first one starting on a line before the list, then find the
first with the same kind and parent. -/
theorem itemScanRev_eq (L : Int) (pid : Nat) (k : String) (marks : List CMark) :
    itemScanRev marks L pid k =
      (marks.takeWhile fun m => decide (L ≤ m.from_.line)).find?
        (fun m => decide (m.kind = k) && decide (m.openParent = some pid)) := by
  induction marks with
  | nil => rfl
  | cons m rest ih =>
    unfold itemScanRev
    by_cases h1 : m.from_.line < L
    · simp [h1, not_le.mpr h1, List.takeWhile_cons]
    · by_cases h2 : m.kind = k
      · by_cases h3 : m.openParent = some pid
        · simp [h1, not_lt.mp h1, h2, h3, List.takeWhile_cons, List.find?_cons]
        · simp [h1, not_lt.mp h1, h2, h3, List.takeWhile_cons, List.find?_cons, ih]
      · simp [h1, not_lt.mp h1, h2, List.takeWhile_cons, List.find?_cons, ih]

/-- Characterization of `_matchItemCommand` on a hit at start of line with an
enclosing open mark. -/
theorem matchItemCommand_eq (st st' : Stream') (s : St) (lm : OMark)
    (oms : List OMark) (hsol : st.sol = true)
    (hm : st.matchItemCmd = some st') (hom : s.openMarks = lm :: oms) :
    matchItemCommand st s = .ok (some "tag", st',
      (⟨s.stack, s.line, lm :: oms, s.marks ++
          [⟨if lm.kind = "enumerate" then "enumerate-item" else "item",
            ⟨s.line, st'.start⟩, ⟨s.line, st'.pos⟩, ⟨s.line, st'.pos⟩,
            ⟨s.line, st'.pos⟩, some lm.id,
            ⟨some (if lm.kind = "enumerate" then "enumerate-item" else "item"),
             (match itemScanRev s.marks.reverse lm.from_.line lm.id
                 (if lm.kind = "enumerate" then "enumerate-item" else "item") with
              | some prior => prior.checkedProperties.number.map (· + 1)
              | none => some 1),
             some (oms.length : Int), none, none⟩⟩],
        s.nextId + 1⟩ : St)) := by
  unfold matchItemCommand
  rw [hsol]
  simp only [if_true]
  rw [hm]
  simp only [hom, openThenClose, closeTop, mkClosed, setLastChecked,
    startPos, currentPos, List.length_cons, List.head?_cons, Option.map_some,
    List.getLast?_concat, List.dropLast_concat]
  simp only [Option.map_some, Option.some.injEq, Nat.zero_lt_succ, true_and,
    Nat.cast_add, Nat.cast_one, add_sub_cancel_right]
  by_cases hek : lm.kind = "enumerate"
  · cases hscan : itemScanRev s.marks.reverse lm.from_.line lm.id
        "enumerate-item" with
    | some prior => simp [hek, hscan]
    | none => simp [hek, hscan]
  · cases hscan : itemScanRev s.marks.reverse lm.from_.line lm.id "item" with
    | some prior => simp [hek, hscan]
    | none => simp [hek, hscan]

/-- C6: when `\item` is matched at the start of a line inside a list
environment (an open mark is present), the closed item mark's
`checkedProperties.kind` is `enumerate-item` iff the innermost open mark's
kind is `enumerate` (else `item`), its `openParent` is that open mark, and
its `checkedProperties.number` is one plus the number of the most recent
closed mark of the same kind and same `openParent` among the closed marks
scanned newest-to-oldest up to the first one starting on a line before the
enclosing list's start line (defaulting to 1 when there is none). -/
theorem item_numbering (st st' : Stream') (s : St) (lm : OMark)
    (oms : List OMark) (hsol : st.sol = true)
    (hm : st.matchItemCmd = some st') (hom : s.openMarks = lm :: oms) :
    ∃ (s' : St) (m : CMark),
      matchItemCommand st s = .ok (some "tag", st', s') ∧
      s'.marks = s.marks ++ [m] ∧
      m.kind = (if lm.kind = "enumerate" then "enumerate-item" else "item") ∧
      m.checkedProperties.kind =
        some (if lm.kind = "enumerate" then "enumerate-item" else "item") ∧
      m.openParent = some lm.id ∧
      m.checkedProperties.number =
        (match (s.marks.reverse.takeWhile fun c =>
              decide (lm.from_.line ≤ c.from_.line)).find?
            (fun c => decide (c.kind =
                (if lm.kind = "enumerate" then "enumerate-item" else "item")) &&
              decide (c.openParent = some lm.id)) with
         | some prior => prior.checkedProperties.number.map (· + 1)
         | none => some 1) := by
  refine ⟨_, _, matchItemCommand_eq st st' s lm oms hsol hm hom, rfl, rfl, rfl,
    rfl, ?_⟩
  rw [← itemScanRev_eq]

/-- Witness: the first `\item` after `\begin{enumerate}` (open mark
`enumerate`, no closed marks yet) gets kind `enumerate-item`, `number = 1`
and `openParent` the open enumerate mark. -/
theorem item_numbering_witness :
    (∃ (s' : St) (m : CMark),
      matchItemCommand ⟨'\\' :: "item okok".data, 0, 0⟩
          ⟨[.env ⟨"enumerate".data, some "enumerate", true, true, .listTok⟩,
            .topLevel], 1, [⟨0, "enumerate", ⟨0, 0⟩, ⟨0, 17⟩, {}⟩], [], 1⟩ =
        .ok (some "tag", ⟨'\\' :: "item okok".data, 0, 6⟩, s') ∧
      s'.marks = [] ++ [m] ∧
      m.kind = (if "enumerate" = "enumerate" then "enumerate-item" else "item") ∧
      m.checkedProperties.kind =
        some (if "enumerate" = "enumerate" then "enumerate-item" else "item") ∧
      m.openParent = some 0 ∧
      m.checkedProperties.number =
        (match (([] : List CMark).reverse.takeWhile fun c =>
              decide ((0 : Int) ≤ c.from_.line)).find?
            (fun c => decide (c.kind =
                (if "enumerate" = "enumerate" then "enumerate-item" else "item")) &&
              decide (c.openParent = some 0)) with
         | some prior => prior.checkedProperties.number.map (· + 1)
         | none => some 1)) ∧
    (matchItemCommand ⟨'\\' :: "item okok".data, 0, 0⟩
          ⟨[.env ⟨"enumerate".data, some "enumerate", true, true, .listTok⟩,
            .topLevel], 1, [⟨0, "enumerate", ⟨0, 0⟩, ⟨0, 17⟩, {}⟩], [], 1⟩).map
        (fun r => r.2.2.marks.map fun m =>
          (m.checkedProperties.kind, m.checkedProperties.number, m.openParent)) =
      .ok [(some "enumerate-item", some 1, some 0)] :=
  ⟨item_numbering ⟨'\\' :: "item okok".data, 0, 0⟩
      ⟨'\\' :: "item okok".data, 0, 6⟩
      ⟨[.env ⟨"enumerate".data, some "enumerate", true, true, .listTok⟩,
        .topLevel], 1, [⟨0, "enumerate", ⟨0, 0⟩, ⟨0, 17⟩, {}⟩], [], 1⟩
      ⟨0, "enumerate", ⟨0, 0⟩, ⟨0, 17⟩, {}⟩ [] (by decide) (by decide) rfl,
    by decide⟩

/-!
## C7 and C10: stack safety and append-only marks

`Ext s s'` says the step from `s` to `s'` only appended closed marks and
only pushed stack entries; every `_match*` helper satisfies it, together
with never producing the fatal empty-stack error.
-/

def Ext (s s' : St) : Prop :=
  (∃ l, s'.marks = s.marks ++ l) ∧ (∃ l, s'.stack = l ++ s.stack)

theorem ext_rfl (s : St) : Ext s s := ⟨⟨[], by simp⟩, ⟨[], by simp⟩⟩

theorem ext_of_eq {s s' : St} (h : s' = s) : Ext s s' := h ▸ ext_rfl s

theorem ext_trans {s s' s'' : St} (h1 : Ext s s') (h2 : Ext s' s'') :
    Ext s s'' := by
  obtain ⟨⟨l1, hm1⟩, ⟨t1, hs1⟩⟩ := h1
  obtain ⟨⟨l2, hm2⟩, ⟨t2, ht2⟩⟩ := h2
  exact ⟨⟨l1 ++ l2, by rw [hm2, hm1, List.append_assoc]⟩,
    ⟨t2 ++ t1, by rw [ht2, hs1, List.append_assoc]⟩⟩

theorem ext_push (s : St) (t : Tok) : Ext s (pushTok s t) :=
  ⟨⟨[], by simp [pushTok]⟩, ⟨[t], rfl⟩⟩

theorem ext_openMark (st : Stream') (s : St) (k : String) (op : Pos) :
    Ext s (openMark st s k op) :=
  ⟨⟨[], by simp [openMark]⟩, ⟨[], by simp [openMark]⟩⟩

theorem ext_setOpenChecked (s : St) (f : Checked → Checked) :
    Ext s (setOpenChecked s f) := by
  unfold setOpenChecked
  cases s.openMarks with
  | nil => exact ext_rfl s
  | cons om ros => exact ⟨⟨[], by simp⟩, ⟨[], by simp⟩⟩

/-- `setLastChecked` on a state whose marks end in a freshly appended mark
only rewrites that final mark. -/
theorem setLast_append {s1 : St} {pre : List CMark} {m : CMark}
    (f : Checked → Checked) (h : s1.marks = pre ++ [m]) :
    (setLastChecked s1 f).marks =
      pre ++ [{ m with checkedProperties := f m.checkedProperties }] ∧
    (setLastChecked s1 f).stack = s1.stack ∧
    (setLastChecked s1 f).openMarks = s1.openMarks := by
  unfold setLastChecked
  rw [h, List.getLast?_concat]
  simp [List.dropLast_concat]

theorem closeMarkE_ne (st : Stream') (s : St) (cp : Pos) :
    closeMarkE st s cp ≠ .error "empty stack" := by
  unfold closeMarkE
  cases s.openMarks <;> simp

/-- The behaviour every match helper shares: on success the state is only
extended, and the fatal empty-stack error is never produced. -/
def MPres (f : Stream' → St → MRes) : Prop :=
  ∀ st s, (∀ r st' s', f st s = .ok (r, st', s') → Ext s s') ∧
    f st s ≠ .error "empty stack"

/-- Composition of extension facts through the `||` chaining. -/
theorem mOr_val {a : MRes} {g : Stream' → St → MRes} {s : St}
    (ha : ∀ r st' s', a = .ok (r, st', s') → Ext s s')
    (hae : a ≠ .error "empty stack") (hg : MPres g) :
    (∀ r st' s', mOr a g = .ok (r, st', s') → Ext s s') ∧
    mOr a g ≠ .error "empty stack" := by
  constructor
  · intro r st' s' h
    unfold mOr at h
    cases hA : a with
    | error e =>
      rw [hA] at h
      exact absurd h (by simp)
    | ok v =>
      obtain ⟨r1, st1, s1⟩ := v
      cases r1 with
      | some sty =>
        rw [hA] at h
        simp only [] at h
        obtain ⟨-, -, h3⟩ := ok3 h
        exact h3 ▸ ha _ _ _ hA
      | none =>
        rw [hA] at h
        simp only [] at h
        exact ext_trans (ha _ _ _ hA) ((hg st1 s1).1 _ _ _ h)
  · intro hc
    unfold mOr at hc
    cases hA : a with
    | error e =>
      rw [hA] at hc
      simp only [] at hc
      rw [hc] at hA
      exact hae hA
    | ok v =>
      obtain ⟨r1, st1, s1⟩ := v
      cases r1 with
      | some sty =>
        rw [hA] at hc
        exact absurd hc (by simp)
      | none =>
        rw [hA] at hc
        simp only [] at hc
        exact (hg st1 s1).2 hc

theorem mpres_mOr {f g : Stream' → St → MRes} (hf : MPres f) (hg : MPres g) :
    MPres (fun st s => mOr (f st s) g) :=
  fun st s => mOr_val ((hf st s).1) ((hf st s).2) hg

theorem mpres_matchLineComment : MPres matchLineComment := by
  intro st s
  constructor
  · intro r st' s' h
    unfold matchLineComment at h
    split at h <;> exact ext_of_eq (ok3 h).2.2.symm
  · intro hc
    unfold matchLineComment at hc
    split at hc <;> simp at hc

theorem mpres_matchOther : MPres matchOther := by
  intro st s
  constructor
  · intro r st' s' h
    unfold matchOther at h
    split at h
    · split at h
      · exact ext_of_eq (ok3 h).2.2.symm
      · split at h
        · exact ext_of_eq (ok3 h).2.2.symm
        · split at h <;> exact ext_of_eq (ok3 h).2.2.symm
    · exact ext_of_eq (ok3 h).2.2.symm
  · intro hc
    unfold matchOther at hc
    split at hc
    · split at hc
      · simp at hc
      · split at hc
        · simp at hc
        · split at hc <;> simp at hc
    · simp at hc

theorem mpres_matchOtherCommand : MPres matchOtherCommand := by
  intro st s
  constructor
  · intro r st' s' h
    unfold matchOtherCommand at h
    split at h <;> exact ext_of_eq (ok3 h).2.2.symm
  · intro hc
    unfold matchOtherCommand at hc
    split at hc <;> simp at hc

theorem mpres_matchVerbCommand : MPres matchVerbCommand := by
  intro st s
  constructor
  · intro r st' s' h
    unfold matchVerbCommand at h
    split at h
    · next c st2 heq =>
      rw [← (ok3 h).2.2]
      exact ext_push s _
    · exact ext_of_eq (ok3 h).2.2.symm
  · intro hc
    unfold matchVerbCommand at hc
    split at hc <;> simp at hc

theorem mpres_matchVerbatimEnvironment : MPres matchVerbatimEnvironment := by
  intro st s
  constructor
  · intro r st' s' h
    unfold matchVerbatimEnvironment at h
    split at h <;> exact ext_of_eq (ok3 h).2.2.symm
  · intro hc
    unfold matchVerbatimEnvironment at hc
    split at hc <;> simp at hc

theorem mpres_matchCommentEnvironment : MPres matchCommentEnvironment := by
  intro st s
  constructor
  · intro r st' s' h
    unfold matchCommentEnvironment at h
    split at h <;> exact ext_of_eq (ok3 h).2.2.symm
  · intro hc
    unfold matchCommentEnvironment at hc
    split at hc <;> simp at hc

theorem mpres_matchGroup : MPres matchGroup := by
  intro st s
  constructor
  · intro r st' s' h
    unfold matchGroup at h
    split at h
    · rw [← (ok3 h).2.2]
      exact ext_push s _
    · exact ext_of_eq (ok3 h).2.2.symm
  · intro hc
    unfold matchGroup at hc
    split at hc <;> simp at hc

theorem mpres_matchAndMark (kind : String) (openPos : Pos)
    (openLit : List Char) (openStyle : String) (close : List Char)
    (closeStyle : String) (abandon : List (List Char)) (inner : ITok) :
    MPres (matchAndMark kind openPos openLit openStyle close closeStyle
      abandon inner) := by
  intro st s
  constructor
  · intro r st' s' h
    unfold matchAndMark at h
    split at h
    · next st2 heq =>
      rw [← (ok3 h).2.2]
      exact ext_trans (ext_openMark st2 s kind openPos) (ext_push _ _)
    · exact ext_of_eq (ok3 h).2.2.symm
  · intro hc
    unfold matchAndMark at hc
    split at hc <;> simp at hc

theorem mpres_matchArgument (openLit : List Char) (openStyle : String)
    (close : List Char) (closeStyle : String) (inner : ITok) :
    MPres (matchArgument openLit openStyle close closeStyle inner) := by
  intro st s
  constructor
  · intro r st' s' h
    unfold matchArgument at h
    split at h
    · rw [← (ok3 h).2.2]
      exact ext_push s _
    · exact ext_of_eq (ok3 h).2.2.symm
  · intro hc
    unfold matchArgument at hc
    split at hc <;> simp at hc

theorem mpres_matchCommandWithArgument (lit : List Char) (kind : String) :
    MPres (matchCommandWithArgument lit kind) := by
  intro st s
  constructor
  · intro r st' s' h
    unfold matchCommandWithArgument at h
    split at h
    · split at h
      · rw [← (ok3 h).2.2]
        exact ext_push s _
      · exact ext_of_eq (ok3 h).2.2.symm
    · exact ext_of_eq (ok3 h).2.2.symm
  · intro hc
    unfold matchCommandWithArgument at hc
    split at hc
    · split at hc <;> simp at hc
    · simp at hc

theorem mpres_matchTitleCommand : MPres matchTitleCommand := by
  intro st s
  constructor
  · intro r st' s' h
    unfold matchTitleCommand at h
    split at h
    · split at h
      · rw [← (ok3 h).2.2]
        exact ext_trans (ext_push s _) (ext_push _ _)
      · exact ext_of_eq (ok3 h).2.2.symm
    · exact ext_of_eq (ok3 h).2.2.symm
  · intro hc
    unfold matchTitleCommand at hc
    split at hc
    · split at hc <;> simp at hc
    · simp at hc

theorem mpres_matchIncludeGraphics : MPres matchIncludeGraphics := by
  intro st s
  constructor
  · intro r st' s' h
    unfold matchIncludeGraphics at h
    split at h
    · split at h
      · rw [← (ok3 h).2.2]
        exact ext_trans (ext_push s _) (ext_push _ _)
      · exact ext_of_eq (ok3 h).2.2.symm
    · exact ext_of_eq (ok3 h).2.2.symm
  · intro hc
    unfold matchIncludeGraphics at hc
    split at hc
    · split at hc <;> simp at hc
    · simp at hc

theorem mpres_matchCommand (pat : Stream' → Option Stream') (markKind : String) :
    MPres (matchCommand pat markKind) := by
  intro st s
  constructor
  · intro r st' s' h
    unfold matchCommand openThenClose closeTop at h
    split at h
    · rw [← (ok3 h).2.2]
      exact ⟨⟨_, rfl⟩, ⟨[], by simp⟩⟩
    · exact ext_of_eq (ok3 h).2.2.symm
  · intro hc
    unfold matchCommand openThenClose closeTop at hc
    split at hc <;> simp at hc

theorem mpres_matchBeginEnvironmentSequence (cb : Cb) :
    MPres (matchBeginEnvironmentSequence cb) := by
  intro st s
  constructor
  · intro r st' s' h
    unfold matchBeginEnvironmentSequence at h
    split at h
    · rw [← (ok3 h).2.2]
      exact ext_push s _
    · exact ext_of_eq (ok3 h).2.2.symm
  · intro hc
    unfold matchBeginEnvironmentSequence at hc
    split at hc <;> simp at hc

theorem mpres_matchEndEnvironmentSequence (cb : Cb) :
    MPres (matchEndEnvironmentSequence cb) := by
  intro st s
  constructor
  · intro r st' s' h
    unfold matchEndEnvironmentSequence at h
    split at h
    · rw [← (ok3 h).2.2]
      exact ext_push s _
    · exact ext_of_eq (ok3 h).2.2.symm
  · intro hc
    unfold matchEndEnvironmentSequence at hc
    split at hc <;> simp at hc

theorem mpres_matchEnvironments (envs : List EnvCfg) :
    MPres (matchEnvironments envs) := by
  intro st s
  constructor
  · intro r st' s' h
    unfold matchEnvironments at h
    split at h
    · next cfg heq => exact (mpres_matchBeginEnvironmentSequence _ st s).1 _ _ _ h
    · exact ext_of_eq (ok3 h).2.2.symm
  · intro hc
    unfold matchEnvironments at hc
    split at hc
    · next cfg heq => exact (mpres_matchBeginEnvironmentSequence _ st s).2 hc
    · simp at hc

theorem mpres_matchOtherEnvironmentBeginOrEnd :
    MPres matchOtherEnvironmentBeginOrEnd := by
  intro st s
  constructor
  · intro r st' s' h
    unfold matchOtherEnvironmentBeginOrEnd at h
    split at h
    · exact (mpres_matchBeginEnvironmentSequence _ st s).1 _ _ _ h
    · split at h
      · exact (mpres_matchEndEnvironmentSequence _ st s).1 _ _ _ h
      · exact ext_of_eq (ok3 h).2.2.symm
  · intro hc
    unfold matchOtherEnvironmentBeginOrEnd at hc
    split at hc
    · exact (mpres_matchBeginEnvironmentSequence _ st s).2 hc
    · split at hc
      · exact (mpres_matchEndEnvironmentSequence _ st s).2 hc
      · simp at hc

theorem mpres_matchEndDocument : MPres matchEndDocument := by
  intro st s
  constructor
  · intro r st' s' h
    unfold matchEndDocument at h
    split at h
    · exact (mpres_matchEndEnvironmentSequence _ st s).1 _ _ _ h
    · exact ext_of_eq (ok3 h).2.2.symm
  · intro hc
    unfold matchEndDocument at hc
    split at hc
    · exact (mpres_matchEndEnvironmentSequence _ st s).2 hc
    · simp at hc

theorem mpres_matchSectioningCommand : MPres matchSectioningCommand :=
  mpres_mOr (mpres_matchCommandWithArgument _ _)
    (mpres_mOr (mpres_matchCommandWithArgument _ _)
    (mpres_mOr (mpres_matchCommandWithArgument _ _)
    (mpres_mOr (mpres_matchCommandWithArgument _ _)
    (mpres_mOr (mpres_matchCommandWithArgument _ _)
    (mpres_mOr (mpres_matchCommandWithArgument _ _)
    (mpres_mOr (mpres_matchCommandWithArgument _ _)
      (mpres_matchCommandWithArgument _ _)))))))

theorem bib_fold (cs : List String) :
    ∀ (a : MRes) (s : St),
      (∀ r st' s', a = .ok (r, st', s') → Ext s s') →
      a ≠ .error "empty stack" →
      (∀ r st' s', cs.foldl
          (fun acc c => mOr acc (matchCommandWithArgument c.data c)) a =
            .ok (r, st', s') → Ext s s') ∧
      cs.foldl (fun acc c => mOr acc (matchCommandWithArgument c.data c)) a ≠
        .error "empty stack" := by
  induction cs with
  | nil => exact fun a s ha hae => ⟨ha, hae⟩
  | cons c cs ih =>
    intro a s ha hae
    have h1 := @mOr_val a (matchCommandWithArgument c.data c) s ha hae
      (mpres_matchCommandWithArgument _ _)
    exact ih _ s h1.1 h1.2

theorem mpres_matchBibCommand : MPres matchBibCommand := by
  intro st s
  unfold matchBibCommand
  exact bib_fold bibCommands (.ok (none, st, s)) s
    (fun r st' s' h => ext_of_eq (ok3 h).2.2.symm) (by simp)

theorem runCb_pres (cb : Cb) (st : Stream') (s : St) :
    (∀ s2, runCb cb st s = .ok s2 → Ext s s2) ∧
    runCb cb st s ≠ .error "empty stack" := by
  cases cb with
  | noop =>
    exact ⟨fun s2 h => ext_of_eq (Except.ok.inj h).symm, by simp [runCb]⟩
  | envBegin cfg mop =>
    constructor
    · intro s2 h
      unfold runCb at h
      simp only [] at h
      cases mop with
      | some mp =>
        cases hk : cfg.kind with
        | some k =>
          rw [hk] at h
          simp only [] at h
          rw [← Except.ok.inj h]
          exact ext_trans (ext_trans (ext_openMark st s k mp)
            (ext_setOpenChecked _ _)) (ext_push _ _)
        | none =>
          rw [hk] at h
          simp only [] at h
          rw [← Except.ok.inj h]
          exact ext_push s _
      | none =>
        cases hk : cfg.kind with
        | some k =>
          rw [hk] at h
          simp only [] at h
          rw [← Except.ok.inj h]
          exact ext_push s _
        | none =>
          rw [hk] at h
          simp only [] at h
          rw [← Except.ok.inj h]
          exact ext_push s _
    · intro hc
      unfold runCb at hc
      simp only [] at hc
      cases mop with
      | some mp =>
        cases hk : cfg.kind with
        | some k => rw [hk] at hc; simp at hc
        | none => rw [hk] at hc; simp at hc
      | none =>
        cases hk : cfg.kind with
        | some k => rw [hk] at hc; simp at hc
        | none => rw [hk] at hc; simp at hc
  | envEnd hasMark mcp =>
    constructor
    · intro s2 h
      unfold runCb at h
      simp only [] at h
      cases hasMark with
      | false =>
        simp only [Bool.false_eq_true, if_false] at h
        exact ext_of_eq (Except.ok.inj h).symm
      | true =>
        simp only [eq_self_iff_true, if_true] at h
        cases mcp with
        | none => exact ext_of_eq (Except.ok.inj h).symm
        | some cp =>
          simp only [] at h
          match hcm : closeMarkE st s cp with
          | .error e =>
            rw [hcm] at h
            simp only [] at h
            exact absurd h (by simp)
          | .ok (s1, m) =>
            rw [hcm] at h
            simp only [] at h
            unfold closeMarkE at hcm
            match hom : s.openMarks with
            | [] => rw [hom] at hcm; exact absurd hcm (by simp)
            | om :: ros =>
              rw [hom] at hcm
              simp only [] at hcm
              have hpair : closeTop st s cp om ros = (s1, m) :=
                Except.ok.inj hcm
              have h1 : s1 = (⟨s.stack, s.line, ros,
                  s.marks ++ [mkClosed st s cp om ros], s.nextId⟩ : St) :=
                (congrArg Prod.fst hpair).symm
              obtain ⟨hmk, hst, -⟩ := @setLast_append s1 s.marks
                (mkClosed st s cp om ros)
                (fun c => { c with
                  openMarksCount := some (s1.openMarks.length : Int),
                  fromLine := some m.from_.line, toLine := some m.to_.line })
                (by rw [h1])
              rw [← Except.ok.inj h]
              refine ⟨⟨_, hmk⟩, ⟨[], ?_⟩⟩
              rw [hst, h1]
              simp
    · intro hc
      unfold runCb at hc
      simp only [] at hc
      cases hasMark with
      | false => simp at hc
      | true =>
        simp only [eq_self_iff_true, if_true] at hc
        cases mcp with
        | none => simp at hc
        | some cp =>
          simp only [] at hc
          match hcm : closeMarkE st s cp with
          | .error e =>
            rw [hcm] at hc
            simp only [] at hc
            rw [Except.error.inj hc] at hcm
            exact closeMarkE_ne st s cp hcm
          | .ok (s1, m) =>
            rw [hcm] at hc
            simp at hc
  | endDoc =>
    exact ⟨fun s2 h => by
      rw [← Except.ok.inj h]
      exact ext_push s _, by simp [runCb]⟩

/-- `_matchItemCommand` on a hit with no open marks: the JavaScript faults
(scan over `undefined`) unless there are no closed marks at all. -/
theorem matchItemCommand_eq_nil (st st' : Stream') (s : St)
    (hsol : st.sol = true) (hm : st.matchItemCmd = some st')
    (hom : s.openMarks = []) :
    matchItemCommand st s =
      if s.marks = [] then .ok (some "tag", st',
        (⟨s.stack, s.line, [],
          [⟨"item", ⟨s.line, st'.start⟩, ⟨s.line, st'.pos⟩, ⟨s.line, st'.pos⟩,
            ⟨s.line, st'.pos⟩, none,
            ⟨some "item", some 1, some (-1), none, none⟩⟩], s.nextId + 1⟩ : St))
      else .error "item: no open mark" := by
  unfold matchItemCommand
  rw [hsol]
  simp only [if_true]
  rw [hm]
  simp only [hom, openThenClose, closeTop, mkClosed, setLastChecked,
    startPos, currentPos, List.head?_nil, List.length_nil, Option.map_none,
    List.getLast?_concat, List.dropLast_concat]
  by_cases hmk : s.marks = []
  · simp [hmk]
  · simp [hmk]

theorem mpres_matchItemCommand : MPres matchItemCommand := by
  intro st s
  constructor
  · intro r st' s' h
    cases hsol : st.sol with
    | false =>
      unfold matchItemCommand at h
      rw [hsol] at h
      simp only [Bool.false_eq_true, if_false] at h
      exact ext_of_eq (ok3 h).2.2.symm
    | true =>
      cases hcmd : st.matchItemCmd with
      | none =>
        unfold matchItemCommand at h
        rw [hsol] at h
        simp only [if_true] at h
        rw [hcmd] at h
        simp only [] at h
        exact ext_of_eq (ok3 h).2.2.symm
      | some stM =>
        cases hom : s.openMarks with
        | cons lm oms =>
          rw [matchItemCommand_eq st stM s lm oms hsol hcmd hom] at h
          obtain ⟨-, -, h3⟩ := ok3 h
          rw [← h3]
          exact ⟨⟨_, rfl⟩, ⟨[], by simp⟩⟩
        | nil =>
          rw [matchItemCommand_eq_nil st stM s hsol hcmd hom] at h
          by_cases hmk : s.marks = []
          · rw [if_pos hmk] at h
            obtain ⟨-, -, h3⟩ := ok3 h
            rw [← h3]
            exact ⟨⟨_, by rw [hmk]; rfl⟩, ⟨[], by simp⟩⟩
          · rw [if_neg hmk] at h
            exact absurd h (by simp)
  · intro hc
    cases hsol : st.sol with
    | false =>
      unfold matchItemCommand at hc
      rw [hsol] at hc
      simp only [Bool.false_eq_true, if_false] at hc
      simp at hc
    | true =>
      cases hcmd : st.matchItemCmd with
      | none =>
        unfold matchItemCommand at hc
        rw [hsol] at hc
        simp only [if_true] at hc
        rw [hcmd] at hc
        simp at hc
      | some stM =>
        cases hom : s.openMarks with
        | cons lm oms =>
          rw [matchItemCommand_eq st stM s lm oms hsol hcmd hom] at hc
          simp at hc
        | nil =>
          rw [matchItemCommand_eq_nil st stM s hsol hcmd hom] at hc
          by_cases hmk : s.marks = []
          · rw [if_pos hmk] at hc
            simp at hc
          · rw [if_neg hmk] at hc
            simp at hc

theorem mpres_otherMath : MPres (fun st s =>
    match st.matchBackslashCmd with
    | some st' => .ok (some "tag", st', s)
    | none =>
      if st.peek = some '^' ∨ st.peek = some '_' ∨ st.peek = some '&' ∨
          st.peek = some '~' then
        .ok (some "tag", { st with pos := st.pos + 1 }, s)
      else
        match st.matchNumber with
        | some st' => .ok (some "number", st', s)
        | none => .ok (none, st.next, s)) := by
  intro st s
  constructor
  · intro r st' s' h
    simp only [] at h
    split at h
    · exact ext_of_eq (ok3 h).2.2.symm
    · split at h
      · exact ext_of_eq (ok3 h).2.2.symm
      · split at h <;> exact ext_of_eq (ok3 h).2.2.symm
  · intro hc
    simp only [] at hc
    split at hc
    · simp at hc
    · split at hc
      · simp at hc
      · split at hc <;> simp at hc

theorem mpres_matchDollarDollarMath : MPres matchDollarDollarMath :=
  fun st s => mpres_matchAndMark _ _ _ _ _ _ _ _ st s

theorem mpres_matchDollarMath : MPres matchDollarMath :=
  fun st s => mpres_matchAndMark _ _ _ _ _ _ _ _ st s

theorem mpres_matchBracketMath : MPres matchBracketMath :=
  fun st s => mpres_matchAndMark _ _ _ _ _ _ _ _ st s

theorem mpres_matchParenMath : MPres matchParenMath :=
  fun st s => mpres_matchAndMark _ _ _ _ _ _ _ _ st s

theorem mpres_matchMath : MPres matchMath :=
  mpres_mOr mpres_matchVerbCommand
    (mpres_mOr mpres_matchOtherEnvironmentBeginOrEnd
    (mpres_mOr mpres_matchOtherCommand mpres_otherMath))

theorem mpres_matchText : MPres matchText :=
  mpres_mOr (mpres_matchCommandWithArgument _ _)
    (mpres_mOr (mpres_matchCommandWithArgument _ _)
    (mpres_mOr mpres_matchBracketMath
    (mpres_mOr mpres_matchParenMath
    (mpres_mOr (mpres_matchCommandWithArgument _ _)
    (mpres_mOr mpres_matchBibCommand
    (mpres_mOr (mpres_matchCommandWithArgument _ _)
    (mpres_mOr (mpres_matchCommandWithArgument _ _)
    (mpres_mOr (mpres_matchCommandWithArgument _ _)
    (mpres_mOr (mpres_matchEnvironments _)
    (mpres_mOr (mpres_matchEnvironments _)
    (mpres_mOr (mpres_matchEnvironments _)
    (mpres_mOr mpres_matchVerbCommand
    (mpres_mOr (mpres_matchEnvironments _)
    (mpres_mOr (mpres_matchEnvironments _)
    (mpres_mOr mpres_matchOtherEnvironmentBeginOrEnd
    (mpres_mOr mpres_matchOtherCommand
    (mpres_mOr mpres_matchGroup
    (mpres_mOr mpres_matchDollarDollarMath
    (mpres_mOr mpres_matchDollarMath
      mpres_matchOther)))))))))))))))))))

theorem mpres_matchListContent : MPres matchListContent :=
  mpres_mOr mpres_matchItemCommand mpres_matchText

theorem mpres_matchFigureContent : MPres matchFigureContent :=
  mpres_mOr (mpres_matchCommandWithArgument _ _)
    (mpres_mOr mpres_matchIncludeGraphics mpres_matchText)

theorem mpres_matchTikZ : MPres matchTikZ :=
  mpres_mOr (mpres_matchEnvironments _)
    (mpres_mOr mpres_matchOtherCommand mpres_matchOther)

theorem mpres_matchTopLevel : MPres matchTopLevel :=
  mpres_mOr mpres_matchTitleCommand
    (mpres_mOr (mpres_matchCommandWithArgument _ _)
    (mpres_mOr (mpres_matchCommand _ _)
    (mpres_mOr mpres_matchSectioningCommand
    (mpres_mOr (mpres_matchEnvironments _)
    (mpres_mOr mpres_matchEndDocument mpres_matchText)))))

theorem mpres_runITok (it : ITok) : MPres (runITok it) := by
  cases it with
  | textTok => exact mpres_matchText
  | mathTok => exact mpres_matchMath
  | verbatimTok => exact mpres_matchVerbatimEnvironment
  | commentTok => exact mpres_matchCommentEnvironment
  | listTok => exact mpres_matchListContent
  | figureTok => exact mpres_matchFigureContent
  | tikzTok => exact mpres_matchTikZ

theorem getLast_app (l stk : List Tok)
    (h : stk.getLast? = some Tok.topLevel) :
    (l ++ stk).getLast? = some Tok.topLevel := by
  have hne : stk ≠ [] := by
    intro he
    rw [he] at h
    simp at h
  rw [List.getLast?_append_of_ne_nil l hne]
  exact h

theorem getLast_tail {t : Tok} {rest : List Tok}
    (h : (t :: rest).getLast? = some Tok.topLevel) (ht : t ≠ Tok.topLevel) :
    rest.getLast? = some Tok.topLevel := by
  cases rest with
  | nil => simp at h; exact absurd h ht
  | cons b bs =>
    rw [show t :: b :: bs = [t] ++ (b :: bs) from rfl,
      List.getLast?_append_of_ne_nil [t] (by simp)] at h
    exact h

theorem ext_getLast {s s' : St} {stk : List Tok} (he : Ext s s')
    (hstk : s.stack = stk) (h : stk.getLast? = some Tok.topLevel) :
    s'.stack.getLast? = some Tok.topLevel := by
  obtain ⟨-, l, hl⟩ := he
  rw [hl, hstk]
  exact getLast_app l stk h

theorem runEnvTail_main (cfg : EnvCfg) (st : Stream') (s : St)
    (rest : List Tok) (hstk : s.stack = Tok.env cfg :: rest) :
    (∀ r st' s', runEnvTail cfg st s rest = .ok (r, st', s') →
      (∃ lm, s'.marks = s.marks ++ lm) ∧
      ((Tok.env cfg :: rest).getLast? = some Tok.topLevel →
        s'.stack.getLast? = some Tok.topLevel)) ∧
    runEnvTail cfg st s rest ≠ .error "empty stack" := by
  constructor
  · intro r st' s' h
    unfold runEnvTail at h
    split at h
    · have he := (mpres_matchEndEnvironmentSequence _ st
        { s with stack := rest }).1 _ _ _ h
      refine ⟨he.1, fun hlast => ?_⟩
      obtain ⟨-, l, hl⟩ := he
      rw [hl]
      exact getLast_app l rest (getLast_tail hlast (by simp))
    · have he := (mpres_runITok cfg.tokenizer st s).1 _ _ _ h
      exact ⟨he.1, fun hlast => ext_getLast he hstk hlast⟩
  · intro hc
    unfold runEnvTail at hc
    split at hc
    · exact (mpres_matchEndEnvironmentSequence _ st _).2 hc
    · exact (mpres_runITok cfg.tokenizer st s).2 hc

theorem runStack_main (stk : List Tok) : ∀ st s, s.stack = stk →
    (∀ r st' s', runStack stk st s = .ok (r, st', s') →
      (∃ lm, s'.marks = s.marks ++ lm) ∧
      (stk.getLast? = some Tok.topLevel →
        s'.stack.getLast? = some Tok.topLevel)) ∧
    (stk.getLast? = some Tok.topLevel →
      runStack stk st s ≠ .error "empty stack") := by
  induction stk with
  | nil =>
    intro st s hstk
    constructor
    · intro r st' s' h
      exact absurd h (by unfold runStack; simp)
    · intro hlast
      simp at hlast
  | cons t rest ih =>
    intro st s hstk
    cases t with
    | topLevel =>
      constructor
      · intro r st' s' h
        have he := (mpres_matchTopLevel st s).1 r st' s' h
        exact ⟨he.1, fun hlast => ext_getLast he hstk hlast⟩
      · exact fun _ => (mpres_matchTopLevel st s).2
    | group =>
      constructor
      · intro r st' s' h
        unfold runStack at h
        simp only [] at h
        split at h
        · obtain ⟨-, -, h3⟩ := ok3 h
          rw [← h3]
          exact ⟨⟨[], by simp⟩, fun hlast => getLast_tail hlast (by simp)⟩
        · have he := (mpres_matchText st s).1 r st' s' h
          exact ⟨he.1, fun hlast => ext_getLast he hstk hlast⟩
      · intro hlast hc
        unfold runStack at hc
        simp only [] at hc
        split at hc
        · simp at hc
        · exact (mpres_matchText st s).2 hc
    | verb d =>
      constructor
      · intro r st' s' h
        unfold runStack at h
        simp only [] at h
        split at h
        · obtain ⟨-, -, h3⟩ := ok3 h
          rw [← h3]
          exact ⟨⟨[], by simp⟩, fun hlast => getLast_tail hlast (by simp)⟩
        · split at h <;>
          · obtain ⟨-, -, h3⟩ := ok3 h
            rw [← h3]
            exact ⟨⟨[], by simp⟩, fun hlast => hstk ▸ hlast⟩
      · intro hlast hc
        unfold runStack at hc
        simp only [] at hc
        split at hc
        · simp at hc
        · split at hc <;> simp at hc
    | commentRest =>
      constructor
      · intro r st' s' h
        have h2 : (Except.ok (some "comment", st.skipToEnd, s) : MRes) =
            .ok (r, st', s') := h
        obtain ⟨-, -, h3⟩ := ok3 h2
        rw [← h3]
        exact ⟨⟨[], by simp⟩, fun hlast => hstk ▸ hlast⟩
      · intro hlast hc
        exact absurd hc (by unfold runStack; simp)
    | deferReqArgMark k op =>
      constructor
      · intro r st' s' h
        have he := (mpres_matchAndMark k op ['{'] "bracket" ['}'] "bracket"
          [] .textTok st { s with stack := rest }).1 r st' s' h
        refine ⟨he.1, fun hlast => ?_⟩
        obtain ⟨-, l, hl⟩ := he
        rw [hl]
        exact getLast_app l rest (getLast_tail hlast (by simp))
      · intro hlast hc
        exact (mpres_matchAndMark k op ['{'] "bracket" ['}'] "bracket"
          [] .textTok st { s with stack := rest }).2 hc
    | deferOptArgMark k op =>
      constructor
      · intro r st' s' h
        have he := (mpres_matchAndMark k op ['['] "bracket" [']'] "bracket"
          [] .textTok st { s with stack := rest }).1 r st' s' h
        refine ⟨he.1, fun hlast => ?_⟩
        obtain ⟨-, l, hl⟩ := he
        rw [hl]
        exact getLast_app l rest (getLast_tail hlast (by simp))
      · intro hlast hc
        exact (mpres_matchAndMark k op ['['] "bracket" [']'] "bracket"
          [] .textTok st { s with stack := rest }).2 hc
    | deferOptArg =>
      constructor
      · intro r st' s' h
        have he := (mpres_matchArgument ['['] "bracket" [']'] "bracket"
          .textTok st { s with stack := rest }).1 r st' s' h
        refine ⟨he.1, fun hlast => ?_⟩
        obtain ⟨-, l, hl⟩ := he
        rw [hl]
        exact getLast_app l rest (getLast_tail hlast (by simp))
      · intro hlast hc
        exact (mpres_matchArgument ['['] "bracket" [']'] "bracket"
          .textTok st { s with stack := rest }).2 hc
    | seq pats cb =>
      constructor
      · intro r st' s' h
        match pats with
        | [] =>
          have h2 : (Except.ok (none, st, { s with stack := rest }) : MRes) =
              .ok (r, st', s') := h
          obtain ⟨-, -, h3⟩ := ok3 h2
          rw [← h3]
          exact ⟨⟨[], by simp⟩, fun hlast => getLast_tail hlast (by simp)⟩
        | (p, sty) :: ps =>
          unfold runStack at h
          simp only [] at h
          cases hp : matchPat p st with
          | none =>
            rw [hp] at h
            simp only [] at h
            obtain ⟨-, -, h3⟩ := ok3 h
            rw [← h3]
            exact ⟨⟨[], by simp⟩, fun hlast => getLast_tail hlast (by simp)⟩
          | some stP =>
            rw [hp] at h
            simp only [] at h
            match ps with
            | [] =>
              simp only [] at h
              cases hcb : runCb cb stP { s with stack := rest } with
              | error e =>
                rw [hcb] at h
                simp only [] at h
                exact absurd h (by simp)
              | ok s2 =>
                rw [hcb] at h
                simp only [] at h
                obtain ⟨-, -, h3⟩ := ok3 h
                rw [← h3]
                have he := (runCb_pres cb stP { s with stack := rest }).1 s2 hcb
                refine ⟨he.1, fun hlast => ?_⟩
                obtain ⟨-, l, hl⟩ := he
                rw [hl]
                exact getLast_app l rest (getLast_tail hlast (by simp))
            | q :: qs =>
              simp only [] at h
              obtain ⟨-, -, h3⟩ := ok3 h
              rw [← h3]
              refine ⟨⟨[], by simp [pushTok]⟩, fun hlast => ?_⟩
              exact getLast_app [Tok.seq (q :: qs) cb] rest
                (getLast_tail hlast (by simp))
      · intro hlast hc
        match pats with
        | [] => exact absurd hc (by unfold runStack; simp)
        | (p, sty) :: ps =>
          unfold runStack at hc
          simp only [] at hc
          cases hp : matchPat p st with
          | none =>
            rw [hp] at hc
            simp at hc
          | some stP =>
            rw [hp] at hc
            simp only [] at hc
            match ps with
            | [] =>
              simp only [] at hc
              cases hcb : runCb cb stP { s with stack := rest } with
              | error e =>
                rw [hcb] at hc
                simp only [] at hc
                rw [Except.error.inj hc] at hcb
                exact (runCb_pres cb stP { s with stack := rest }).2 hcb
              | ok s2 =>
                rw [hcb] at hc
                simp at hc
            | q :: qs =>
              simp at hc
    | andMark close closeStyle abandon inner =>
      constructor
      · intro r st' s' h
        unfold runStack at h
        simp only [] at h
        cases hbl : st.matchBlankLine with
        | mk b st1 =>
          rw [hbl] at h
          cases b with
          | true =>
            simp only [] at h
            have hrec := (ih st1 { abandonMark s with stack := rest } rfl).1
              r st' s' h
            exact ⟨hrec.1, fun hlast =>
              hrec.2 (getLast_tail hlast (by simp))⟩
          | false =>
            simp only [] at h
            split at h
            · have hrec := (ih st1 { abandonMark s with stack := rest } rfl).1
                r st' s' h
              exact ⟨hrec.1, fun hlast =>
                hrec.2 (getLast_tail hlast (by simp))⟩
            · cases hcl : st1.matchStr close with
              | some st2 =>
                rw [hcl] at h
                simp only [] at h
                cases hcm : closeMarkE st2 { s with stack := rest }
                    (startPos st2 s) with
                | error e =>
                  rw [hcm] at h
                  simp only [] at h
                  exact absurd h (by simp)
                | ok v =>
                  obtain ⟨s2, m⟩ := v
                  rw [hcm] at h
                  simp only [] at h
                  obtain ⟨-, -, h3⟩ := ok3 h
                  rw [← h3]
                  unfold closeMarkE at hcm
                  simp only [] at hcm
                  cases hom : s.openMarks with
                  | nil =>
                    rw [hom] at hcm
                    exact absurd hcm (by simp)
                  | cons om ros =>
                    rw [hom] at hcm
                    simp only [] at hcm
                    have hpair := Except.ok.inj hcm
                    have h1 : s2 = (⟨rest, s.line, ros, s.marks ++
                        [mkClosed st2 { s with stack := rest }
                          (startPos st2 s) om ros], s.nextId⟩ : St) :=
                      (congrArg Prod.fst hpair).symm
                    rw [h1]
                    exact ⟨⟨_, rfl⟩, fun hlast =>
                      getLast_tail hlast (by simp)⟩
              | none =>
                rw [hcl] at h
                simp only [] at h
                have he := (mpres_runITok inner st1 s).1 r st' s' h
                exact ⟨he.1, fun hlast => ext_getLast he hstk hlast⟩
      · intro hlast hc
        unfold runStack at hc
        simp only [] at hc
        cases hbl : st.matchBlankLine with
        | mk b st1 =>
          rw [hbl] at hc
          cases b with
          | true =>
            simp only [] at hc
            exact (ih st1 { abandonMark s with stack := rest } rfl).2
              (getLast_tail hlast (by simp)) hc
          | false =>
            simp only [] at hc
            split at hc
            · exact (ih st1 { abandonMark s with stack := rest } rfl).2
                (getLast_tail hlast (by simp)) hc
            · cases hcl : st1.matchStr close with
              | some st2 =>
                rw [hcl] at hc
                simp only [] at hc
                cases hcm : closeMarkE st2 { s with stack := rest }
                    (startPos st2 s) with
                | error e =>
                  rw [hcm] at hc
                  simp only [] at hc
                  rw [Except.error.inj hc] at hcm
                  exact closeMarkE_ne _ _ _ hcm
                | ok v =>
                  rw [hcm] at hc
                  obtain ⟨s2, m⟩ := v
                  simp at hc
              | none =>
                rw [hcl] at hc
                simp only [] at hc
                exact (mpres_runITok inner st1 s).2 hc
    | argClose close closeStyle inner =>
      constructor
      · intro r st' s' h
        unfold runStack at h
        simp only [] at h
        cases hbl : st.matchBlankLine with
        | mk b st1 =>
          rw [hbl] at h
          cases b with
          | true =>
            simp only [] at h
            obtain ⟨-, -, h3⟩ := ok3 h
            rw [← h3]
            exact ⟨⟨[], by simp⟩, fun hlast => getLast_tail hlast (by simp)⟩
          | false =>
            simp only [] at h
            cases hcl : st1.matchStr close with
            | some st2 =>
              rw [hcl] at h
              simp only [] at h
              obtain ⟨-, -, h3⟩ := ok3 h
              rw [← h3]
              exact ⟨⟨[], by simp⟩, fun hlast => getLast_tail hlast (by simp)⟩
            | none =>
              rw [hcl] at h
              simp only [] at h
              have he := (mpres_runITok inner st1 s).1 r st' s' h
              exact ⟨he.1, fun hlast => ext_getLast he hstk hlast⟩
      · intro hlast hc
        unfold runStack at hc
        simp only [] at hc
        cases hbl : st.matchBlankLine with
        | mk b st1 =>
          rw [hbl] at hc
          cases b with
          | true => simp at hc
          | false =>
            simp only [] at hc
            cases hcl : st1.matchStr close with
            | some st2 =>
              rw [hcl] at hc
              simp at hc
            | none =>
              rw [hcl] at hc
              simp only [] at hc
              exact (mpres_runITok inner st1 s).2 hc
    | env cfg =>
      constructor
      · intro r st' s' h
        unfold runStack at h
        simp only [] at h
        cases hA : cfg.allowBlankLines with
        | true =>
          rw [hA] at h
          simp only [if_true] at h
          have := ((runEnvTail_main cfg st s rest hstk).1 r st' s' h)
          exact ⟨this.1, this.2⟩
        | false =>
          rw [hA] at h
          simp only [Bool.false_eq_true, if_false] at h
          cases hbl : st.matchBlankLine with
          | mk b st1 =>
            rw [hbl] at h
            cases b with
            | true =>
              simp only [] at h
              have hrec := (ih st1 { (if cfg.kind.isSome then abandonMark s
                else s) with stack := rest } rfl).1 r st' s' h
              refine ⟨?_, fun hlast => hrec.2 (getLast_tail hlast (by simp))⟩
              obtain ⟨lm, hlm⟩ := hrec.1
              refine ⟨lm, ?_⟩
              rw [hlm]
              by_cases hik : cfg.kind.isSome
              · rw [if_pos hik]
                rfl
              · rw [if_neg hik]
            | false =>
              simp only [] at h
              have := ((runEnvTail_main cfg st1 s rest hstk).1 r st' s' h)
              exact ⟨this.1, this.2⟩
      · intro hlast hc
        unfold runStack at hc
        simp only [] at hc
        cases hA : cfg.allowBlankLines with
        | true =>
          rw [hA] at hc
          simp only [if_true] at hc
          exact (runEnvTail_main cfg st s rest hstk).2 hc
        | false =>
          rw [hA] at hc
          simp only [Bool.false_eq_true, if_false] at hc
          cases hbl : st.matchBlankLine with
          | mk b st1 =>
            rw [hbl] at hc
            cases b with
            | true =>
              simp only [] at hc
              exact (ih st1 { (if cfg.kind.isSome then abandonMark s
                else s) with stack := rest } rfl).2
                (getLast_tail hlast (by simp)) hc
            | false =>
              simp only [] at hc
              exact (runEnvTail_main cfg st1 s rest hstk).2 hc

theorem matchLineComment_state (st : Stream') (s : St) (r : Option String)
    (st2 : Stream') (s2 : St) (h : matchLineComment st s = .ok (r, st2, s2)) :
    s2 = s := by
  unfold matchLineComment at h
  split at h <;> exact (ok3 h).2.2.symm

theorem matchLineComment_ne (st : Stream') (s : St) (e : String) :
    matchLineComment st s ≠ .error e := by
  unfold matchLineComment
  split <;> simp

theorem lineAdjust_marks (st : Stream') (s : St) :
    (lineAdjust st s).marks = s.marks ∧ (lineAdjust st s).stack = s.stack := by
  unfold lineAdjust
  split <;> exact ⟨rfl, rfl⟩

theorem stack_ne_nil {l : List Tok} (h : l.getLast? = some Tok.topLevel) :
    l ≠ [] := by
  intro he
  rw [he] at h
  simp at h

theorem token_main (st : Stream') (s : St) :
    (∀ r st' s', token st s = .ok (r, st', s') →
      (∃ lm, s'.marks = s.marks ++ lm) ∧
      (s.stack.getLast? = some Tok.topLevel →
        s'.stack.getLast? = some Tok.topLevel)) ∧
    (s.stack.getLast? = some Tok.topLevel →
      token st s ≠ .error "empty stack") := by
  have hS0m : (if st.sol then { s with line := s.line + 1 } else s).marks =
      s.marks := by split <;> rfl
  have hS0k : (if st.sol then { s with line := s.line + 1 } else s).stack =
      s.stack := by split <;> rfl
  constructor
  · intro r st' s' h
    unfold token at h
    simp only [] at h
    cases hlc : matchLineComment st
        (if st.sol then { s with line := s.line + 1 } else s) with
    | error e => exact absurd hlc (matchLineComment_ne _ _ _)
    | ok v =>
      obtain ⟨r1, st1, s1⟩ := v
      have hs1 := matchLineComment_state _ _ _ _ _ hlc
      cases r1 with
      | some rr =>
        rw [hlc] at h
        simp only [] at h
        obtain ⟨-, -, h3⟩ := ok3 h
        rw [← h3]
        refine ⟨⟨[], ?_⟩, fun hlast => ?_⟩
        · rw [(lineAdjust_marks st1 s1).1, hs1, hS0m]
          simp
        · rw [(lineAdjust_marks st1 s1).2, hs1, hS0k]
          exact hlast
      | none =>
        rw [hlc] at h
        simp only [] at h
        cases hrt : runTop st1 s1 with
        | error e =>
          rw [hrt] at h
          simp only [] at h
          exact absurd h (by simp)
        | ok v2 =>
          obtain ⟨r2, st2, s2⟩ := v2
          rw [hrt] at h
          simp only [] at h
          obtain ⟨-, -, h3⟩ := ok3 h
          rw [← h3]
          have hrt' : runStack s1.stack st1 s1 = .ok (r2, st2, s2) := hrt
          have hrec := (runStack_main s1.stack st1 s1 rfl).1 r2 st2 s2 hrt'
          refine ⟨?_, fun hlast => ?_⟩
          · obtain ⟨lm, hlm⟩ := hrec.1
            refine ⟨lm, ?_⟩
            rw [(lineAdjust_marks st2 s2).1, hlm, hs1, hS0m]
          · rw [(lineAdjust_marks st2 s2).2]
            refine hrec.2 ?_
            rw [hs1, hS0k]
            exact hlast
  · intro hlast hc
    unfold token at hc
    simp only [] at hc
    cases hlc : matchLineComment st
        (if st.sol then { s with line := s.line + 1 } else s) with
    | error e => exact absurd hlc (matchLineComment_ne _ _ _)
    | ok v =>
      obtain ⟨r1, st1, s1⟩ := v
      have hs1 := matchLineComment_state _ _ _ _ _ hlc
      cases r1 with
      | some rr =>
        rw [hlc] at hc
        simp at hc
      | none =>
        rw [hlc] at hc
        simp only [] at hc
        cases hrt : runTop st1 s1 with
        | error e =>
          rw [hrt] at hc
          simp only [] at hc
          have hrt' : runStack s1.stack st1 s1 = .error e := hrt
          rw [Except.error.inj hc] at hrt'
          refine (runStack_main s1.stack st1 s1 rfl).2 ?_ hrt'
          rw [hs1, hS0k]
          exact hlast
        | ok v2 =>
          obtain ⟨r2, st2, s2⟩ := v2
          rw [hrt] at hc
          simp at hc

theorem blankLine_main (s : St) :
    (∀ s', blankLineSt s = .ok s' →
      (∃ lm, s'.marks = s.marks ++ lm) ∧
      (s.stack.getLast? = some Tok.topLevel →
        s'.stack.getLast? = some Tok.topLevel)) ∧
    (s.stack.getLast? = some Tok.topLevel →
      blankLineSt s ≠ .error "empty stack") := by
  constructor
  · intro s' h
    unfold blankLineSt at h
    cases ht : token ⟨[], 0, 0⟩ s with
    | error e =>
      rw [ht] at h
      exact absurd h (by simp [Except.map])
    | ok v =>
      obtain ⟨r, st2, s2⟩ := v
      rw [ht] at h
      have hs : s2 = s' := by simpa [Except.map] using h
      rw [← hs]
      exact (token_main ⟨[], 0, 0⟩ s).1 r st2 s2 ht
  · intro hlast hc
    unfold blankLineSt at hc
    cases ht : token ⟨[], 0, 0⟩ s with
    | error e =>
      rw [ht] at hc
      simp only [Except.map] at hc
      rw [Except.error.inj hc] at ht
      exact (token_main ⟨[], 0, 0⟩ s).2 hlast ht
    | ok v =>
      rw [ht] at hc
      simp [Except.map] at hc

/-- C7: starting from `startState`, the sub-tokenizer stack never becomes
empty: the bottom top-level entry is at the bottom initially, every
successful `token` or `blankLine` call keeps it there (so the stack stays
nonempty), and on a state with the top-level entry at the bottom neither
call can return the fatal empty-stack failure, which is therefore
unreachable for every sequence of calls from `startState`. -/
theorem stack_never_empty :
    startState.stack.getLast? = some Tok.topLevel ∧
    (∀ st s r st' s', s.stack.getLast? = some Tok.topLevel →
      token st s = .ok (r, st', s') →
        s'.stack.getLast? = some Tok.topLevel ∧ s'.stack ≠ []) ∧
    (∀ st s, s.stack.getLast? = some Tok.topLevel →
      token st s ≠ .error "empty stack") ∧
    (∀ s s', s.stack.getLast? = some Tok.topLevel → blankLineSt s = .ok s' →
      s'.stack.getLast? = some Tok.topLevel ∧ s'.stack ≠ []) ∧
    (∀ s, s.stack.getLast? = some Tok.topLevel →
      blankLineSt s ≠ .error "empty stack") := by
  refine ⟨rfl, ?_, ?_, ?_, ?_⟩
  · intro st s r st' s' hlast h
    have := ((token_main st s).1 r st' s' h).2 hlast
    exact ⟨this, stack_ne_nil this⟩
  · intro st s hlast
    exact (token_main st s).2 hlast
  · intro s s' hlast h
    have := ((blankLine_main s).1 s' h).2 hlast
    exact ⟨this, stack_ne_nil this⟩
  · intro s hlast
    exact (blankLine_main s).2 hlast

/-- Witness for `stack_never_empty` at a concrete call. -/
theorem stack_never_empty_witness :
    token ⟨"x".data, 0, 0⟩ startState ≠ .error "empty stack" ∧
    (⟨[.topLevel], 0, [], [], 0⟩ : St).stack.getLast? = some Tok.topLevel ∧
    (⟨[.topLevel], 0, [], [], 0⟩ : St).stack ≠ [] :=
  ⟨stack_never_empty.2.2.1 ⟨"x".data, 0, 0⟩ startState rfl,
   (stack_never_empty.2.1 ⟨"x".data, 0, 0⟩ startState none ⟨"x".data, 0, 1⟩
     ⟨[.topLevel], 0, [], [], 0⟩ rfl (by decide)).1,
   (stack_never_empty.2.1 ⟨"x".data, 0, 0⟩ startState none ⟨"x".data, 0, 1⟩
     ⟨[.topLevel], 0, [], [], 0⟩ rfl (by decide)).2⟩

/-- C10: `state.marks` is append-only: every successful `token` or
`blankLine` call leaves the previous closed-mark list as a prefix of the new
one (so previously closed marks are unchanged), and `_abandonMark` only
drops the innermost entry of `openMarks`, never touching `marks`. -/
theorem marks_append_only :
    (∀ st s r st' s', token st s = .ok (r, st', s') →
      s.marks <+: s'.marks) ∧
    (∀ s s', blankLineSt s = .ok s' → s.marks <+: s'.marks) ∧
    (∀ s, (abandonMark s).marks = s.marks ∧
      (abandonMark s).openMarks = s.openMarks.drop 1) := by
  refine ⟨?_, ?_, fun s => ⟨rfl, rfl⟩⟩
  · intro st s r st' s' h
    obtain ⟨lm, hlm⟩ := ((token_main st s).1 r st' s' h).1
    exact ⟨lm, hlm.symm⟩
  · intro s s' h
    obtain ⟨lm, hlm⟩ := ((blankLine_main s).1 s' h).1
    exact ⟨lm, hlm.symm⟩

/-- Witness for `marks_append_only` at a concrete call. -/
theorem marks_append_only_witness :
    startState.marks <+: (⟨[.topLevel], 0, [], [], 0⟩ : St).marks ∧
    (abandonMark startState).marks = startState.marks ∧
    (abandonMark startState).openMarks = startState.openMarks.drop 1 :=
  ⟨marks_append_only.1 ⟨"x".data, 0, 0⟩ startState none ⟨"x".data, 0, 1⟩
     ⟨[.topLevel], 0, [], [], 0⟩ (by decide),
   (marks_append_only.2.2 startState).1,
   (marks_append_only.2.2 startState).2⟩

/-!
## C2 and C8: positional invariants

Every stream operation preserves the line text and token start and only
moves the cursor forward (within the line); `SOK` packages these facts.
-/

def SOK (st st' : Stream') : Prop :=
  st'.str = st.str ∧ st'.start = st.start ∧ st.pos ≤ st'.pos ∧
  (st.pos ≤ st.str.length → st'.pos ≤ st.str.length)

theorem sok_rfl (st : Stream') : SOK st st :=
  ⟨rfl, rfl, Nat.le_refl _, fun h => h⟩

theorem sok_trans {a b c : Stream'} (h1 : SOK a b) (h2 : SOK b c) : SOK a c := by
  obtain ⟨hs1, ht1, hp1, hb1⟩ := h1
  obtain ⟨hs2, ht2, hp2, hb2⟩ := h2
  refine ⟨hs2.trans hs1, ht2.trans ht1, Nat.le_trans hp1 hp2, fun h => ?_⟩
  have := hb2 (by rw [hs1]; exact hb1 h)
  rw [hs1] at this
  exact this

theorem len_takeWhile_rest (st : Stream') (p : Char → Bool)
    (h : st.pos ≤ st.str.length) :
    st.pos + (st.rest.takeWhile p).length ≤ st.str.length := by
  have h1 : (st.rest.takeWhile p).length ≤ st.rest.length :=
    (List.takeWhile_prefix p).length_le
  have h2 : st.rest.length = st.str.length - st.pos := List.length_drop _ _
  omega

theorem sok_next (st : Stream') : SOK st st.next := by
  unfold Stream'.next
  split
  · exact ⟨rfl, rfl, Nat.le_succ _, fun _ => by simp only []; omega⟩
  · exact sok_rfl st

theorem sok_eat {st st' : Stream'} {c : Char} (h : st.eat c = some st') :
    SOK st st' ∧ st.pos < st'.pos := by
  unfold Stream'.eat at h
  split at h
  · next hp =>
    have hlen : st.pos < st.str.length := (List.get?_eq_some.mp hp).1
    injection h with h
    rw [← h]
    exact ⟨⟨rfl, rfl, Nat.le_succ _, fun _ => by simp only []; omega⟩,
      Nat.lt_succ_self _⟩
  · exact absurd h (by simp)

theorem sok_matchStr {st st' : Stream'} {lit : List Char}
    (h : st.matchStr lit = some st') :
    SOK st st' ∧ st'.pos = st.pos + lit.length := by
  unfold Stream'.matchStr at h
  split at h
  · next hp =>
    have hlen : lit.length ≤ st.rest.length :=
      (List.isPrefixOf_iff_prefix.mp hp).length_le
    have h2 : st.rest.length = st.str.length - st.pos := List.length_drop _ _
    injection h with h
    rw [← h]
    exact ⟨⟨rfl, rfl, Nat.le_add_right _ _, fun hb => by simp only []; omega⟩,
      rfl⟩
  · exact absurd h (by simp)

theorem sok_matchStr_pos {st st' : Stream'} {lit : List Char}
    (h : st.matchStr lit = some st') (hne : lit ≠ []) : st.pos < st'.pos := by
  obtain ⟨-, h2⟩ := sok_matchStr h
  have : 0 < lit.length := List.length_pos.mpr hne
  omega

theorem sok_skipToEnd {st : Stream'} (h : st.pos ≤ st.str.length) :
    SOK st st.skipToEnd :=
  ⟨rfl, rfl, h, fun _ => Nat.le_refl _⟩

theorem sok_skipTo {st st' : Stream'} {c : Char} (h : st.skipTo c = some st') :
    SOK st st' := by
  unfold Stream'.skipTo at h
  split at h
  · next i hi =>
    have hlt : i < st.rest.length :=
      (List.findIdx?_eq_some_iff_findIdx_eq.mp hi).1
    have h2 : st.rest.length = st.str.length - st.pos := List.length_drop _ _
    injection h with h
    rw [← h]
    exact ⟨rfl, rfl, Nat.le_add_right _ _, fun hb => by simp only []; omega⟩
  · exact absurd h (by simp)

theorem sok_matchRun {st st' : Stream'} {p : Char → Bool}
    (h : st.matchRun p = some st') : SOK st st' ∧ st.pos < st'.pos := by
  unfold Stream'.matchRun at h
  simp only [] at h
  split at h
  · exact absurd h (by simp)
  · next hne =>
    have hl := len_takeWhile_rest st p
    have hpos : 0 < (st.rest.takeWhile p).length := List.length_pos.mpr hne
    injection h with h
    rw [← h]
    exact ⟨⟨rfl, rfl, Nat.le_add_right _ _, fun hb => by
      simp only []; exact hl hb⟩, by simp only []; omega⟩

theorem sok_matchEnvNameRun {st st' : Stream'}
    (h : st.matchEnvNameRun = some st') : SOK st st' ∧ st.pos < st'.pos := by
  unfold Stream'.matchEnvNameRun at h
  simp only [] at h
  split at h
  · exact absurd h (by simp)
  · next hne =>
    have hl := len_takeWhile_rest st (fun c => ¬ (c = '{' ∨ c = '}'))
    have hpos : 0 < (st.rest.takeWhile
        (fun c => decide ¬ (c = '{' ∨ c = '}'))).length :=
      List.length_pos.mpr hne
    injection h with h
    rw [← h]
    exact ⟨⟨rfl, rfl, Nat.le_add_right _ _, fun hb => by
      simp only []; exact hl hb⟩, by simp only []; omega⟩

theorem sok_matchAllSpaceToEol {st st' : Stream'}
    (h : st.matchAllSpaceToEol = some st') : SOK st st' := by
  unfold Stream'.matchAllSpaceToEol at h
  split at h
  · next hc =>
    have hne : st.rest ≠ [] := hc.1
    have hle : st.pos ≤ st.str.length := by
      by_contra hgt
      exact hne (List.drop_eq_nil_of_le (by omega))
    injection h with h
    rw [← h]
    exact sok_skipToEnd hle
  · exact absurd h (by simp)

theorem sok_matchLitThenSpaces {st st' : Stream'} {lit : List Char}
    (h : st.matchLitThenSpaces lit = some st') :
    SOK st st' ∧ st.pos + lit.length ≤ st'.pos := by
  unfold Stream'.matchLitThenSpaces at h
  cases hm : st.matchStr lit with
  | none => rw [hm] at h; exact absurd h (by simp)
  | some st1 =>
    rw [hm] at h
    simp only [] at h
    obtain ⟨hsok, hlen⟩ := sok_matchStr hm
    injection h with h
    rw [← h]
    have hl := len_takeWhile_rest st1 jsSpace
    refine ⟨sok_trans hsok ⟨rfl, rfl, Nat.le_add_right _ _, fun hb => by
      simp only []; exact hl hb⟩, by simp only []; omega⟩

theorem sok_matchLineCommentStart {st st' : Stream'}
    (h : st.matchLineCommentStart = some st') :
    SOK st st' ∧ st.pos < st'.pos := by
  unfold Stream'.matchLineCommentStart at h
  simp only [] at h
  split at h
  · next hg =>
    have hlt : st.pos + (st.rest.takeWhile jsSpace).length < st.str.length :=
      (List.get?_eq_some.mp hg).1
    injection h with h
    rw [← h]
    exact ⟨⟨rfl, rfl, by simp only []; omega, fun _ => by simp only []; omega⟩,
      by simp only []; omega⟩
  · exact absurd h (by simp)

theorem sok_matchMaketitle {st st' : Stream'}
    (h : st.matchMaketitle = some st') : SOK st st' ∧ st.pos < st'.pos := by
  unfold Stream'.matchMaketitle at h
  cases hm : st.matchStr ('\\' :: "maketitle".data) with
  | none => rw [hm] at h; exact absurd h (by simp)
  | some st1 =>
    rw [hm] at h
    simp only [] at h
    split at h
    · injection h with h
      rw [← h]
      exact ⟨(sok_matchStr hm).1, sok_matchStr_pos hm (by simp)⟩
    · exact absurd h (by simp)

theorem sok_matchItemCmd {st st' : Stream'}
    (h : st.matchItemCmd = some st') : SOK st st' ∧ st.pos < st'.pos := by
  unfold Stream'.matchItemCmd at h
  cases hm : st.matchStr ('\\' :: "item".data) with
  | none => rw [hm] at h; exact absurd h (by simp)
  | some st1 =>
    rw [hm] at h
    simp only [] at h
    have h1 := (sok_matchStr hm).1
    have h2 := sok_matchStr_pos hm (by simp)
    split at h
    · next hpk =>
      have hlen : st1.pos < st1.str.length := (List.get?_eq_some.mp hpk).1
      injection h with h
      rw [← h]
      refine ⟨sok_trans h1 ⟨rfl, rfl, Nat.le_succ _, fun _ => by
        simp only []; omega⟩, by simp only []; omega⟩
    · exact absurd h (by simp)
    · injection h with h
      rw [← h]
      exact ⟨h1, h2⟩

theorem sok_matchVerbCmd {st st' : Stream'} {c : Char}
    (h : st.matchVerbCmd = some (c, st')) : SOK st st' ∧ st.pos < st'.pos := by
  unfold Stream'.matchVerbCmd at h
  cases hm : st.matchStr ('\\' :: "verb".data) with
  | none => rw [hm] at h; exact absurd h (by simp)
  | some st1 =>
    rw [hm] at h
    simp only [] at h
    have h1 := (sok_matchStr hm).1
    have h2 := sok_matchStr_pos hm (by simp)
    split at h
    · next hpk =>
      have hlen : st1.pos < st1.str.length := (List.get?_eq_some.mp hpk).1
      split at h
      · next c2 hpk2 =>
        have hlen2 : st1.pos + 1 < st1.str.length := (List.get?_eq_some.mp hpk2).1
        split at h
        · injection h with h
          injection h with hc hst
          rw [← hst]
          refine ⟨sok_trans h1 ⟨rfl, rfl, Nat.le_succ _, fun _ => by
            simp only []; omega⟩, by simp only []; omega⟩
        · injection h with h
          injection h with hc hst
          rw [← hst]
          refine ⟨sok_trans h1 ⟨rfl, rfl, by simp only []; omega, fun _ => by
            simp only []; omega⟩, by simp only []; omega⟩
      · injection h with h
        injection h with hc hst
        rw [← hst]
        refine ⟨sok_trans h1 ⟨rfl, rfl, Nat.le_succ _, fun _ => by
          simp only []; omega⟩, by simp only []; omega⟩
    · next c2 hpk2 =>
      split at h
      · exact absurd h (by simp)
      · have hlen2 := (List.get?_eq_some.mp hpk2).1
        injection h with h
        injection h with hc hst
        rw [← hst]
        refine ⟨sok_trans h1 ⟨rfl, rfl, Nat.le_succ _,
          fun _ => by simp only []; omega⟩, ?_⟩
        simp only []
        omega
    · exact absurd h (by simp)

theorem sok_matchBackslashCmd {st st' : Stream'}
    (h : st.matchBackslashCmd = some st') : SOK st st' ∧ st.pos < st'.pos := by
  unfold Stream'.matchBackslashCmd at h
  cases hm : st.matchStr ['\\'] with
  | none => rw [hm] at h; exact absurd h (by simp)
  | some st1 =>
    rw [hm] at h
    simp only [] at h
    have h1 := (sok_matchStr hm).1
    have h2 := sok_matchStr_pos hm (by simp)
    split at h
    · next c2 hpk =>
      have hlen := (List.get?_eq_some.mp hpk).1
      split at h
      · injection h with h
        rw [← h]
        have hl := len_takeWhile_rest st1 isAsciiLetter
        refine ⟨sok_trans h1 ⟨rfl, rfl, Nat.le_add_right _ _, fun hb => by
          simp only []; exact hl hb⟩, by simp only []; omega⟩
      · injection h with h
        rw [← h]
        refine ⟨sok_trans h1 ⟨rfl, rfl, Nat.le_succ _, fun _ => by
          simp only []; omega⟩, by simp only []; omega⟩
    · exact absurd h (by simp)

theorem sok_matchNumber {st st' : Stream'}
    (h : st.matchNumber = some st') : SOK st st' := by
  unfold Stream'.matchNumber at h
  simp only [] at h
  split at h
  · next hc =>
    have hdot : st.str.get? (st.pos + (st.rest.takeWhile isDigit).length) =
        some '.' := hc.2
    have hlt := (List.get?_eq_some.mp hdot).1
    have hd2 : ((st.str.drop (st.pos + (st.rest.takeWhile isDigit).length +
        1)).takeWhile isDigit).length ≤ st.str.length -
        (st.pos + (st.rest.takeWhile isDigit).length + 1) := by
      have := (List.takeWhile_prefix (l := st.str.drop
        (st.pos + (st.rest.takeWhile isDigit).length + 1)) isDigit).length_le
      have h2 := List.length_drop (st.pos +
        (st.rest.takeWhile isDigit).length + 1) st.str
      omega
    injection h with h
    rw [← h]
    exact ⟨rfl, rfl, by simp only []; omega, fun hb => by simp only []; omega⟩
  · split at h
    · next hc =>
      have hdot := hc.1
      have hlt := (List.get?_eq_some.mp hdot).1
      have hd2 : ((st.str.drop (st.pos + (st.rest.takeWhile isDigit).length +
          1)).takeWhile isDigit).length ≤ st.str.length -
          (st.pos + (st.rest.takeWhile isDigit).length + 1) := by
        have := (List.takeWhile_prefix (l := st.str.drop
          (st.pos + (st.rest.takeWhile isDigit).length + 1)) isDigit).length_le
        have h2 := List.length_drop (st.pos +
          (st.rest.takeWhile isDigit).length + 1) st.str
        omega
      injection h with h
      rw [← h]
      exact ⟨rfl, rfl, by simp only []; omega, fun hb => by simp only []; omega⟩
    · split at h
      · have hl := len_takeWhile_rest st isDigit
        injection h with h
        rw [← h]
        exact ⟨rfl, rfl, Nat.le_add_right _ _, fun hb => by
          simp only []; exact hl hb⟩
      · exact absurd h (by simp)

theorem sok_matchBlankLine (st : Stream') :
    SOK st (st.matchBlankLine).2 := by
  unfold Stream'.matchBlankLine
  split
  · split
    · exact sok_rfl st
    · cases hm : st.matchAllSpaceToEol with
      | some st1 =>
        simp only []
        exact sok_matchAllSpaceToEol hm
      | none =>
        simp only []
        exact sok_rfl st
  · exact sok_rfl st

/-- Positional constraints on data stored inside a sequence callback. -/
def CbPos (p : Pos) : Cb → Prop
  | .envBegin _ (some mp) => mp ≤ p
  | .envEnd _ (some cp) => cp ≤ p
  | _ => True

/-- Positional constraints on data stored inside a stack entry. -/
def TokPos (p : Pos) : Tok → Prop
  | .deferReqArgMark _ op => op ≤ p
  | .deferOptArgMark _ op => op ≤ p
  | .seq _ cb => CbPos p cb
  | .andMark close _ _ _ => close ≠ []
  | _ => True

/-- The close position of a pending marked environment-end sequence. -/
def tokEE : Tok → Option Pos
  | .seq _ (.envEnd true (some cp)) => some cp
  | _ => none

/-- No pending marked environment-end sequence among the entries. -/
def noEE (l : List Tok) : Prop := ∀ t ∈ l, tokEE t = none

/-- The basic positional invariant relative to the frontier position `p`:
all closed marks are well formed, close in weakly ascending order and lie
before `p`; open marks are ordered and before `p`; stored stack positions
are before `p`; no marked end sequence is pending. -/
def BInv (s : St) (p : Pos) : Prop :=
  (∀ m ∈ s.marks, markOK m) ∧
  List.Chain' mle s.marks ∧
  (∀ m ∈ s.marks, m.to_ ≤ p) ∧
  (∀ om ∈ s.openMarks, om.from_ ≤ om.contentFrom ∧ om.contentFrom ≤ p) ∧
  (∀ t ∈ s.stack, TokPos p t) ∧
  noEE s.stack

/-- The full state invariant: like `BInv`, but a marked environment-end
sequence may be pending at the top of the stack, in which case everything
closed or open predates its stored close position. -/
def StInv (s : St) (p : Pos) : Prop :=
  (∀ m ∈ s.marks, markOK m) ∧
  List.Chain' mle s.marks ∧
  (∀ m ∈ s.marks, m.to_ ≤ p) ∧
  (∀ om ∈ s.openMarks, om.from_ ≤ om.contentFrom ∧ om.contentFrom ≤ p) ∧
  (∀ t ∈ s.stack, TokPos p t) ∧
  noEE s.stack.tail ∧
  (∀ pats cp, s.stack.head? = some (.seq pats (.envEnd true (some cp))) →
    (∀ m ∈ s.marks, m.to_ ≤ cp) ∧ (∀ om ∈ s.openMarks, om.contentFrom ≤ cp))

theorem cbpos_mono {p p' : Pos} (h : p ≤ p') (cb : Cb) (hc : CbPos p cb) :
    CbPos p' cb := by
  cases cb with
  | envBegin cfg mop =>
    cases mop with
    | some mp => exact Pos.le_trans hc h
    | none => trivial
  | envEnd hm mcp =>
    cases mcp with
    | some cp => exact Pos.le_trans hc h
    | none => trivial
  | noop => trivial
  | endDoc => trivial

theorem tokpos_mono {p p' : Pos} (h : p ≤ p') (t : Tok) (ht : TokPos p t) :
    TokPos p' t := by
  cases t with
  | deferReqArgMark k op => exact Pos.le_trans ht h
  | deferOptArgMark k op => exact Pos.le_trans ht h
  | seq pats cb => exact cbpos_mono h cb ht
  | andMark c cs ab inn => exact ht
  | _ => trivial

theorem binv_mono {s : St} {p p' : Pos} (h : BInv s p) (hp : p ≤ p') :
    BInv s p' := by
  obtain ⟨h1, h2, h3, h4, h5, h6⟩ := h
  exact ⟨h1, h2, fun m hm => Pos.le_trans (h3 m hm) hp,
    fun om hom => ⟨(h4 om hom).1, Pos.le_trans (h4 om hom).2 hp⟩,
    fun t ht => tokpos_mono hp t (h5 t ht), h6⟩

theorem stinv_mono {s : St} {p p' : Pos} (h : StInv s p) (hp : p ≤ p') :
    StInv s p' := by
  obtain ⟨h1, h2, h3, h4, h5, h6, h7⟩ := h
  exact ⟨h1, h2, fun m hm => Pos.le_trans (h3 m hm) hp,
    fun om hom => ⟨(h4 om hom).1, Pos.le_trans (h4 om hom).2 hp⟩,
    fun t ht => tokpos_mono hp t (h5 t ht), h6, h7⟩

theorem stinv_of_binv {s : St} {p : Pos} (h : BInv s p) : StInv s p := by
  obtain ⟨h1, h2, h3, h4, h5, h6⟩ := h
  refine ⟨h1, h2, h3, h4, h5, fun t ht => h6 t (List.mem_of_mem_tail ht),
    fun pats cp hh => ?_⟩
  exfalso
  have : Tok.seq pats (.envEnd true (some cp)) ∈ s.stack := by
    cases hs : s.stack with
    | nil => rw [hs] at hh; simp at hh
    | cons a l =>
      rw [hs] at hh
      simp at hh
      rw [← hh]
      exact List.mem_cons_self a l
  have := h6 _ this
  simp [tokEE] at this

theorem noEE_cons {t : Tok} {l : List Tok} (h1 : tokEE t = none)
    (h2 : noEE l) : noEE (t :: l) := by
  intro x hx
  cases hx with
  | head => exact h1
  | tail _ hx => exact h2 x hx

theorem binv_of_stinv {s : St} {p : Pos} (h : StInv s p) (hee : noEE s.stack) :
    BInv s p :=
  ⟨h.1, h.2.1, h.2.2.1, h.2.2.2.1, h.2.2.2.2.1, hee⟩

theorem stinv_noEE_head {s : St} {p : Pos} {t : Tok} {rest : List Tok}
    (h : StInv s p) (hs : s.stack = t :: rest) (ht : tokEE t = none) :
    noEE s.stack := by
  rw [hs]
  refine noEE_cons ht ?_
  have := h.2.2.2.2.2.1
  rw [hs] at this
  exact this

theorem binv_pop {s : St} {p : Pos} {t : Tok} {rest : List Tok}
    (h : StInv s p) (hs : s.stack = t :: rest) :
    BInv { s with stack := rest } p := by
  obtain ⟨h1, h2, h3, h4, h5, h6, h7⟩ := h
  rw [hs] at h5 h6
  exact ⟨h1, h2, h3, h4, fun x hx => h5 x (List.mem_cons_of_mem t hx), h6⟩

theorem binv_push {s : St} {p : Pos} {t : Tok} (h : BInv s p)
    (ht : TokPos p t) (hee : tokEE t = none) : BInv (pushTok s t) p := by
  obtain ⟨h1, h2, h3, h4, h5, h6⟩ := h
  refine ⟨h1, h2, h3, h4, fun x hx => ?_, noEE_cons hee h6⟩
  cases hx with
  | head => exact ht
  | tail _ hx => exact h5 x hx

theorem binv_openMark {s : St} {p : Pos} {st : Stream'} {k : String}
    {op : Pos} (h : BInv s p) (hop : op ≤ ⟨s.line, st.pos⟩)
    (hcur : (⟨s.line, st.pos⟩ : Pos) ≤ p) : BInv (openMark st s k op) p := by
  obtain ⟨h1, h2, h3, h4, h5, h6⟩ := h
  refine ⟨h1, h2, h3, fun om hom => ?_, h5, h6⟩
  cases hom with
  | head => exact ⟨hop, hcur⟩
  | tail _ hom => exact h4 om hom

theorem binv_abandon {s : St} {p : Pos} (h : BInv s p) :
    BInv (abandonMark s) p := by
  obtain ⟨h1, h2, h3, h4, h5, h6⟩ := h
  exact ⟨h1, h2, h3, fun om hom => h4 om (List.mem_of_mem_drop hom), h5, h6⟩

theorem binv_setOpen {s : St} {p : Pos} (f : Checked → Checked)
    (h : BInv s p) : BInv (setOpenChecked s f) p := by
  obtain ⟨h1, h2, h3, h4, h5, h6⟩ := h
  unfold setOpenChecked
  cases hom : s.openMarks with
  | nil => exact ⟨h1, h2, h3, h4, h5, h6⟩
  | cons om ros =>
    rw [hom] at h4
    refine ⟨h1, h2, h3, fun x hx => ?_, h5, h6⟩
    cases hx with
    | head => exact h4 om (List.mem_cons_self om ros)
    | tail _ hx => exact h4 x (List.mem_cons_of_mem om hx)

theorem chain_concat {l : List CMark} {m : CMark}
    (hl : List.Chain' mle l) (hok : ∀ x ∈ l, markOK x) (hm : markOK m)
    (hlast : ∀ x ∈ l, x.to_ ≤ m.contentTo) :
    List.Chain' mle (l ++ [m]) := by
  refine List.Chain'.append hl (List.chain'_singleton m) ?_
  intro x hx y hy
  simp at hy
  rw [← hy]
  have hxl : x ∈ l := List.mem_of_mem_getLast? hx
  refine ⟨Pos.le_trans (hlast x hxl) hm.2.2.2, ?_⟩
  exact Pos.le_trans (hok x hxl).2.2.2 (hlast x hxl)

theorem binv_close {s : St} {p : Pos} {m : CMark} (h : BInv s p)
    (hm : markOK m) (hto : m.to_ ≤ p)
    (hlast : ∀ x ∈ s.marks, x.to_ ≤ m.contentTo) :
    BInv { s with marks := s.marks ++ [m] } p := by
  obtain ⟨h1, h2, h3, h4, h5, h6⟩ := h
  refine ⟨fun x hx => ?_, chain_concat h2 h1 hm hlast, fun x hx => ?_,
    h4, h5, h6⟩
  · rcases List.mem_append.mp hx with hx | hx
    · exact h1 x hx
    · rw [List.mem_singleton.mp hx]
      exact hm
  · rcases List.mem_append.mp hx with hx | hx
    · exact h3 x hx
    · rw [List.mem_singleton.mp hx]
      exact hto

/-- Per-matcher invariant preservation: on success the stream only advances
(`SOK`), the line is untouched, the positional invariant holds at the new
cursor, and a style-less result leaves the state unchanged. -/
def PInv (f : Stream' → St → MRes) : Prop :=
  ∀ st s r st' s', f st s = .ok (r, st', s') →
    st.start ≤ st.pos → st.pos ≤ st.str.length →
    BInv s ⟨s.line, st.start⟩ →
    SOK st st' ∧ s'.line = s.line ∧ BInv s' ⟨s.line, st'.pos⟩ ∧
    (r = none → s' = s)

theorem frontier_le {st st' : Stream'} {L : Int} (hsp : st.start ≤ st.pos)
    (hsok : SOK st st') : (⟨L, st.start⟩ : Pos) ≤ ⟨L, st'.pos⟩ :=
  Pos.le_of_le_ch (Nat.le_trans hsp hsok.2.2.1)

theorem pinv_of_sok {st st' : Stream'} {s : St} (hsok : SOK st st')
    (hsp : st.start ≤ st.pos) (hb : BInv s ⟨s.line, st.start⟩) :
    SOK st st' ∧ s.line = s.line ∧ BInv s ⟨s.line, st'.pos⟩ ∧
    (True → s = s) :=
  ⟨hsok, rfl, binv_mono hb (frontier_le hsp hsok), fun _ => rfl⟩

theorem pinv_matchLineComment : PInv matchLineComment := by
  intro st s r st' s' h hsp hpl hb
  unfold matchLineComment at h
  split at h
  · next st1 heq =>
    obtain ⟨h1, h2, h3⟩ := ok3 h
    obtain ⟨hsok1, -⟩ := sok_matchLineCommentStart heq
    have hb1 : st1.pos ≤ st1.str.length := by
      rw [hsok1.1]
      exact hsok1.2.2.2 hpl
    have hsok := sok_trans hsok1 (sok_skipToEnd hb1)
    rw [← h2, ← h3]
    exact ⟨hsok, rfl, binv_mono hb (frontier_le hsp hsok),
      fun hr => absurd (h1.trans hr) (by simp)⟩
  · obtain ⟨-, h2, h3⟩ := ok3 h
    rw [← h2, ← h3]
    exact ⟨sok_rfl st, rfl, binv_mono hb (Pos.le_of_le_ch hsp), fun _ => rfl⟩

theorem pinv_matchOther : PInv matchOther := by
  intro st s r st' s' h hsp hpl hb
  unfold matchOther at h
  split at h
  · next c hpk =>
    split at h
    · have hlen : st.pos < st.str.length := (List.get?_eq_some.mp hpk).1
      obtain ⟨h1, h2, h3⟩ := ok3 h
      rw [← h2, ← h3]
      have hsok : SOK st { st with pos := st.pos + 1 } :=
        ⟨rfl, rfl, Nat.le_succ _, fun _ => by simp only []; omega⟩
      exact ⟨hsok, rfl, binv_mono hb (frontier_le hsp hsok),
        fun hr => absurd (h1.trans hr) (by simp)⟩
    · split at h
      · next st1 heq =>
        obtain ⟨h1, h2, h3⟩ := ok3 h
        rw [← h2, ← h3]
        have hsok := (sok_matchRun heq).1
        exact ⟨hsok, rfl, binv_mono hb (frontier_le hsp hsok),
          fun hr => absurd (h1.trans hr) (by simp)⟩
      · split at h
        · next st1 heq =>
          obtain ⟨h1, h2, h3⟩ := ok3 h
          rw [← h2, ← h3]
          have hsok := (sok_matchRun heq).1
          exact ⟨hsok, rfl, binv_mono hb (frontier_le hsp hsok), fun _ => rfl⟩
        · obtain ⟨h1, h2, h3⟩ := ok3 h
          rw [← h2, ← h3]
          have hsok := sok_next st
          exact ⟨hsok, rfl, binv_mono hb (frontier_le hsp hsok), fun _ => rfl⟩
  · obtain ⟨-, h2, h3⟩ := ok3 h
    rw [← h2, ← h3]
    exact ⟨sok_rfl st, rfl, binv_mono hb (Pos.le_of_le_ch hsp), fun _ => rfl⟩

theorem pinv_matchOtherCommand : PInv matchOtherCommand := by
  intro st s r st' s' h hsp hpl hb
  unfold matchOtherCommand at h
  split at h
  · next st1 heq =>
    obtain ⟨h1, h2, h3⟩ := ok3 h
    rw [← h2, ← h3]
    have hsok := (sok_matchBackslashCmd heq).1
    exact ⟨hsok, rfl, binv_mono hb (frontier_le hsp hsok),
      fun hr => absurd (h1.trans hr) (by simp)⟩
  · obtain ⟨h1, h2, h3⟩ := ok3 h
    rw [← h2, ← h3]
    exact ⟨sok_rfl st, rfl, binv_mono hb (Pos.le_of_le_ch hsp), fun _ => rfl⟩

theorem pinv_matchVerbCommand : PInv matchVerbCommand := by
  intro st s r st' s' h hsp hpl hb
  unfold matchVerbCommand at h
  split at h
  · next c st1 heq =>
    obtain ⟨h1, h2, h3⟩ := ok3 h
    rw [← h2, ← h3]
    have hsok := (sok_matchVerbCmd heq).1
    exact ⟨hsok, rfl, binv_push (binv_mono hb (frontier_le hsp hsok))
      trivial rfl, fun hr => absurd (h1.trans hr) (by simp)⟩
  · obtain ⟨h1, h2, h3⟩ := ok3 h
    rw [← h2, ← h3]
    exact ⟨sok_rfl st, rfl, binv_mono hb (Pos.le_of_le_ch hsp), fun _ => rfl⟩

theorem pinv_matchVerbatimEnvironment : PInv matchVerbatimEnvironment := by
  intro st s r st' s' h hsp hpl hb
  unfold matchVerbatimEnvironment at h
  split at h
  · next st1 heq =>
    obtain ⟨h1, h2, h3⟩ := ok3 h
    rw [← h2, ← h3]
    have hsok := (sok_matchRun heq).1
    exact ⟨hsok, rfl, binv_mono hb (frontier_le hsp hsok),
      fun hr => absurd (h1.trans hr) (by simp)⟩
  · obtain ⟨h1, h2, h3⟩ := ok3 h
    rw [← h2, ← h3]
    have hsok := sok_next st
    exact ⟨hsok, rfl, binv_mono hb (frontier_le hsp hsok),
      fun hr => absurd (h1.trans hr) (by simp)⟩

theorem pinv_matchCommentEnvironment : PInv matchCommentEnvironment := by
  intro st s r st' s' h hsp hpl hb
  unfold matchCommentEnvironment at h
  split at h
  · next st1 heq =>
    obtain ⟨h1, h2, h3⟩ := ok3 h
    rw [← h2, ← h3]
    have hsok := (sok_matchRun heq).1
    exact ⟨hsok, rfl, binv_mono hb (frontier_le hsp hsok),
      fun hr => absurd (h1.trans hr) (by simp)⟩
  · obtain ⟨h1, h2, h3⟩ := ok3 h
    rw [← h2, ← h3]
    have hsok := sok_next st
    exact ⟨hsok, rfl, binv_mono hb (frontier_le hsp hsok),
      fun hr => absurd (h1.trans hr) (by simp)⟩

theorem pinv_matchGroup : PInv matchGroup := by
  intro st s r st' s' h hsp hpl hb
  unfold matchGroup at h
  split at h
  · next st1 heq =>
    obtain ⟨h1, h2, h3⟩ := ok3 h
    rw [← h2, ← h3]
    have hsok := (sok_eat heq).1
    exact ⟨hsok, rfl, binv_push (binv_mono hb (frontier_le hsp hsok))
      trivial rfl, fun hr => absurd (h1.trans hr) (by simp)⟩
  · obtain ⟨h1, h2, h3⟩ := ok3 h
    rw [← h2, ← h3]
    exact ⟨sok_rfl st, rfl, binv_mono hb (Pos.le_of_le_ch hsp), fun _ => rfl⟩

theorem pinv_matchAndMark (kind : String) (openPos : Pos)
    (openLit : List Char) (openStyle : String) (close : List Char)
    (closeStyle : String) (abandon : List (List Char)) (inner : ITok) :
    ∀ st s r st' s',
    matchAndMark kind openPos openLit openStyle close closeStyle abandon
      inner st s = .ok (r, st', s') →
    st.start ≤ st.pos → st.pos ≤ st.str.length →
    BInv s ⟨s.line, st.start⟩ →
    openPos ≤ (⟨s.line, st.start⟩ : Pos) → close ≠ [] →
    SOK st st' ∧ s'.line = s.line ∧ BInv s' ⟨s.line, st'.pos⟩ ∧
    (r = none → s' = s) := by
  intro st s r st' s' h hsp hpl hb hop hcl
  unfold matchAndMark at h
  split at h
  · next st1 heq =>
    obtain ⟨h1, h2, h3⟩ := ok3 h
    rw [← h2, ← h3]
    have hsok := (sok_matchStr heq).1
    refine ⟨hsok, rfl, ?_, fun hr => absurd (h1.trans hr) (by simp)⟩
    refine binv_push ?_ hcl rfl
    refine binv_openMark (binv_mono hb (frontier_le hsp hsok)) ?_
      (Pos.le_refl _)
    exact Pos.le_trans hop (Pos.le_of_le_ch (Nat.le_trans hsp hsok.2.2.1))
  · obtain ⟨h1, h2, h3⟩ := ok3 h
    rw [← h2, ← h3]
    exact ⟨sok_rfl st, rfl, binv_mono hb (Pos.le_of_le_ch hsp), fun _ => rfl⟩

theorem pinv_matchArgument (openLit : List Char) (openStyle : String)
    (close : List Char) (closeStyle : String) (inner : ITok) :
    PInv (matchArgument openLit openStyle close closeStyle inner) := by
  intro st s r st' s' h hsp hpl hb
  unfold matchArgument at h
  split at h
  · next st1 heq =>
    obtain ⟨h1, h2, h3⟩ := ok3 h
    rw [← h2, ← h3]
    have hsok := (sok_matchStr heq).1
    exact ⟨hsok, rfl, binv_push (binv_mono hb (frontier_le hsp hsok))
      trivial rfl, fun hr => absurd (h1.trans hr) (by simp)⟩
  · obtain ⟨h1, h2, h3⟩ := ok3 h
    rw [← h2, ← h3]
    exact ⟨sok_rfl st, rfl, binv_mono hb (Pos.le_of_le_ch hsp), fun _ => rfl⟩

theorem pinv_matchCommandWithArgument (lit : List Char) (kind : String) :
    PInv (matchCommandWithArgument lit kind) := by
  intro st s r st' s' h hsp hpl hb
  unfold matchCommandWithArgument at h
  split at h
  · split at h
    · next st1 heq =>
      obtain ⟨h1, h2, h3⟩ := ok3 h
      rw [← h2, ← h3]
      have hsok := (sok_matchLitThenSpaces heq).1
      refine ⟨hsok, rfl, ?_, fun hr => absurd (h1.trans hr) (by simp)⟩
      refine binv_push (binv_mono hb (frontier_le hsp hsok)) ?_ rfl
      show (⟨s.line, st1.start⟩ : Pos) ≤ ⟨s.line, st1.pos⟩
      rw [hsok.2.1]
      exact Pos.le_of_le_ch (Nat.le_trans hsp hsok.2.2.1)
    · obtain ⟨h1, h2, h3⟩ := ok3 h
      rw [← h2, ← h3]
      exact ⟨sok_rfl st, rfl, binv_mono hb (Pos.le_of_le_ch hsp),
        fun _ => rfl⟩
  · obtain ⟨h1, h2, h3⟩ := ok3 h
    rw [← h2, ← h3]
    exact ⟨sok_rfl st, rfl, binv_mono hb (Pos.le_of_le_ch hsp), fun _ => rfl⟩

theorem pinv_matchTitleCommand : PInv matchTitleCommand := by
  intro st s r st' s' h hsp hpl hb
  unfold matchTitleCommand at h
  split at h
  · split at h
    · next st1 heq =>
      obtain ⟨h1, h2, h3⟩ := ok3 h
      rw [← h2, ← h3]
      have hsok := (sok_matchStr heq).1
      refine ⟨hsok, rfl, ?_, fun hr => absurd (h1.trans hr) (by simp)⟩
      refine binv_push (binv_push (binv_mono hb (frontier_le hsp hsok))
        ?_ rfl) trivial rfl
      show (⟨s.line, st1.start⟩ : Pos) ≤ ⟨s.line, st1.pos⟩
      rw [hsok.2.1]
      exact Pos.le_of_le_ch (Nat.le_trans hsp hsok.2.2.1)
    · obtain ⟨-, h2, h3⟩ := ok3 h
      rw [← h2, ← h3]
      exact ⟨sok_rfl st, rfl, binv_mono hb (Pos.le_of_le_ch hsp),
        fun _ => rfl⟩
  · obtain ⟨-, h2, h3⟩ := ok3 h
    rw [← h2, ← h3]
    exact ⟨sok_rfl st, rfl, binv_mono hb (Pos.le_of_le_ch hsp), fun _ => rfl⟩

theorem pinv_matchIncludeGraphics : PInv matchIncludeGraphics := by
  intro st s r st' s' h hsp hpl hb
  unfold matchIncludeGraphics at h
  split at h
  · split at h
    · next st1 heq =>
      obtain ⟨h1, h2, h3⟩ := ok3 h
      rw [← h2, ← h3]
      have hsok := (sok_matchLitThenSpaces heq).1
      have hople : (⟨s.line, st1.start⟩ : Pos) ≤ ⟨s.line, st1.pos⟩ := by
        rw [hsok.2.1]
        exact Pos.le_of_le_ch (Nat.le_trans hsp hsok.2.2.1)
      refine ⟨hsok, rfl, ?_, fun hr => absurd (h1.trans hr) (by simp)⟩
      exact binv_push (binv_push (binv_mono hb (frontier_le hsp hsok))
        hople rfl) hople rfl
    · obtain ⟨-, h2, h3⟩ := ok3 h
      rw [← h2, ← h3]
      exact ⟨sok_rfl st, rfl, binv_mono hb (Pos.le_of_le_ch hsp),
        fun _ => rfl⟩
  · obtain ⟨-, h2, h3⟩ := ok3 h
    rw [← h2, ← h3]
    exact ⟨sok_rfl st, rfl, binv_mono hb (Pos.le_of_le_ch hsp), fun _ => rfl⟩

theorem pinv_matchCommandMaketitle :
    PInv (matchCommand Stream'.matchMaketitle "maketitle") := by
  intro st s r st' s' h hsp hpl hb
  unfold matchCommand at h
  split at h
  · next st1 heq =>
    simp only [openThenClose, closeTop, mkClosed, startPos, currentPos] at h
    obtain ⟨h1, h2, h3⟩ := ok3 h
    rw [← h2, ← h3]
    obtain ⟨hsok, hlt⟩ := sok_matchMaketitle heq
    have hst : st1.start = st.start := hsok.2.1
    have hlt2 : st.start < st1.pos := Nat.lt_of_le_of_lt hsp hlt
    refine ⟨hsok, rfl, ?_, fun hr => absurd (h1.trans hr) (by simp)⟩
    refine binv_close (binv_mono hb (frontier_le hsp hsok)) ?_ ?_ ?_
    · refine ⟨?_, ?_, ?_, ?_⟩
      · show (⟨s.line, st1.start⟩ : Pos) < ⟨s.line, st1.pos⟩
        rw [hst]
        exact Pos.lt_of_lt_ch hlt2
      · show (⟨s.line, st1.start⟩ : Pos) ≤ ⟨s.line, st1.pos⟩
        rw [hst]
        exact Pos.le_of_le_ch (Nat.le_of_lt hlt2)
      · intro hk
        exact absurd rfl hk
      · show (⟨s.line, st1.start⟩ : Pos) ≤ ⟨s.line, st1.pos⟩
        rw [hst]
        exact Pos.le_of_le_ch (Nat.le_of_lt hlt2)
    · exact Pos.le_refl _
    · intro x hx
      show x.to_ ≤ ⟨s.line, st1.start⟩
      rw [hst]
      exact hb.2.2.1 x hx
  · obtain ⟨-, h2, h3⟩ := ok3 h
    rw [← h2, ← h3]
    exact ⟨sok_rfl st, rfl, binv_mono hb (Pos.le_of_le_ch hsp), fun _ => rfl⟩

theorem pinv_matchItemCommand : PInv matchItemCommand := by
  intro st s r st' s' h hsp hpl hb
  cases hsol : st.sol with
  | false =>
    unfold matchItemCommand at h
    rw [hsol] at h
    simp only [Bool.false_eq_true, if_false] at h
    obtain ⟨-, h2, h3⟩ := ok3 h
    rw [← h2, ← h3]
    exact ⟨sok_rfl st, rfl, binv_mono hb (Pos.le_of_le_ch hsp), fun _ => rfl⟩
  | true =>
    cases hcmd : st.matchItemCmd with
    | none =>
      unfold matchItemCommand at h
      rw [hsol] at h
      simp only [if_true] at h
      rw [hcmd] at h
      simp only [] at h
      obtain ⟨-, h2, h3⟩ := ok3 h
      rw [← h2, ← h3]
      exact ⟨sok_rfl st, rfl, binv_mono hb (Pos.le_of_le_ch hsp),
        fun _ => rfl⟩
    | some stM =>
      obtain ⟨hsok, hlt⟩ := sok_matchItemCmd hcmd
      have hst : stM.start = st.start := hsok.2.1
      have hlt2 : st.start < stM.pos := Nat.lt_of_le_of_lt hsp hlt
      cases hom : s.openMarks with
      | cons lm oms =>
        rw [matchItemCommand_eq st stM s lm oms hsol hcmd hom] at h
        obtain ⟨h1, h2, h3⟩ := ok3 h
        rw [← h2, ← h3, ← hom]
        refine ⟨hsok, rfl, ?_, fun hr => absurd (h1.trans hr) (by simp)⟩
        refine binv_close (binv_mono hb (frontier_le hsp hsok)) ?_ ?_ ?_
        · refine ⟨?_, ?_, fun hk => Pos.le_refl _, Pos.le_refl _⟩
          · show (⟨s.line, stM.start⟩ : Pos) < ⟨s.line, stM.pos⟩
            rw [hst]
            exact Pos.lt_of_lt_ch hlt2
          · show (⟨s.line, stM.start⟩ : Pos) ≤ ⟨s.line, stM.pos⟩
            rw [hst]
            exact Pos.le_of_le_ch (Nat.le_of_lt hlt2)
        · exact Pos.le_refl _
        · intro x hx
          show x.to_ ≤ ⟨s.line, stM.pos⟩
          exact Pos.le_trans (hb.2.2.1 x hx)
            (Pos.le_of_le_ch (Nat.le_of_lt hlt2))
      | nil =>
        rw [matchItemCommand_eq_nil st stM s hsol hcmd hom] at h
        by_cases hmk : s.marks = []
        · rw [if_pos hmk] at h
          obtain ⟨h1, h2, h3⟩ := ok3 h
          rw [← h2, ← h3]
          refine ⟨hsok, rfl, ?_, fun hr => absurd (h1.trans hr) (by simp)⟩
          have hb2 := binv_mono hb (frontier_le hsp hsok)
          refine ⟨?_, ?_, ?_, ?_, hb2.2.2.2.2.1, hb2.2.2.2.2.2⟩
          · intro m hm
            rw [List.mem_singleton.mp hm]
            refine ⟨?_, ?_, fun hk => Pos.le_refl _, Pos.le_refl _⟩
            · show (⟨s.line, stM.start⟩ : Pos) < ⟨s.line, stM.pos⟩
              rw [hst]
              exact Pos.lt_of_lt_ch hlt2
            · show (⟨s.line, stM.start⟩ : Pos) ≤ ⟨s.line, stM.pos⟩
              rw [hst]
              exact Pos.le_of_le_ch (Nat.le_of_lt hlt2)
          · exact List.chain'_singleton _
          · intro m hm
            rw [List.mem_singleton.mp hm]
            exact Pos.le_refl _
          · intro om hom2
            simp at hom2
        · rw [if_neg hmk] at h
          exact absurd h (by simp)

theorem pinv_seqBegin (cb : Cb) : ∀ st s r st' s',
    matchBeginEnvironmentSequence cb st s = .ok (r, st', s') →
    st.start ≤ st.pos → st.pos ≤ st.str.length →
    BInv s ⟨s.line, st.start⟩ →
    CbPos ⟨s.line, st.start⟩ cb → tokEE (.seq seqTail cb) = none →
    SOK st st' ∧ s'.line = s.line ∧ BInv s' ⟨s.line, st'.pos⟩ ∧
    (r = none → s' = s) := by
  intro st s r st' s' h hsp hpl hb hcb hee
  unfold matchBeginEnvironmentSequence at h
  split at h
  · next st1 heq =>
    obtain ⟨h1, h2, h3⟩ := ok3 h
    rw [← h2, ← h3]
    have hsok := (sok_matchLitThenSpaces heq).1
    refine ⟨hsok, rfl, binv_push (binv_mono hb (frontier_le hsp hsok))
      (cbpos_mono (frontier_le hsp hsok) cb hcb) hee,
      fun hr => absurd (h1.trans hr) (by simp)⟩
  · obtain ⟨-, h2, h3⟩ := ok3 h
    rw [← h2, ← h3]
    exact ⟨sok_rfl st, rfl, binv_mono hb (Pos.le_of_le_ch hsp), fun _ => rfl⟩

theorem pinv_seqEnd (cb : Cb) : ∀ st s r st' s',
    matchEndEnvironmentSequence cb st s = .ok (r, st', s') →
    st.start ≤ st.pos → st.pos ≤ st.str.length →
    BInv s ⟨s.line, st.start⟩ →
    CbPos ⟨s.line, st.start⟩ cb → tokEE (.seq seqTail cb) = none →
    SOK st st' ∧ s'.line = s.line ∧ BInv s' ⟨s.line, st'.pos⟩ ∧
    (r = none → s' = s) := by
  intro st s r st' s' h hsp hpl hb hcb hee
  unfold matchEndEnvironmentSequence at h
  split at h
  · next st1 heq =>
    obtain ⟨h1, h2, h3⟩ := ok3 h
    rw [← h2, ← h3]
    have hsok := (sok_matchLitThenSpaces heq).1
    refine ⟨hsok, rfl, binv_push (binv_mono hb (frontier_le hsp hsok))
      (cbpos_mono (frontier_le hsp hsok) cb hcb) hee,
      fun hr => absurd (h1.trans hr) (by simp)⟩
  · obtain ⟨-, h2, h3⟩ := ok3 h
    rw [← h2, ← h3]
    exact ⟨sok_rfl st, rfl, binv_mono hb (Pos.le_of_le_ch hsp), fun _ => rfl⟩

theorem pinv_matchEnvironments (envs : List EnvCfg) :
    PInv (matchEnvironments envs) := by
  intro st s r st' s' h hsp hpl hb
  unfold matchEnvironments at h
  split at h
  · next cfg heq =>
    refine pinv_seqBegin _ st s r st' s' h hsp hpl hb ?_ ?_
    · cases hk : cfg.kind.isSome with
      | true =>
        simp only [hk, if_true]
        exact Pos.le_refl _
      | false =>
        simp only [hk, Bool.false_eq_true, if_false]
        trivial
    · rfl
  · obtain ⟨-, h2, h3⟩ := ok3 h
    rw [← h2, ← h3]
    exact ⟨sok_rfl st, rfl, binv_mono hb (Pos.le_of_le_ch hsp), fun _ => rfl⟩

theorem pinv_matchOtherEnvironmentBeginOrEnd :
    PInv matchOtherEnvironmentBeginOrEnd := by
  intro st s r st' s' h hsp hpl hb
  unfold matchOtherEnvironmentBeginOrEnd at h
  split at h
  · exact pinv_seqBegin _ st s r st' s' h hsp hpl hb trivial rfl
  · split at h
    · exact pinv_seqEnd _ st s r st' s' h hsp hpl hb trivial rfl
    · obtain ⟨-, h2, h3⟩ := ok3 h
      rw [← h2, ← h3]
      exact ⟨sok_rfl st, rfl, binv_mono hb (Pos.le_of_le_ch hsp),
        fun _ => rfl⟩

theorem pinv_matchEndDocument : PInv matchEndDocument := by
  intro st s r st' s' h hsp hpl hb
  unfold matchEndDocument at h
  split at h
  · exact pinv_seqEnd _ st s r st' s' h hsp hpl hb trivial rfl
  · obtain ⟨-, h2, h3⟩ := ok3 h
    rw [← h2, ← h3]
    exact ⟨sok_rfl st, rfl, binv_mono hb (Pos.le_of_le_ch hsp), fun _ => rfl⟩

theorem pOr_val {a : MRes} {g : Stream' → St → MRes} {st0 : Stream'}
    {s0 : St}
    (ha : ∀ r st' s', a = .ok (r, st', s') →
      SOK st0 st' ∧ s'.line = s0.line ∧ BInv s' ⟨s0.line, st'.pos⟩ ∧
      (r = none → s' = s0))
    (hg : PInv g) (hsp : st0.start ≤ st0.pos)
    (hpl : st0.pos ≤ st0.str.length) (hb : BInv s0 ⟨s0.line, st0.start⟩) :
    ∀ r st' s', mOr a g = .ok (r, st', s') →
      SOK st0 st' ∧ s'.line = s0.line ∧ BInv s' ⟨s0.line, st'.pos⟩ ∧
      (r = none → s' = s0) := by
  intro r st' s' h
  unfold mOr at h
  cases hA : a with
  | error e =>
    rw [hA] at h
    exact absurd h (by simp)
  | ok v =>
    obtain ⟨r1, st1, s1⟩ := v
    cases r1 with
    | some sty =>
      rw [hA] at h
      simp only [] at h
      obtain ⟨h1, h2, h3⟩ := ok3 h
      rw [← h2, ← h3]
      exact ⟨(ha _ _ _ hA).1, (ha _ _ _ hA).2.1, (ha _ _ _ hA).2.2.1,
        fun hr => absurd (h1.trans hr) (by simp)⟩
    | none =>
      rw [hA] at h
      simp only [] at h
      obtain ⟨hs1, hl1, hb1, he1⟩ := ha _ _ _ hA
      have hseq : s1 = s0 := he1 rfl
      subst hseq
      have hsp1 : st1.start ≤ st1.pos := by
        rw [hs1.2.1]
        exact Nat.le_trans hsp hs1.2.2.1
      have hpl1 : st1.pos ≤ st1.str.length := by
        rw [hs1.1]
        exact hs1.2.2.2 hpl
      have hb1' : BInv s1 ⟨s1.line, st1.start⟩ := by
        rw [hs1.2.1]
        exact hb
      obtain ⟨hs2, hl2, hb2, he2⟩ := hg st1 s1 r st' s' h hsp1 hpl1 hb1'
      exact ⟨sok_trans hs1 hs2, hl2, hb2, he2⟩

theorem pinv_mOr {f g : Stream' → St → MRes} (hf : PInv f) (hg : PInv g) :
    PInv (fun st s => mOr (f st s) g) :=
  fun st s r st' s' h hsp hpl hb =>
    pOr_val (fun r1 st1 s1 ha => hf st s r1 st1 s1 ha hsp hpl hb) hg hsp hpl
      hb r st' s' h

theorem pinv_bib_fold (cs : List String) :
    ∀ (a : MRes) (st0 : Stream') (s0 : St),
      st0.start ≤ st0.pos → st0.pos ≤ st0.str.length →
      BInv s0 ⟨s0.line, st0.start⟩ →
      (∀ r st' s', a = .ok (r, st', s') →
        SOK st0 st' ∧ s'.line = s0.line ∧ BInv s' ⟨s0.line, st'.pos⟩ ∧
        (r = none → s' = s0)) →
      ∀ r st' s', cs.foldl
          (fun acc c => mOr acc (matchCommandWithArgument c.data c)) a =
            .ok (r, st', s') →
        SOK st0 st' ∧ s'.line = s0.line ∧ BInv s' ⟨s0.line, st'.pos⟩ ∧
        (r = none → s' = s0) := by
  induction cs with
  | nil => exact fun a st0 s0 _ _ _ ha => ha
  | cons c cs ih =>
    intro a st0 s0 hsp hpl hb ha
    exact ih _ st0 s0 hsp hpl hb
      (pOr_val ha (pinv_matchCommandWithArgument _ _) hsp hpl hb)

theorem pinv_matchBibCommand : PInv matchBibCommand := by
  intro st s r st' s' h hsp hpl hb
  unfold matchBibCommand at h
  exact pinv_bib_fold bibCommands (.ok (none, st, s)) st s hsp hpl hb
    (fun r1 st1 s1 ha => by
      obtain ⟨-, h2, h3⟩ := ok3 ha
      rw [← h2, ← h3]
      exact ⟨sok_rfl st, rfl, binv_mono hb (Pos.le_of_le_ch hsp),
        fun _ => rfl⟩) r st' s' h

theorem pinv_otherMath : PInv (fun st s =>
    match st.matchBackslashCmd with
    | some st' => .ok (some "tag", st', s)
    | none =>
      if st.peek = some '^' ∨ st.peek = some '_' ∨ st.peek = some '&' ∨
          st.peek = some '~' then
        .ok (some "tag", { st with pos := st.pos + 1 }, s)
      else
        match st.matchNumber with
        | some st' => .ok (some "number", st', s)
        | none => .ok (none, st.next, s)) := by
  intro st s r st' s' h hsp hpl hb
  simp only [] at h
  split at h
  · next st1 heq =>
    obtain ⟨h1, h2, h3⟩ := ok3 h
    rw [← h2, ← h3]
    have hsok := (sok_matchBackslashCmd heq).1
    exact ⟨hsok, rfl, binv_mono hb (frontier_le hsp hsok),
      fun hr => absurd (h1.trans hr) (by simp)⟩
  · split at h
    · next hpk =>
      have hlen : st.pos < st.str.length := by
        rcases hpk with hp | hp | hp | hp <;>
          exact (List.get?_eq_some.mp hp).1
      obtain ⟨h1, h2, h3⟩ := ok3 h
      rw [← h2, ← h3]
      have hsok : SOK st { st with pos := st.pos + 1 } :=
        ⟨rfl, rfl, Nat.le_succ _, fun _ => by simp only []; omega⟩
      exact ⟨hsok, rfl, binv_mono hb (frontier_le hsp hsok),
        fun hr => absurd (h1.trans hr) (by simp)⟩
    · split at h
      · next st1 heq =>
        obtain ⟨h1, h2, h3⟩ := ok3 h
        rw [← h2, ← h3]
        have hsok := sok_matchNumber heq
        exact ⟨hsok, rfl, binv_mono hb (frontier_le hsp hsok),
          fun hr => absurd (h1.trans hr) (by simp)⟩
      · obtain ⟨-, h2, h3⟩ := ok3 h
        rw [← h2, ← h3]
        have hsok := sok_next st
        exact ⟨hsok, rfl, binv_mono hb (frontier_le hsp hsok), fun _ => rfl⟩

theorem pinv_matchDollarDollarMath : PInv matchDollarDollarMath :=
  fun st s r st' s' h hsp hpl hb =>
    pinv_matchAndMark _ _ _ _ _ _ _ _ st s r st' s' h hsp hpl hb
      (Pos.le_refl _) (by simp)

theorem pinv_matchDollarMath : PInv matchDollarMath :=
  fun st s r st' s' h hsp hpl hb =>
    pinv_matchAndMark _ _ _ _ _ _ _ _ st s r st' s' h hsp hpl hb
      (Pos.le_refl _) (by simp)

theorem pinv_matchBracketMath : PInv matchBracketMath :=
  fun st s r st' s' h hsp hpl hb =>
    pinv_matchAndMark _ _ _ _ _ _ _ _ st s r st' s' h hsp hpl hb
      (Pos.le_refl _) (by simp)

theorem pinv_matchParenMath : PInv matchParenMath :=
  fun st s r st' s' h hsp hpl hb =>
    pinv_matchAndMark _ _ _ _ _ _ _ _ st s r st' s' h hsp hpl hb
      (Pos.le_refl _) (by simp)

theorem pinv_matchSectioningCommand : PInv matchSectioningCommand :=
  pinv_mOr (pinv_matchCommandWithArgument _ _)
    (pinv_mOr (pinv_matchCommandWithArgument _ _)
    (pinv_mOr (pinv_matchCommandWithArgument _ _)
    (pinv_mOr (pinv_matchCommandWithArgument _ _)
    (pinv_mOr (pinv_matchCommandWithArgument _ _)
    (pinv_mOr (pinv_matchCommandWithArgument _ _)
    (pinv_mOr (pinv_matchCommandWithArgument _ _)
      (pinv_matchCommandWithArgument _ _)))))))

theorem pinv_matchMath : PInv matchMath :=
  pinv_mOr pinv_matchVerbCommand
    (pinv_mOr pinv_matchOtherEnvironmentBeginOrEnd
    (pinv_mOr pinv_matchOtherCommand pinv_otherMath))

theorem pinv_matchText : PInv matchText :=
  pinv_mOr (pinv_matchCommandWithArgument _ _)
    (pinv_mOr (pinv_matchCommandWithArgument _ _)
    (pinv_mOr pinv_matchBracketMath
    (pinv_mOr pinv_matchParenMath
    (pinv_mOr (pinv_matchCommandWithArgument _ _)
    (pinv_mOr pinv_matchBibCommand
    (pinv_mOr (pinv_matchCommandWithArgument _ _)
    (pinv_mOr (pinv_matchCommandWithArgument _ _)
    (pinv_mOr (pinv_matchCommandWithArgument _ _)
    (pinv_mOr (pinv_matchEnvironments _)
    (pinv_mOr (pinv_matchEnvironments _)
    (pinv_mOr (pinv_matchEnvironments _)
    (pinv_mOr pinv_matchVerbCommand
    (pinv_mOr (pinv_matchEnvironments _)
    (pinv_mOr (pinv_matchEnvironments _)
    (pinv_mOr pinv_matchOtherEnvironmentBeginOrEnd
    (pinv_mOr pinv_matchOtherCommand
    (pinv_mOr pinv_matchGroup
    (pinv_mOr pinv_matchDollarDollarMath
    (pinv_mOr pinv_matchDollarMath
      pinv_matchOther)))))))))))))))))))

theorem pinv_matchListContent : PInv matchListContent :=
  pinv_mOr pinv_matchItemCommand pinv_matchText

theorem pinv_matchFigureContent : PInv matchFigureContent :=
  pinv_mOr (pinv_matchCommandWithArgument _ _)
    (pinv_mOr pinv_matchIncludeGraphics pinv_matchText)

theorem pinv_matchTikZ : PInv matchTikZ :=
  pinv_mOr (pinv_matchEnvironments _)
    (pinv_mOr pinv_matchOtherCommand pinv_matchOther)

theorem pinv_matchTopLevel : PInv matchTopLevel :=
  pinv_mOr pinv_matchTitleCommand
    (pinv_mOr (pinv_matchCommandWithArgument _ _)
    (pinv_mOr pinv_matchCommandMaketitle
    (pinv_mOr pinv_matchSectioningCommand
    (pinv_mOr (pinv_matchEnvironments _)
    (pinv_mOr pinv_matchEndDocument pinv_matchText)))))

theorem pinv_runITok (it : ITok) : PInv (runITok it) := by
  cases it with
  | textTok => exact pinv_matchText
  | mathTok => exact pinv_matchMath
  | verbatimTok => exact pinv_matchVerbatimEnvironment
  | commentTok => exact pinv_matchCommentEnvironment
  | listTok => exact pinv_matchListContent
  | figureTok => exact pinv_matchFigureContent
  | tikzTok => exact pinv_matchTikZ

theorem sok_matchPat {p : SeqPat} {st st' : Stream'}
    (h : matchPat p st = some st') : SOK st st' ∧ st.pos < st'.pos := by
  cases p with
  | beginCmd =>
    obtain ⟨h1, h2⟩ := sok_matchLitThenSpaces h
    exact ⟨h1, by simp at h2; omega⟩
  | endCmd =>
    obtain ⟨h1, h2⟩ := sok_matchLitThenSpaces h
    exact ⟨h1, by simp at h2; omega⟩
  | lbrace => exact ⟨(sok_matchStr h).1, sok_matchStr_pos h (by simp)⟩
  | rbrace => exact ⟨(sok_matchStr h).1, sok_matchStr_pos h (by simp)⟩
  | envName => exact sok_matchEnvNameRun h

theorem matchBlankLine_false {st st1 : Stream'}
    (h : st.matchBlankLine = (false, st1)) : st1 = st := by
  unfold Stream'.matchBlankLine at h
  split at h
  · split at h
    · exact absurd h (by simp)
    · split at h
      · exact absurd h (by simp)
      · exact ((Prod.mk.inj h).2).symm
  · exact ((Prod.mk.inj h).2).symm

theorem Pos.lt_of_le_of_lt {p q r : Pos} (h₁ : p ≤ q) (h₂ : q < r) :
    p < r := by
  rcases h₁ with h₁ | ⟨e₁, l₁⟩ <;> rcases h₂ with h₂ | ⟨e₂, l₂⟩
  · exact Or.inl (lt_trans h₁ h₂)
  · exact Or.inl (e₂ ▸ h₁)
  · exact Or.inl (e₁ ▸ h₂)
  · exact Or.inr ⟨e₁.trans e₂, Nat.lt_of_le_of_lt l₁ l₂⟩

/-- `BInv` only looks at the positional fields, so rewriting the
`checkedProperties` of the final mark preserves it. -/
theorem binv_setLast {s1 : St} {p : Pos} {pre : List CMark} {m : CMark}
    (f : Checked → Checked) (hmk : s1.marks = pre ++ [m]) (hb : BInv s1 p) :
    BInv (setLastChecked s1 f) p := by
  obtain ⟨hm2, hst, hop⟩ := @setLast_append s1 pre m f hmk
  obtain ⟨b1, b2, b3, b4, b5, b6⟩ := hb
  rw [hmk] at b1 b2 b3
  refine ⟨?_, ?_, ?_, ?_, ?_, ?_⟩
  · intro x hx
    rw [hm2] at hx
    rcases List.mem_append.mp hx with hx | hx
    · exact b1 x (List.mem_append_left _ hx)
    · rw [List.mem_singleton.mp hx]
      exact b1 m (by simp)
  · rw [hm2]
    rw [List.chain'_append] at b2 ⊢
    refine ⟨b2.1, List.chain'_singleton _, ?_⟩
    intro x hx y hy
    simp at hy
    rw [← hy]
    exact b2.2.2 x hx m (by simp)
  · intro x hx
    rw [hm2] at hx
    rcases List.mem_append.mp hx with hx | hx
    · exact b3 x (List.mem_append_left _ hx)
    · rw [List.mem_singleton.mp hx]
      exact b3 m (by simp)
  · rw [hop]
    exact b4
  · rw [hst]
    exact b5
  · rw [hst]
    exact b6

theorem setLast_line (s : St) (f : Checked → Checked) :
    (setLastChecked s f).line = s.line := by
  unfold setLastChecked
  split <;> rfl

theorem runCb_inv (cb : Cb) (stP : Stream') (s1 : St) (p : Pos)
    (hb : BInv s1 p) (hcb : CbPos p cb)
    (hee : ∀ cp, cb = .envEnd true (some cp) →
      (∀ m ∈ s1.marks, m.to_ ≤ cp) ∧
      (∀ om ∈ s1.openMarks, om.contentFrom ≤ cp))
    (hcur : p < (⟨s1.line, stP.pos⟩ : Pos)) :
    ∀ s2, runCb cb stP s1 = .ok s2 →
      s2.line = s1.line ∧ BInv s2 ⟨s1.line, stP.pos⟩ := by
  intro s2 h
  have hble : p ≤ (⟨s1.line, stP.pos⟩ : Pos) := Pos.le_of_lt hcur
  cases cb with
  | noop =>
    rw [← Except.ok.inj h]
    exact ⟨rfl, binv_mono hb hble⟩
  | envBegin cfg mop =>
    unfold runCb at h
    simp only [] at h
    cases mop with
    | some mp =>
      cases hk : cfg.kind with
      | some k =>
        rw [hk] at h
        simp only [] at h
        rw [← Except.ok.inj h]
        refine ⟨rfl, binv_push (binv_setOpen _ (binv_openMark
          (binv_mono hb hble) ?_ (Pos.le_refl _))) trivial rfl⟩
        exact Pos.le_trans hcb hble
      | none =>
        rw [hk] at h
        simp only [] at h
        rw [← Except.ok.inj h]
        exact ⟨rfl, binv_push (binv_mono hb hble) trivial rfl⟩
    | none =>
      cases hk : cfg.kind with
      | some k =>
        rw [hk] at h
        simp only [] at h
        rw [← Except.ok.inj h]
        exact ⟨rfl, binv_push (binv_mono hb hble) trivial rfl⟩
      | none =>
        rw [hk] at h
        simp only [] at h
        rw [← Except.ok.inj h]
        exact ⟨rfl, binv_push (binv_mono hb hble) trivial rfl⟩
  | endDoc =>
    rw [← Except.ok.inj h]
    exact ⟨rfl, binv_push (binv_mono hb hble) trivial rfl⟩
  | envEnd hasMark mcp =>
    unfold runCb at h
    simp only [] at h
    cases hasMark with
    | false =>
      simp only [Bool.false_eq_true, if_false] at h
      rw [← Except.ok.inj h]
      exact ⟨rfl, binv_mono hb hble⟩
    | true =>
      simp only [eq_self_iff_true, if_true] at h
      cases mcp with
      | none =>
        rw [← Except.ok.inj h]
        exact ⟨rfl, binv_mono hb hble⟩
      | some cp =>
        simp only [] at h
        obtain ⟨heem, heeo⟩ := hee cp rfl
        match hcm : closeMarkE stP s1 cp with
        | .error e =>
          rw [hcm] at h
          exact absurd h (by simp)
        | .ok (sA, m) =>
          rw [hcm] at h
          simp only [] at h
          unfold closeMarkE at hcm
          match hom : s1.openMarks with
          | [] => rw [hom] at hcm; exact absurd hcm (by simp)
          | om :: ros =>
            rw [hom] at hcm
            simp only [] at hcm
            have hpair : closeTop stP s1 cp om ros = (sA, m) :=
              Except.ok.inj hcm
            have h1 : sA = (⟨s1.stack, s1.line, ros,
                s1.marks ++ [mkClosed stP s1 cp om ros], s1.nextId⟩ : St) :=
              (congrArg Prod.fst hpair).symm
            have homok := hb.2.2.2.1
            rw [hom] at homok
            have homh := homok om (List.mem_cons_self om ros)
            have hcf : om.contentFrom ≤ cp := by
              refine heeo om ?_
              rw [hom]
              exact List.mem_cons_self om ros
            have hcplt : cp < (⟨s1.line, stP.pos⟩ : Pos) :=
              Pos.lt_of_le_of_lt hcb hcur
            have hbase : BInv (⟨s1.stack, s1.line, ros,
                s1.marks ++ [mkClosed stP s1 cp om ros],
                s1.nextId⟩ : St) ⟨s1.line, stP.pos⟩ := by
              refine binv_close (s := (⟨s1.stack, s1.line, ros, s1.marks,
                s1.nextId⟩ : St)) ?_ ?_ ?_ ?_
              · obtain ⟨b1, b2, b3, b4, b5, b6⟩ := binv_mono hb hble
                refine ⟨b1, b2, b3, fun x hx => b4 x ?_, b5, b6⟩
                rw [hom]
                exact List.mem_cons_of_mem om hx
              · refine ⟨?_, ?_, ?_, ?_⟩
                · show om.from_ < (⟨s1.line, stP.pos⟩ : Pos)
                  exact Pos.lt_of_le_of_lt (Pos.le_trans homh.1
                    (Pos.le_trans hcf hcb)) hcur
                · show om.from_ ≤ om.contentFrom
                  exact homh.1
                · intro hk
                  show om.contentFrom ≤ cp
                  exact hcf
                · show cp ≤ (⟨s1.line, stP.pos⟩ : Pos)
                  exact Pos.le_of_lt hcplt
              · exact Pos.le_refl _
              · intro x hx
                exact heem x hx
            rw [← Except.ok.inj h, h1]
            exact ⟨setLast_line _ _, binv_setLast _ rfl hbase⟩

theorem stinv_pop {s : St} {p : Pos} {t : Tok} {rest : List Tok}
    (h : StInv s p) (hs : s.stack = t :: rest) :
    StInv { s with stack := rest } p :=
  stinv_of_binv (binv_pop h hs)

theorem runEnvTail_inv (cfg : EnvCfg) (st : Stream') (s : St)
    (rest : List Tok) (hstk : s.stack = Tok.env cfg :: rest)
    (hsp : st.start ≤ st.pos) (hpl : st.pos ≤ st.str.length)
    (hsi : StInv s ⟨s.line, st.start⟩) :
    ∀ r st' s', runEnvTail cfg st s rest = .ok (r, st', s') →
      SOK st st' ∧ s'.line = s.line ∧ StInv s' ⟨s.line, st'.pos⟩ := by
  intro r st' s' h
  unfold runEnvTail at h
  split at h
  · cases hk : cfg.kind.isSome with
    | false =>
      rw [hk] at h
      simp only [Bool.false_eq_true, if_false] at h
      obtain ⟨hsok, hline, hbv, -⟩ := pinv_seqEnd _ st { s with stack := rest }
        r st' s' h hsp hpl (binv_pop hsi hstk) trivial rfl
      exact ⟨hsok, hline, stinv_of_binv hbv⟩
    | true =>
      rw [hk] at h
      simp only [if_true] at h
      unfold matchEndEnvironmentSequence at h
      split at h
      · next st1 heq =>
        obtain ⟨h1, h2, h3⟩ := ok3 h
        rw [← h2, ← h3]
        have hsok := (sok_matchLitThenSpaces heq).1
        have fr : (⟨s.line, st.start⟩ : Pos) ≤ ⟨s.line, st1.pos⟩ :=
          frontier_le hsp hsok
        obtain ⟨b1, b2, b3, b4, b5, b6, b7⟩ := hsi
        refine ⟨hsok, rfl, b1, b2,
          fun m hm => Pos.le_trans (b3 m hm) fr,
          fun om hom => ⟨(b4 om hom).1, Pos.le_trans (b4 om hom).2 fr⟩,
          ?_, ?_, ?_⟩
        · intro t ht
          cases ht with
          | head => exact fr
          | tail _ ht =>
            refine tokpos_mono fr t (b5 t ?_)
            rw [hstk]
            exact List.mem_cons_of_mem _ ht
        · rw [hstk] at b6
          exact b6
        · intro pats cp hh
          simp only [pushTok, List.head?_cons, Option.some.injEq,
            Tok.seq.injEq, Cb.envEnd.injEq, Option.some.injEq] at hh
          obtain ⟨-, -, hcp⟩ := hh
          rw [← hcp]
          exact ⟨b3, fun om hom => (b4 om hom).2⟩
      · obtain ⟨-, h2, h3⟩ := ok3 h
        rw [← h2, ← h3]
        exact ⟨sok_rfl st, rfl, stinv_mono (stinv_pop hsi hstk)
          (Pos.le_of_le_ch hsp)⟩
  · have hne : noEE s.stack := stinv_noEE_head hsi hstk rfl
    obtain ⟨hsok, hline, hbv, -⟩ := pinv_runITok cfg.tokenizer st s r st' s' h
      hsp hpl (binv_of_stinv hsi hne)
    exact ⟨hsok, hline, stinv_of_binv hbv⟩

theorem runStack_inv (stk : List Tok) : ∀ st s r st' s', s.stack = stk →
    runStack stk st s = .ok (r, st', s') →
    st.start ≤ st.pos → st.pos ≤ st.str.length →
    StInv s ⟨s.line, st.start⟩ →
    SOK st st' ∧ s'.line = s.line ∧ StInv s' ⟨s.line, st'.pos⟩ := by
  induction stk with
  | nil =>
    intro st s r st' s' hstk h hsp hpl hsi
    exact absurd h (by unfold runStack; simp)
  | cons t rest ih =>
    intro st s r st' s' hstk h hsp hpl hsi
    cases t with
    | topLevel =>
      have hne : noEE s.stack := stinv_noEE_head hsi hstk rfl
      obtain ⟨hsok, hline, hbv, -⟩ := pinv_matchTopLevel st s r st' s' h hsp
        hpl (binv_of_stinv hsi hne)
      exact ⟨hsok, hline, stinv_of_binv hbv⟩
    | group =>
      unfold runStack at h
      simp only [] at h
      split at h
      · next st2 heq =>
        obtain ⟨-, h2, h3⟩ := ok3 h
        rw [← h2, ← h3]
        have hsok := (sok_eat heq).1
        exact ⟨hsok, rfl, stinv_mono (stinv_pop hsi hstk)
          (frontier_le hsp hsok)⟩
      · have hne : noEE s.stack := stinv_noEE_head hsi hstk rfl
        obtain ⟨hsok, hline, hbv, -⟩ := pinv_matchText st s r st' s' h hsp
          hpl (binv_of_stinv hsi hne)
        exact ⟨hsok, hline, stinv_of_binv hbv⟩
    | verb d =>
      unfold runStack at h
      simp only [] at h
      split at h
      · next st2 heq =>
        obtain ⟨-, h2, h3⟩ := ok3 h
        rw [← h2, ← h3]
        have hsok := (sok_matchStr heq).1
        exact ⟨hsok, rfl, stinv_mono (stinv_pop hsi hstk)
          (frontier_le hsp hsok)⟩
      · split at h
        · next st2 heq =>
          obtain ⟨-, h2, h3⟩ := ok3 h
          rw [← h2, ← h3]
          have hsok := sok_skipTo heq
          exact ⟨hsok, rfl, stinv_mono hsi (frontier_le hsp hsok)⟩
        · obtain ⟨-, h2, h3⟩ := ok3 h
          rw [← h2, ← h3]
          have hsok := sok_skipToEnd hpl
          exact ⟨hsok, rfl, stinv_mono hsi (frontier_le hsp hsok)⟩
    | commentRest =>
      have h2 : (Except.ok (some "comment", st.skipToEnd, s) : MRes) =
          .ok (r, st', s') := h
      obtain ⟨-, h2, h3⟩ := ok3 h2
      rw [← h2, ← h3]
      have hsok := sok_skipToEnd hpl
      exact ⟨hsok, rfl, stinv_mono hsi (frontier_le hsp hsok)⟩
    | deferReqArgMark k op =>
      have hop : op ≤ (⟨s.line, st.start⟩ : Pos) := by
        have := hsi.2.2.2.2.1 (.deferReqArgMark k op)
          (by rw [hstk]; exact List.mem_cons_self _ _)
        exact this
      obtain ⟨hsok, hline, hbv, -⟩ := pinv_matchAndMark k op ['{'] "bracket"
        ['}'] "bracket" [] .textTok st { s with stack := rest } r st' s' h hsp
        hpl (binv_pop hsi hstk) hop (by simp)
      exact ⟨hsok, hline, stinv_of_binv hbv⟩
    | deferOptArgMark k op =>
      have hop : op ≤ (⟨s.line, st.start⟩ : Pos) := by
        have := hsi.2.2.2.2.1 (.deferOptArgMark k op)
          (by rw [hstk]; exact List.mem_cons_self _ _)
        exact this
      obtain ⟨hsok, hline, hbv, -⟩ := pinv_matchAndMark k op ['['] "bracket"
        [']'] "bracket" [] .textTok st { s with stack := rest } r st' s' h hsp
        hpl (binv_pop hsi hstk) hop (by simp)
      exact ⟨hsok, hline, stinv_of_binv hbv⟩
    | deferOptArg =>
      obtain ⟨hsok, hline, hbv, -⟩ := pinv_matchArgument ['['] "bracket"
        [']'] "bracket" .textTok st { s with stack := rest } r st' s' h hsp
        hpl (binv_pop hsi hstk)
      exact ⟨hsok, hline, stinv_of_binv hbv⟩
    | seq pats cb =>
      have hcb : CbPos (⟨s.line, st.start⟩ : Pos) cb := by
        have := hsi.2.2.2.2.1 (.seq pats cb)
          (by rw [hstk]; exact List.mem_cons_self _ _)
        exact this
      match pats with
      | [] =>
        have h2 : (Except.ok (none, st, { s with stack := rest }) : MRes) =
            .ok (r, st', s') := h
        obtain ⟨-, h2, h3⟩ := ok3 h2
        rw [← h2, ← h3]
        exact ⟨sok_rfl st, rfl, stinv_mono (stinv_pop hsi hstk)
          (Pos.le_of_le_ch hsp)⟩
      | (p, sty) :: ps =>
        unfold runStack at h
        simp only [] at h
        cases hp : matchPat p st with
        | none =>
          rw [hp] at h
          simp only [] at h
          obtain ⟨-, h2, h3⟩ := ok3 h
          rw [← h2, ← h3]
          exact ⟨sok_rfl st, rfl, stinv_mono (stinv_pop hsi hstk)
            (Pos.le_of_le_ch hsp)⟩
        | some stP =>
          rw [hp] at h
          simp only [] at h
          obtain ⟨hsokP, hltP⟩ := sok_matchPat hp
          match ps with
          | [] =>
            simp only [] at h
            cases hcbr : runCb cb stP { s with stack := rest } with
            | error e =>
              rw [hcbr] at h
              simp only [] at h
              exact absurd h (by simp)
            | ok s2 =>
              rw [hcbr] at h
              simp only [] at h
              obtain ⟨-, h2, h3⟩ := ok3 h
              rw [← h2, ← h3]
              have hee : ∀ cp, cb = .envEnd true (some cp) →
                  (∀ m ∈ ({ s with stack := rest } : St).marks, m.to_ ≤ cp) ∧
                  (∀ om ∈ ({ s with stack := rest } : St).openMarks,
                    om.contentFrom ≤ cp) := by
                intro cp hcbeq
                refine hsi.2.2.2.2.2.2 [(p, sty)] cp ?_
                rw [hstk, ← hcbeq]
                rfl
              have hcur : (⟨s.line, st.start⟩ : Pos) <
                  ⟨({ s with stack := rest } : St).line, stP.pos⟩ :=
                Pos.lt_of_lt_ch (Nat.lt_of_le_of_lt hsp hltP)
              obtain ⟨hl2, hb2⟩ := runCb_inv cb stP { s with stack := rest }
                ⟨s.line, st.start⟩ (binv_pop hsi hstk) hcb hee hcur s2 hcbr
              exact ⟨hsokP, hl2, stinv_of_binv hb2⟩
          | q :: qs =>
            simp only [] at h
            obtain ⟨-, h2, h3⟩ := ok3 h
            rw [← h2, ← h3]
            have fr : (⟨s.line, st.start⟩ : Pos) ≤ ⟨s.line, stP.pos⟩ :=
              frontier_le hsp hsokP
            obtain ⟨b1, b2, b3, b4, b5, b6, b7⟩ := hsi
            refine ⟨hsokP, rfl, b1, b2,
              fun m hm => Pos.le_trans (b3 m hm) fr,
              fun om hom => ⟨(b4 om hom).1, Pos.le_trans (b4 om hom).2 fr⟩,
              ?_, ?_, ?_⟩
            · intro t ht
              cases ht with
              | head => exact cbpos_mono fr cb hcb
              | tail _ ht =>
                refine tokpos_mono fr t (b5 t ?_)
                rw [hstk]
                exact List.mem_cons_of_mem _ ht
            · rw [hstk] at b6
              exact b6
            · intro pats2 cp hh
              simp only [pushTok, List.head?_cons, Option.some.injEq,
                Tok.seq.injEq] at hh
              refine b7 ((p, sty) :: q :: qs) cp ?_
              rw [hstk, hh.2]
              rfl
    | andMark close closeStyle abandon inner =>
      have hcl : close ≠ [] := by
        have := hsi.2.2.2.2.1 (.andMark close closeStyle abandon inner)
          (by rw [hstk]; exact List.mem_cons_self _ _)
        exact this
      unfold runStack at h
      simp only [] at h
      cases hbl : st.matchBlankLine with
      | mk b st1 =>
        have hsokbl : SOK st st1 := by
          have := sok_matchBlankLine st
          rw [hbl] at this
          exact this
        rw [hbl] at h
        cases b with
        | true =>
          simp only [] at h
          have hsi2 : StInv ({ (abandonMark s) with stack := rest } : St)
              ⟨({ (abandonMark s) with stack := rest } : St).line,
                st1.start⟩ := by
            have : st1.start = st.start := hsokbl.2.1
            rw [this]
            exact stinv_of_binv (binv_abandon (binv_pop hsi hstk))
          obtain ⟨hsok2, hl2, hb2⟩ := ih st1 _ r st' s' rfl h
            (by rw [hsokbl.2.1]; exact Nat.le_trans hsp hsokbl.2.2.1)
            (by rw [hsokbl.1]; exact hsokbl.2.2.2 hpl) hsi2
          exact ⟨sok_trans hsokbl hsok2, hl2, hb2⟩
        | false =>
          have hst1 : st1 = st := matchBlankLine_false hbl
          subst hst1
          simp only [] at h
          split at h
          · have hsi2 : StInv ({ (abandonMark s) with stack := rest } : St)
                ⟨({ (abandonMark s) with stack := rest } : St).line,
                  st1.start⟩ :=
              stinv_of_binv (binv_abandon (binv_pop hsi hstk))
            obtain ⟨hsok2, hl2, hb2⟩ := ih st1 _ r st' s' rfl h hsp hpl hsi2
            exact ⟨hsok2, hl2, hb2⟩
          · cases hcl2 : st1.matchStr close with
            | some st2 =>
              rw [hcl2] at h
              simp only [] at h
              obtain ⟨hsok2, -⟩ := sok_matchStr hcl2
              have hlt2 : st1.pos < st2.pos := sok_matchStr_pos hcl2 hcl
              cases hcm : closeMarkE st2 { s with stack := rest }
                  (startPos st2 s) with
              | error e =>
                rw [hcm] at h
                simp only [] at h
                exact absurd h (by simp)
              | ok v =>
                obtain ⟨s2, m⟩ := v
                rw [hcm] at h
                simp only [] at h
                obtain ⟨-, h2, h3⟩ := ok3 h
                rw [← h2, ← h3]
                unfold closeMarkE at hcm
                simp only [] at hcm
                cases hom : s.openMarks with
                | nil =>
                  rw [hom] at hcm
                  exact absurd hcm (by simp)
                | cons om ros =>
                  rw [hom] at hcm
                  simp only [] at hcm
                  have hpair := Except.ok.inj hcm
                  have h1 : s2 = (⟨rest, s.line, ros, s.marks ++
                      [mkClosed st2 { s with stack := rest }
                        (startPos st2 s) om ros], s.nextId⟩ : St) :=
                    (congrArg Prod.fst hpair).symm
                  have hsok := sok_matchStr hcl2
                  have hstart2 : st2.start = st1.start := hsok.1.2.1
                  have homok := hsi.2.2.2.1
                  rw [hom] at homok
                  have homh := homok om (List.mem_cons_self om ros)
                  have hlt3 : st1.start < st2.pos :=
                    Nat.lt_of_le_of_lt hsp hlt2
                  refine ⟨hsok.1, by rw [h1], ?_⟩
                  rw [h1]
                  refine stinv_of_binv (binv_close (s := (⟨rest, s.line, ros,
                    s.marks, s.nextId⟩ : St)) ?_ ?_ ?_ ?_)
                  · obtain ⟨b1, b2, b3, b4, b5, b6, b7⟩ := hsi
                    have fr : (⟨s.line, st1.start⟩ : Pos) ≤
                        ⟨s.line, st2.pos⟩ :=
                      Pos.le_of_le_ch (Nat.le_trans hsp
                        (Nat.le_of_lt hlt2))
                    have b4' : ∀ x ∈ ros, x.from_ ≤ x.contentFrom ∧
                        x.contentFrom ≤ (⟨s.line, st1.start⟩ : Pos) :=
                      fun x hx => b4 x
                        (by rw [hom]; exact List.mem_cons_of_mem om hx)
                    have b5' : ∀ x ∈ rest, TokPos
                        (⟨s.line, st1.start⟩ : Pos) x :=
                      fun x hx => b5 x
                        (by rw [hstk]; exact List.mem_cons_of_mem _ hx)
                    refine ⟨b1, b2, fun x hx => Pos.le_trans (b3 x hx) fr,
                      fun x hx => ⟨(b4' x hx).1,
                        Pos.le_trans (b4' x hx).2 fr⟩,
                      fun x hx => tokpos_mono fr x (b5' x hx), ?_⟩
                    rw [hstk] at b6
                    exact b6
                  · refine ⟨?_, homh.1, ?_, ?_⟩
                    · show om.from_ < (⟨s.line, st2.pos⟩ : Pos)
                      refine Pos.lt_of_le_of_lt (Pos.le_trans homh.1
                        homh.2) ?_
                      exact Pos.lt_of_lt_ch hlt3
                    · intro hk
                      show om.contentFrom ≤ (⟨s.line, st2.start⟩ : Pos)
                      rw [hstart2]
                      exact homh.2
                    · show (⟨s.line, st2.start⟩ : Pos) ≤ ⟨s.line, st2.pos⟩
                      rw [hstart2]
                      exact Pos.le_of_le_ch (Nat.le_trans hsp
                        (Nat.le_of_lt hlt2))
                  · show (⟨s.line, st2.pos⟩ : Pos) ≤ ⟨s.line, st2.pos⟩
                    exact Pos.le_refl _
                  · intro x hx
                    show x.to_ ≤ (⟨s.line, st2.start⟩ : Pos)
                    rw [hstart2]
                    exact hsi.2.2.1 x hx
            | none =>
              rw [hcl2] at h
              simp only [] at h
              have hne : noEE s.stack := stinv_noEE_head hsi hstk rfl
              obtain ⟨hsok2, hline, hbv, -⟩ := pinv_runITok inner st1 s r st'
                s' h hsp hpl (binv_of_stinv hsi hne)
              exact ⟨hsok2, hline, stinv_of_binv hbv⟩
    | argClose close closeStyle inner =>
      unfold runStack at h
      simp only [] at h
      cases hbl : st.matchBlankLine with
      | mk b st1 =>
        have hsokbl : SOK st st1 := by
          have := sok_matchBlankLine st
          rw [hbl] at this
          exact this
        rw [hbl] at h
        cases b with
        | true =>
          simp only [] at h
          obtain ⟨-, h2, h3⟩ := ok3 h
          rw [← h2, ← h3]
          exact ⟨hsokbl, rfl, stinv_mono (stinv_pop hsi hstk)
            (frontier_le hsp hsokbl)⟩
        | false =>
          have hst1 : st1 = st := matchBlankLine_false hbl
          subst hst1
          simp only [] at h
          cases hcl2 : st1.matchStr close with
          | some st2 =>
            rw [hcl2] at h
            simp only [] at h
            obtain ⟨-, h2, h3⟩ := ok3 h
            rw [← h2, ← h3]
            have hsok := (sok_matchStr hcl2).1
            exact ⟨hsok, rfl, stinv_mono (stinv_pop hsi hstk)
              (frontier_le hsp hsok)⟩
          | none =>
            rw [hcl2] at h
            simp only [] at h
            have hne : noEE s.stack := stinv_noEE_head hsi hstk rfl
            obtain ⟨hsok2, hline, hbv, -⟩ := pinv_runITok inner st1 s r st'
              s' h hsp hpl (binv_of_stinv hsi hne)
            exact ⟨hsok2, hline, stinv_of_binv hbv⟩
    | env cfg =>
      unfold runStack at h
      simp only [] at h
      cases hA : cfg.allowBlankLines with
      | true =>
        rw [hA] at h
        simp only [if_true] at h
        exact runEnvTail_inv cfg st s rest hstk hsp hpl hsi r st' s' h
      | false =>
        rw [hA] at h
        simp only [Bool.false_eq_true, if_false] at h
        cases hbl : st.matchBlankLine with
        | mk b st1 =>
          have hsokbl : SOK st st1 := by
            have := sok_matchBlankLine st
            rw [hbl] at this
            exact this
          rw [hbl] at h
          cases b with
          | true =>
            simp only [] at h
            have hline2 : ({ (if cfg.kind.isSome then abandonMark s else s)
                with stack := rest } : St).line = s.line := by
              by_cases hik : cfg.kind.isSome
              · rw [if_pos hik]
                rfl
              · rw [if_neg hik]
            have hsi2 : StInv ({ (if cfg.kind.isSome then abandonMark s
                else s) with stack := rest } : St)
                ⟨({ (if cfg.kind.isSome then abandonMark s else s) with
                  stack := rest } : St).line, st1.start⟩ := by
              rw [hline2, hsokbl.2.1]
              by_cases hik : cfg.kind.isSome
              · rw [if_pos hik]
                exact stinv_of_binv (binv_abandon (binv_pop hsi hstk))
              · rw [if_neg hik]
                exact stinv_pop hsi hstk
            obtain ⟨hsok2, hl2, hb2⟩ := ih st1 _ r st' s' rfl h
              (by rw [hsokbl.2.1]; exact Nat.le_trans hsp hsokbl.2.2.1)
              (by rw [hsokbl.1]; exact hsokbl.2.2.2 hpl) hsi2
            rw [hline2] at hl2 hb2
            exact ⟨sok_trans hsokbl hsok2, hl2, hb2⟩
          | false =>
            have hst1 : st1 = st := matchBlankLine_false hbl
            subst hst1
            simp only [] at h
            exact runEnvTail_inv cfg st1 s rest hstk hsp hpl hsi r st' s' h

theorem stinv_lineAdjust {x : St} {p : Pos} (st : Stream') (h : StInv x p) :
    StInv (lineAdjust st x) p := by
  unfold lineAdjust
  split
  · exact h
  · exact h

theorem lineAdjust_line_pos {x : St} {st : Stream'}
    (hc : st.sol = true ∧ st.eol = false) :
    (lineAdjust st x).line = x.line - 1 := by
  unfold lineAdjust
  rw [if_pos ⟨hc.1, by rw [hc.2]; simp⟩]

theorem lineAdjust_line_neg {x : St} {st : Stream'}
    (hc : ¬(st.sol = true ∧ st.eol = false)) : lineAdjust st x = x := by
  unfold lineAdjust
  rw [if_neg ?_]
  intro ⟨c1, c2⟩
  exact hc ⟨c1, by simpa using c2⟩

theorem token_inv (st : Stream') (s s0 : St)
    (hs0 : (if st.sol then { s with line := s.line + 1 } else s) = s0)
    (hsp : st.start ≤ st.pos) (hpl : st.pos ≤ st.str.length)
    (hsi : StInv s0 ⟨s0.line, st.start⟩) :
    ∀ r st' s', token st s = .ok (r, st', s') →
      SOK st st' ∧ StInv s' ⟨s0.line, st'.pos⟩ ∧
      ((st'.sol = true ∧ st'.eol = false) → s'.line = s0.line - 1) ∧
      (¬(st'.sol = true ∧ st'.eol = false) → s'.line = s0.line) := by
  intro r st' s' h
  unfold token at h
  simp only [] at h
  rw [hs0] at h
  cases hlc : matchLineComment st s0 with
  | error e => exact absurd hlc (matchLineComment_ne _ _ _)
  | ok v =>
    obtain ⟨r1, st1, s1⟩ := v
    have hs1 : s1 = s0 := matchLineComment_state _ _ _ _ _ hlc
    subst hs1
    have hsok1 : SOK st st1 := by
      unfold matchLineComment at hlc
      split at hlc
      · next stA heq =>
        obtain ⟨-, h2, -⟩ := ok3 hlc
        rw [← h2]
        obtain ⟨hsokA, -⟩ := sok_matchLineCommentStart heq
        have hbA : stA.pos ≤ stA.str.length := by
          rw [hsokA.1]
          exact hsokA.2.2.2 hpl
        exact sok_trans hsokA (sok_skipToEnd hbA)
      · obtain ⟨-, h2, -⟩ := ok3 hlc
        rw [← h2]
        exact sok_rfl st
    cases r1 with
    | some rr =>
      rw [hlc] at h
      simp only [] at h
      obtain ⟨-, h2, h3⟩ := ok3 h
      rw [← h2, ← h3]
      refine ⟨hsok1, stinv_lineAdjust _ (stinv_mono hsi
        (frontier_le hsp hsok1)), fun hc => ?_, fun hc => ?_⟩
      · rw [lineAdjust_line_pos hc]
      · rw [lineAdjust_line_neg hc]
    | none =>
      rw [hlc] at h
      simp only [] at h
      cases hrt : runTop st1 s1 with
      | error e =>
        rw [hrt] at h
        exact absurd h (by simp)
      | ok v2 =>
        obtain ⟨r2, st2, s2⟩ := v2
        rw [hrt] at h
        simp only [] at h
        obtain ⟨-, h2, h3⟩ := ok3 h
        rw [← h2, ← h3]
        have hrt' : runStack s1.stack st1 s1 = .ok (r2, st2, s2) := hrt
        have hsp1 : st1.start ≤ st1.pos := by
          rw [hsok1.2.1]
          exact Nat.le_trans hsp hsok1.2.2.1
        have hpl1 : st1.pos ≤ st1.str.length := by
          rw [hsok1.1]
          exact hsok1.2.2.2 hpl
        have hsi1 : StInv s1 ⟨s1.line, st1.start⟩ := by
          rw [hsok1.2.1]
          exact hsi
        obtain ⟨hsok2, hline2, hsi2⟩ := runStack_inv s1.stack st1 s1 r2 st2
          s2 rfl hrt' hsp1 hpl1 hsi1
        refine ⟨sok_trans hsok1 hsok2, ?_, fun hc => ?_, fun hc => ?_⟩
        · exact stinv_lineAdjust _ hsi2
        · rw [lineAdjust_line_pos hc, hline2]
        · rw [lineAdjust_line_neg hc]
          exact hline2

theorem runLine_inv (fuel : Nat) : ∀ st s rs s',
    runLine fuel st s = .ok (rs, s') →
    st.start = st.pos → st.pos ≤ st.str.length →
    StInv s ⟨s.line + (if st.sol then 1 else 0), st.start⟩ →
    StInv s' ⟨s'.line + 1, 0⟩ := by
  induction fuel with
  | zero =>
    intro st s rs s' h hsp hpl hsi
    unfold runLine at h
    split at h
    · obtain ⟨-, h3⟩ := Prod.mk.inj (Except.ok.inj h)
      rw [← h3]
      cases hsol : st.sol with
      | true =>
        rw [hsol] at hsi
        simp only [if_true] at hsi
        have hp0 : st.pos = 0 := by
          have := hsol
          unfold Stream'.sol at this
          simpa using this
        rw [hsp, hp0] at hsi
        exact hsi
      | false =>
        rw [hsol] at hsi
        simp only [Bool.false_eq_true, if_false, add_zero] at hsi
        exact stinv_mono hsi (Pos.le_of_lt_line (by omega))
    · exact absurd h (by simp)
  | succ f ih =>
    intro st s rs s' h hsp hpl hsi
    unfold runLine at h
    split at h
    · obtain ⟨-, h3⟩ := Prod.mk.inj (Except.ok.inj h)
      rw [← h3]
      cases hsol : st.sol with
      | true =>
        rw [hsol] at hsi
        simp only [if_true] at hsi
        have hp0 : st.pos = 0 := by
          have := hsol
          unfold Stream'.sol at this
          simpa using this
        rw [hsp, hp0] at hsi
        exact hsi
      | false =>
        rw [hsol] at hsi
        simp only [Bool.false_eq_true, if_false, add_zero] at hsi
        exact stinv_mono hsi (Pos.le_of_lt_line (by omega))
    · cases ht : token st s with
      | error e =>
        rw [ht] at h
        exact absurd h (by simp)
      | ok v =>
        obtain ⟨r, st2, s2⟩ := v
        rw [ht] at h
        simp only [] at h
        cases hrec : runLine f { st2 with start := st2.pos } s2 with
        | error e =>
          rw [hrec] at h
          exact absurd h (by simp [Except.map])
        | ok v2 =>
          obtain ⟨rs2, s2'⟩ := v2
          rw [hrec] at h
          have hs' : s2' = s' := by
            simp only [Except.map, Except.ok.injEq] at h
            exact congrArg Prod.snd h
          rw [← hs']
          have hs0def : (if st.sol then { s with line := s.line + 1 }
              else s) = (if st.sol then { s with line := s.line + 1 }
              else s) := rfl
          have hs0line : ((if st.sol then { s with line := s.line + 1 }
              else s) : St).line = s.line + (if st.sol then 1 else 0) := by
            cases hsol : st.sol
            · simp
            · simp
          have hsi0 : StInv (if st.sol then { s with line := s.line + 1 }
              else s) ⟨((if st.sol then { s with line := s.line + 1 }
              else s) : St).line, st.start⟩ := by
            rw [hs0line]
            cases hsol : st.sol
            · simp only [Bool.false_eq_true, if_false]
              rw [hsol] at hsi
              simp only [Bool.false_eq_true, if_false] at hsi
              exact hsi
            · simp only [if_true]
              rw [hsol] at hsi
              simp only [if_true] at hsi
              exact hsi
          obtain ⟨hsokT, hsiT, hlpos, hlneg⟩ := token_inv st s _ hs0def
            (le_of_eq hsp) hpl hsi0 r st2 s2 ht
          refine ih { st2 with start := st2.pos } s2 rs2 s2' hrec rfl
            (by show st2.pos ≤ st2.str.length
                rw [hsokT.1]
                exact hsokT.2.2.2 hpl) ?_
          show StInv s2 ⟨s2.line + (if st2.sol then 1 else 0), st2.pos⟩
          cases hsol2 : st2.sol with
          | false =>
            simp only [Bool.false_eq_true, if_false, add_zero]
            have hl2 : s2.line = ((if st.sol then
                { s with line := s.line + 1 } else s) : St).line :=
              hlneg (by rw [hsol2]; simp)
            rw [hl2]
            exact hsiT
          | true =>
            simp only [if_true]
            cases heol2 : st2.eol with
            | false =>
              have hl2 : s2.line = ((if st.sol then
                  { s with line := s.line + 1 } else s) : St).line - 1 :=
                hlpos ⟨hsol2, heol2⟩
              have hp0 : st2.pos = 0 := by
                have := hsol2
                unfold Stream'.sol at this
                simpa using this
              rw [hl2, hp0]
              rw [sub_add_cancel]
              rw [hp0] at hsiT
              exact hsiT
            | true =>
              have hl2 : s2.line = ((if st.sol then
                  { s with line := s.line + 1 } else s) : St).line :=
                hlneg (by rw [heol2]; simp)
              have hp0 : st2.pos = 0 := by
                have := hsol2
                unfold Stream'.sol at this
                simpa using this
              rw [hl2, hp0]
              exact stinv_mono hsiT (Pos.le_of_lt_line (by omega))

theorem processLine_inv (l : String) (s : St) (o : List (Option String))
    (s' : St) (h : processLine l s = .ok (o, s'))
    (hsi : StInv s ⟨s.line + 1, 0⟩) : StInv s' ⟨s'.line + 1, 0⟩ := by
  unfold processLine at h
  split at h
  · unfold blankLineSt at h
    cases ht : token ⟨[], 0, 0⟩ s with
    | error e =>
      rw [ht] at h
      exact absurd h (by simp [Except.map])
    | ok v =>
      obtain ⟨r, st2, s2⟩ := v
      rw [ht] at h
      have hs2 : s2 = s' := by
        simp only [Except.map, Except.ok.injEq] at h
        exact congrArg Prod.snd h
      rw [← hs2]
      have hsi0 : StInv ({ s with line := s.line + 1 } : St)
          ⟨({ s with line := s.line + 1 } : St).line, (0 : Nat)⟩ := hsi
      obtain ⟨hsokT, hsiT, -, hlneg⟩ := token_inv ⟨[], 0, 0⟩ s
        { s with line := s.line + 1 } rfl (Nat.le_refl _) (Nat.zero_le _)
        hsi0 r st2 s2 ht
      have heol : st2.eol = true := by
        have hstr : st2.str = [] := hsokT.1
        simp [Stream'.eol, hstr]
      have hl2 : s2.line = s.line + 1 :=
        hlneg (by rw [heol]; simp)
      rw [hl2]
      exact stinv_mono hsiT (Pos.le_of_lt_line (by simp only []; omega))
  · refine runLine_inv (lineFuel l s) ⟨l.data, 0, 0⟩ s o s' h rfl
      (Nat.zero_le _) ?_
    exact hsi

theorem processLinesOut_inv : ∀ (ls : List String) (s : St)
    (out : List (List (Option String))) (s' : St),
    processLinesOut ls s = .ok (out, s') → StInv s ⟨s.line + 1, 0⟩ →
    StInv s' ⟨s'.line + 1, 0⟩ := by
  intro ls
  induction ls with
  | nil =>
    intro s out s' h hsi
    obtain ⟨-, h3⟩ := Prod.mk.inj (Except.ok.inj h)
    rw [← h3]
    exact hsi
  | cons l ls ih =>
    intro s out s' h hsi
    unfold processLinesOut at h
    cases hpl : processLine l s with
    | error e =>
      rw [hpl] at h
      exact absurd h (by simp)
    | ok v =>
      obtain ⟨o, s1⟩ := v
      rw [hpl] at h
      simp only [] at h
      cases hrec : processLinesOut ls s1 with
      | error e =>
        rw [hrec] at h
        exact absurd h (by simp [Except.map])
      | ok v2 =>
        obtain ⟨out2, s2⟩ := v2
        rw [hrec] at h
        have hs2 : s2 = s' := by
          simp only [Except.map, Except.ok.injEq] at h
          exact congrArg Prod.snd h
        rw [← hs2]
        exact ih s1 out2 s2 hrec (processLine_inv l s o s1 hpl hsi)

theorem stinv_startState : StInv startState ⟨startState.line + 1, 0⟩ := by
  refine ⟨?_, ?_, ?_, ?_, ?_, ?_, ?_⟩
  · intro m hm
    exact absurd hm (List.not_mem_nil m)
  · exact List.chain'_nil
  · intro m hm
    exact absurd hm (List.not_mem_nil m)
  · intro om hom
    exact absurd hom (List.not_mem_nil om)
  · intro t ht
    rw [List.mem_singleton.mp ht]
    trivial
  · intro t ht
    exact absurd ht (List.not_mem_nil t)
  · intro pats cp hh
    exact Tok.noConfusion (Option.some.inj hh)

theorem reachable_stinv {s : St} (h : Reachable s) :
    StInv s ⟨s.line + 1, 0⟩ := by
  obtain ⟨ls, hls⟩ := h
  unfold processLines at hls
  cases hout : processLinesOut ls startState with
  | error e =>
    rw [hout] at hls
    exact absurd hls (by simp [Except.map])
  | ok v =>
    obtain ⟨out, sF⟩ := v
    rw [hout] at hls
    have hsF : sF = s := by
      simp only [Except.map, Except.ok.injEq] at hls
      exact hls
    rw [← hsF]
    exact processLinesOut_inv ls startState out sF hout stinv_startState

/-- C2 (amended): in every state reachable from `startState` under the host
protocol (`token` over the characters of each line, `blankLine` on empty
lines), every closed mark satisfies `from < to`, `from ≤ contentFrom` and
`contentTo ≤ to`, and every closed mark except the `maketitle` marks (which
`_matchCommand` closes at their own open position, so `contentTo <
contentFrom` there) also satisfies `contentFrom ≤ contentTo`. -/
theorem marks_range_invariant (s : St) (h : Reachable s) :
    ∀ m ∈ s.marks, markOK m :=
  fun m hm => (reachable_stinv h).1 m hm

/-- Witness: the mark produced by tokenizing `$x$` satisfies the amended
range invariant. -/
theorem marks_range_invariant_witness :
    markOK ⟨"inline-math", ⟨0, 0⟩, ⟨0, 1⟩, ⟨0, 2⟩, ⟨0, 3⟩, none,
      ⟨none, none, none, none, none⟩⟩ := by
  have hfin : processLines ["$x$"] startState = .ok
      (⟨[.topLevel], 0, [], [⟨"inline-math", ⟨0, 0⟩, ⟨0, 1⟩, ⟨0, 2⟩, ⟨0, 3⟩,
        none, ⟨none, none, none, none, none⟩⟩], 1⟩ : St) := by decide
  exact marks_range_invariant _ ⟨["$x$"], hfin⟩ _
    (List.mem_singleton.mpr rfl)

/-- C8: in every reachable state the closed marks (whose list order is the
closing order, the list being append-only) have weakly ascending `to`
positions and weakly ascending `contentTo` positions. -/
theorem marks_close_ordered (s : St) (h : Reachable s) :
    List.Chain' mle s.marks :=
  (reachable_stinv h).2.1

/-- Witness: the closed marks after tokenizing `$x$` are ordered. -/
theorem marks_close_ordered_witness :
    List.Chain' mle (⟨[.topLevel], 0, [],
      [⟨"inline-math", ⟨0, 0⟩, ⟨0, 1⟩, ⟨0, 2⟩, ⟨0, 3⟩, none,
        ⟨none, none, none, none, none⟩⟩], 1⟩ : St).marks := by
  have hfin : processLines ["$x$"] startState = .ok
      (⟨[.topLevel], 0, [], [⟨"inline-math", ⟨0, 0⟩, ⟨0, 1⟩, ⟨0, 2⟩, ⟨0, 3⟩,
        none, ⟨none, none, none, none, none⟩⟩], 1⟩ : St) := by decide
  exact marks_close_ordered _ ⟨["$x$"], hfin⟩

end LatexMode